import Mathlib

/-!
# Pusher: push error, APNS push queue and feedback listener

A shallow embedding of `errors/push.go`, `extensions/apns_push_queue.go` and
`feedback/listener.go`.

* Go strings are `String`, Go `int` values are `Int`.
* A Go channel is a record of its buffer, its capacity and a closed flag; a nil
  channel is `none`.
* Goroutines are interleaved: every statement of `pushWorker` that touches a
  channel or calls the client is one labelled step of `step`.
* A Go run-time panic is the outcome `Outcome.panic`; a statement that cannot
  proceed is `Outcome.blocked`.
* A call of `WaitTimeout` is a schedule of labelled steps of `waitStep`: time
  passing, the counter being released, the waiting goroutine closing its channel,
  and the two cases of the `select`.
* The libraries `viper`, `cast` and `strconv` are embedded as far as `configure`
  reaches them: the lookup of a key in the environment, the configuration file
  and the defaults, and the conversion of what is found to an `int`.
* The consumer, the broker and the invalid-token handler are not among the
  sources; what is said about them is marked as modelled from the spec.
-/

namespace Pusher

/-! ## errors/push.go -/

/-- The part of Go `fmt.Sprintf` used by this repository: the verb `%s` applied to
string operands, and the escape `%%`. A `%s` copies its operand verbatim (the
operand is never scanned for verbs); a `%s` without operand prints Go's
`%!s(MISSING)`. Every other character is copied. -/
def Sprintf : List Char → List String → List Char
  | [], _ => []
  | '%' :: 's' :: rest, a :: args => a.data ++ Sprintf rest args
  | '%' :: 's' :: rest, [] => "%!s(MISSING)".data ++ Sprintf rest []
  | '%' :: '%' :: rest, args => '%' :: Sprintf rest args
  | c :: rest, args => c :: Sprintf rest args

/-- Go `type PushError struct { Key string; Description string }`. -/
structure PushError where
  Key : String
  Description : String
deriving DecidableEq, Repr

/-- Go `func NewPushError(key, description string) *PushError`. -/
def NewPushError (key description : String) : PushError :=
  { Key := key, Description := description }

/-- Go `func (e *PushError) Error() string`. -/
def PushError.Error (e : PushError) : String :=
  ⟨Sprintf "Sending push notification failed with error %s (%s).".data
    [e.Key, e.Description]⟩

/-! ## Outcomes and channels -/

/-- Result of running a piece of Go code: it finished, it is blocked on a channel
operation, or the goroutine panicked. -/
inductive Outcome (α : Type) where
  | done (a : α)
  | blocked
  | panic (msg : String)
deriving DecidableEq, Repr

/-- A Go channel made by `make(chan T, cap)`: buffered values in FIFO order, the
capacity, and whether `close` was called. -/
structure Chan (α : Type) where
  buf : List α
  cap : Nat
  closed : Bool
deriving DecidableEq, Repr

/-- Go `make(chan T, cap)` for a capacity `cap ≥ 0`. -/
def Chan.make {α : Type} (cap : Nat) : Chan α :=
  { buf := [], cap := cap, closed := false }

/-- Go `close(ch)` on a possibly nil channel: closing a nil channel or a closed
channel panics. -/
def closeChan {α : Type} : Option (Chan α) → Outcome (Chan α)
  | none => Outcome.panic "close of nil channel"
  | some ch =>
    if ch.closed then Outcome.panic "close of closed channel"
    else Outcome.done { ch with closed := true }

/-! ## extensions/apns_push_queue.go: data -/

/-- The signing key returned by `token.AuthKeyFromFile` (library `apns2/token`);
only its identity matters here. -/
structure AuthKey where
  pem : String
deriving DecidableEq, Repr

/-- Go `token.Token{AuthKey, KeyID, TeamID}` of library `apns2/token`. -/
structure Token where
  AuthKey : AuthKey
  KeyID : String
  TeamID : String
deriving DecidableEq, Repr

/-- The endpoint a client of library `apns2` talks to: `HostDevelopment` or
`HostProduction`. -/
inductive Host where
  | Development
  | Production
deriving DecidableEq, Repr

/-- A `*apns2.Client`. `id` is the identity of the allocated object (two pointers
are equal iff their ids are), `Token` the token it was built from, `Host` its
endpoint. -/
structure Client where
  id : Nat
  Token : Option Token
  Host : Host
deriving DecidableEq, Repr

/-- Go `apns2.NewTokenClient(token)`: a fresh client on the library's default
(development) host. -/
def NewTokenClient (id : Nat) (token : Option Token) : Client :=
  { id := id, Token := token, Host := Host.Development }

/-- Go `client.Production()` of library `apns2`. -/
def Client.Production (c : Client) : Client := { c with Host := Host.Production }

/-- Go `client.Development()` of library `apns2`. -/
def Client.Development (c : Client) : Client := { c with Host := Host.Development }

/-- The fields of `apns2.Notification` that matter here. -/
structure Notification where
  ApnsID : String
  DeviceToken : String
  Topic : String
  Payload : String
deriving DecidableEq, Repr

/-- An `apns2.Response`. -/
structure Response where
  StatusCode : Int
  Reason : String
  ApnsID : String
deriving DecidableEq, Repr

/-- Go `res.Sent()` of library `apns2`: the status code is `StatusSent` (HTTP 200). -/
def Response.Sent (r : Response) : Bool := r.StatusCode == 200

/-- Modelled from the spec: the record `structs.ResponseWithMetadata`, whose
declaration is not among the sources; its fields are those of the composite
literal in `pushWorker` and of the spec's data model
(`statusCode:int, reason:string, apnsId:string, sent:bool, deviceToken:string`). -/
structure ResponseWithMetadata where
  StatusCode : Int
  Reason : String
  ApnsID : String
  Sent : Bool
  DeviceToken : String
deriving DecidableEq, Repr

/-- The two keys `Configure` reads with `p.Config.GetInt`. -/
structure Config where
  connectionPoolSize : Int
  concurrentWorkers : Int
deriving DecidableEq, Repr

/-- One call on the logger: level, the `method` field, the message. -/
structure LogEntry where
  level : String
  method : String
  msg : String
deriving DecidableEq, Repr

/-- Go `type APNSPushQueue struct` (the logger is represented by what was logged,
see `Sys.log`). -/
structure APNSPushQueue where
  authKeyPath : String
  keyID : String
  teamID : String
  token : Option Token
  pushChannel : Option (Chan Notification)
  responseChannel : Option (Chan ResponseWithMetadata)
  Config : Config
  clients : Option (Chan Client)
  IsProduction : Bool
  Closed : Bool
deriving DecidableEq, Repr

/-- Go `func NewAPNSPushQueue(...)`: the fields not listed are zero values. -/
def NewAPNSPushQueue (authKeyPath keyID teamID : String) (isProduction : Bool)
    (config : Config) : APNSPushQueue :=
  { authKeyPath := authKeyPath, keyID := keyID, teamID := teamID, token := none,
    pushChannel := none, responseChannel := none, Config := config, clients := none,
    IsProduction := isProduction, Closed := false }

/-- Where a `pushWorker` goroutine stands.
* `recv`: at `for notification := range p.pushChannel`, waiting for a value;
* `acquire n`: before `client := <-p.clients`;
* `release n c`: before `p.clients <- client`;
* `send n c`: before `client.Push(notification)`;
* `publish n r`: before `p.responseChannel <- newRes`;
* `exited`: the loop is over. -/
inductive Worker where
  | recv
  | acquire (n : Notification)
  | release (n : Notification) (c : Client)
  | send (n : Notification) (c : Client)
  | publish (n : Notification) (r : ResponseWithMetadata)
  | exited
deriving DecidableEq, Repr

/-- What can be observed of a worker from outside: it took a notification from
`pushChannel`, or it is done with one (its record was received from
`responseChannel`, or it was dropped for lack of a response). -/
inductive Event where
  | accepted (worker : Nat) (n : Notification)
  | published (worker : Nat) (n : Notification) (r : ResponseWithMetadata)
  | dropped (worker : Nat) (n : Notification)
deriving DecidableEq, Repr

/-- The queue together with the goroutines and objects around it. The workers
listed are those spawned by the one `Configure` that made the current channels, so
that the channel a worker ranges over is `q.pushChannel`. -/
structure Sys where
  /-- the queue object `p` -/
  q : APNSPushQueue
  /-- the `pushWorker` goroutines spawned so far, in spawn order -/
  workers : List Worker
  /-- number of `apns2.Client` objects created so far -/
  allocated : Nat
  /-- the records received from `responseChannel`, oldest first -/
  delivered : List ResponseWithMetadata
  /-- the observable events, oldest first -/
  trace : List Event
  /-- the logger calls, oldest first -/
  log : List LogEntry
deriving DecidableEq, Repr

/-- A queue fresh from `NewAPNSPushQueue`: no goroutine, no client. -/
def Sys.new (q : APNSPushQueue) : Sys :=
  { q := q, workers := [], allocated := 0, delivered := [], trace := [], log := [] }

/-! ## extensions/apns_push_queue.go: Configure -/

/-- Go `func (p *APNSPushQueue) configureCertificate() error`. The library call
`token.AuthKeyFromFile` is the parameter `authKeyFromFile`. -/
def configureCertificate (authKeyFromFile : String → Except String AuthKey) (s : Sys) :
    Option String × Sys :=
  match authKeyFromFile s.q.authKeyPath with
  | Except.error err =>
    (some err, { s with log := s.log ++ [⟨"error", "configureCertificate", "token error"⟩] })
  | Except.ok authKey =>
    (none, { s with
      q := { s.q with token := some { AuthKey := authKey, KeyID := s.q.keyID, TeamID := s.q.teamID } }
      log := s.log ++ [⟨"debug", "configureCertificate", "token loaded"⟩] })

/-- The client built by one iteration of the pool loop of `Configure`:
`apns2.NewTokenClient(p.token)`, then `Production()` or `Development()` as
`p.IsProduction` says. The new object takes the next free identity. -/
def poolClient (s : Sys) : Client :=
  let client := NewTokenClient s.allocated s.q.token
  if s.q.IsProduction then client.Production else client.Development

/-- The loop `for i := 0; i < connectionPoolSize; i++ { ... p.clients <- client }`:
`k` iterations are left. Each one allocates a client, binds it to an endpoint and
sends it on the buffered channel `p.clients` (which blocks when the buffer is
full). -/
def fillClients : Nat → Sys → Outcome Sys
  | 0, s => Outcome.done s
  | k + 1, s =>
    let client := poolClient s
    match s.q.clients with
    | none => Outcome.blocked
    | some ch =>
      if ch.buf.length < ch.cap then
        fillClients k { s with
          q := { s.q with clients := some { ch with buf := ch.buf ++ [client] } }
          allocated := s.allocated + 1 }
      else Outcome.blocked

/-- The loop `for i := 0; i < p.Config.GetInt("apns.concurrentWorkers"); i++
{ go p.pushWorker() }`: `k` iterations are left. -/
def spawnWorkers : Nat → Sys → Sys
  | 0, s => s
  | k + 1, s => spawnWorkers k { s with workers := s.workers ++ [Worker.recv] }

/-- Go `func (p *APNSPushQueue) Configure() error`. The result is the returned error
(`none` for nil) and the state left behind. `make` with a negative size panics;
the limit the run-time system puts on the size of a channel is not modelled. -/
def Configure (authKeyFromFile : String → Except String AuthKey) (s : Sys) :
    Outcome (Option String × Sys) :=
  match configureCertificate authKeyFromFile s with
  | (some err, s1) => Outcome.done (some err, s1)
  | (none, s1) =>
    let s2 : Sys := { s1 with q := { s1.q with Closed := false } }
    let connectionPoolSize : Int := s2.q.Config.connectionPoolSize
    if connectionPoolSize < 0 then Outcome.panic "makechan: size out of range"
    else
      let s3 : Sys := { s2 with q := { s2.q with clients := some (Chan.make connectionPoolSize.toNat) } }
      match fillClients connectionPoolSize.toNat s3 with
      | Outcome.panic m => Outcome.panic m
      | Outcome.blocked => Outcome.blocked
      | Outcome.done s4 =>
        let s5 : Sys := { s4 with log := s4.log ++ [⟨"debug", "configure", "clients configured"⟩] }
        let s6 : Sys := { s5 with q := { s5.q with pushChannel := some (Chan.make 0) } }
        let s7 : Sys := { s6 with q := { s6.q with responseChannel := some (Chan.make 0) } }
        Outcome.done (none, spawnWorkers s7.q.Config.concurrentWorkers.toNat s7)

/-! ## extensions/apns_push_queue.go: pushWorker, Push, Close -/

/-- The composite literal `&structs.ResponseWithMetadata{...}` of `pushWorker`. -/
def newRes (notification : Notification) (res : Response) : ResponseWithMetadata :=
  { StatusCode := res.StatusCode
    Reason := res.Reason
    ApnsID := res.ApnsID
    Sent := res.Sent
    DeviceToken := notification.DeviceToken }

/-- The statements of `pushWorker` between the return of `client.Push` and the
send on `responseChannel`: the log entry written when `err != nil`, and the
record to publish, `none` when `res == nil` (the `continue`). -/
def afterPush (notification : Notification) (res : Option Response) (err : Option String) :
    List LogEntry × Option ResponseWithMetadata :=
  let logged : List LogEntry :=
    match err with
    | some _ => [⟨"error", "pushWorker", "push error"⟩]
    | none => []
  match res with
  | none => (logged, none)
  | some r => (logged, some (newRes notification r))

/-- The atomic actions of the system after `Configure`.
* `push n i`: a caller runs `Push(n)` and worker `i` receives `n` from the
  unbuffered `pushChannel`;
* `borrow i`: worker `i` runs `client := <-p.clients`;
* `giveBack i`: worker `i` runs `p.clients <- client`;
* `clientPush i res err`: worker `i` runs `client.Push(notification)`, which returns
  `(res, err)`, and the two `if` statements that follow it;
* `publish i`: worker `i` runs `p.responseChannel <- newRes` and the consumer of the
  channel receives the record;
* `exit i`: worker `i` finds `pushChannel` closed and leaves its loop;
* `close`: a caller runs `Close()`. -/
inductive Label where
  | push (n : Notification) (i : Nat)
  | borrow (i : Nat)
  | giveBack (i : Nat)
  | clientPush (i : Nat) (res : Option Response) (err : Option String)
  | publish (i : Nat)
  | exit (i : Nat)
  | close
deriving DecidableEq, Repr

/-- Sequencing of outcomes. -/
def Outcome.bind {α β : Type} (o : Outcome α) (f : α → Outcome β) : Outcome β :=
  match o with
  | Outcome.done a => f a
  | Outcome.blocked => Outcome.blocked
  | Outcome.panic m => Outcome.panic m

/-- Statement `close(p.pushChannel)`. -/
def closePushChannel (s : Sys) : Outcome Sys :=
  (closeChan s.q.pushChannel).bind fun ch =>
    Outcome.done { s with q := { s.q with pushChannel := some ch } }

/-- Statement `close(p.responseChannel)`. -/
def closeResponseChannel (s : Sys) : Outcome Sys :=
  (closeChan s.q.responseChannel).bind fun ch =>
    Outcome.done { s with q := { s.q with responseChannel := some ch } }

/-- Statement `p.Closed = true`. -/
def setClosed (s : Sys) : Outcome Sys :=
  Outcome.done { s with q := { s.q with Closed := true } }

/-- Go `func (p *APNSPushQueue) Close()`. -/
def Close (s : Sys) : Outcome Sys :=
  ((closePushChannel s).bind closeResponseChannel).bind setClosed

/-- Go `func (p *APNSPushQueue) Push(notification)` meeting the receive of worker `i`
at the head of its `range` loop. Sending on a nil channel blocks for ever, sending
on a closed channel panics, and an unbuffered send needs a receiver. -/
def Push (notification : Notification) (i : Nat) (s : Sys) : Outcome Sys :=
  match s.q.pushChannel with
  | none => Outcome.blocked
  | some ch =>
    if ch.closed then Outcome.panic "send on closed channel"
    else
      match s.workers[i]? with
      | some Worker.recv =>
        Outcome.done { s with
          workers := s.workers.set i (Worker.acquire notification)
          trace := s.trace ++ [Event.accepted i notification] }
      | _ => Outcome.blocked

/-- One statement of worker `i` of `pushWorker`, chosen by the label. -/
def workerStep (s : Sys) : Label → Outcome Sys
  | Label.borrow i =>
    match s.workers[i]? with
    | some (Worker.acquire n) =>
      match s.q.clients with
      | none => Outcome.blocked
      | some ch =>
        match ch.buf with
        | [] => Outcome.blocked
        | client :: rest =>
          Outcome.done { s with
            q := { s.q with clients := some { ch with buf := rest } }
            workers := s.workers.set i (Worker.release n client) }
    | _ => Outcome.blocked
  | Label.giveBack i =>
    match s.workers[i]? with
    | some (Worker.release n client) =>
      match s.q.clients with
      | none => Outcome.blocked
      | some ch =>
        if ch.closed then Outcome.panic "send on closed channel"
        else if ch.buf.length < ch.cap then
          Outcome.done { s with
            q := { s.q with clients := some { ch with buf := ch.buf ++ [client] } }
            workers := s.workers.set i (Worker.send n client) }
        else Outcome.blocked
    | _ => Outcome.blocked
  | Label.clientPush i res err =>
    match s.workers[i]? with
    | some (Worker.send n _) =>
      match afterPush n res err with
      | (logged, none) =>
        Outcome.done { s with
          workers := s.workers.set i Worker.recv
          trace := s.trace ++ [Event.dropped i n]
          log := s.log ++ logged }
      | (logged, some r) =>
        Outcome.done { s with
          workers := s.workers.set i (Worker.publish n r)
          log := s.log ++ logged }
    | _ => Outcome.blocked
  | Label.publish i =>
    match s.workers[i]? with
    | some (Worker.publish n r) =>
      match s.q.responseChannel with
      | none => Outcome.blocked
      | some ch =>
        if ch.closed then Outcome.panic "send on closed channel"
        else
          Outcome.done { s with
            workers := s.workers.set i Worker.recv
            delivered := s.delivered ++ [r]
            trace := s.trace ++ [Event.published i n r] }
    | _ => Outcome.blocked
  | Label.exit i =>
    match s.workers[i]? with
    | some Worker.recv =>
      match s.q.pushChannel with
      | none => Outcome.blocked
      | some ch =>
        if ch.closed then Outcome.done { s with workers := s.workers.set i Worker.exited }
        else Outcome.blocked
    | _ => Outcome.blocked
  | _ => Outcome.blocked

/-- One atomic action of the system. -/
def step (s : Sys) : Label → Outcome Sys
  | Label.push n i => Push n i s
  | Label.close => Close s
  | l => workerStep s l

/-- Runs a schedule, a list of labels, from a state. -/
def run : Sys → List Label → Outcome Sys
  | s, [] => Outcome.done s
  | s, l :: ls => (step s l).bind fun s1 => run s1 ls

/-- The states of the system after a successful `Configure` of the fresh queue
`q0`, followed by any number of `Push`, worker and `Close` actions. -/
inductive Reachable (authKeyFromFile : String → Except String AuthKey) (q0 : APNSPushQueue) :
    Sys → Prop where
  | init (s : Sys) :
      Configure authKeyFromFile (Sys.new q0) = Outcome.done (none, s) →
      Reachable authKeyFromFile q0 s
  | step (s : Sys) (l : Label) (s1 : Sys) :
      Reachable authKeyFromFile q0 s → step s l = Outcome.done s1 →
      Reachable authKeyFromFile q0 s1

/-! ## Demonstration inputs -/

/-- A key loader that finds a key at every path. -/
def demoKeyLoader : String → Except String AuthKey :=
  fun _ => Except.ok { pem := "KEY" }

/-- A key loader that finds no key. -/
def demoNoKey : String → Except String AuthKey :=
  fun _ => Except.error "open key.p8: no such file or directory"

/-- A production queue with a pool of three clients and two workers. -/
def demoQueue : APNSPushQueue :=
  NewAPNSPushQueue "key.p8" "KEYID" "TEAMID" true
    { connectionPoolSize := 3, concurrentWorkers := 2 }

/-- The token `Configure` builds for `demoQueue`. -/
def demoToken : Token :=
  { AuthKey := { pem := "KEY" }, KeyID := "KEYID", TeamID := "TEAMID" }

/-- The `k`-th client of the pool of `demoQueue`. -/
def demoClient (k : Nat) : Client :=
  { id := k, Token := some demoToken, Host := Host.Production }

/-- The state `Configure` leaves for `demoQueue`. -/
def demoConfigured : Sys :=
  { q := { demoQueue with
      token := some demoToken
      pushChannel := some (Chan.make 0)
      responseChannel := some (Chan.make 0)
      clients := some { buf := [demoClient 0, demoClient 1, demoClient 2], cap := 3, closed := false } }
    workers := [Worker.recv, Worker.recv]
    allocated := 3
    delivered := []
    trace := []
    log := [⟨"debug", "configureCertificate", "token loaded"⟩,
            ⟨"debug", "configure", "clients configured"⟩] }

/-- A notification for device `dev-1`. -/
def demoNote1 : Notification :=
  { ApnsID := "id-1", DeviceToken := "dev-1", Topic := "com.game", Payload := "hello" }

/-- A notification for device `dev-2`. -/
def demoNote2 : Notification :=
  { ApnsID := "id-2", DeviceToken := "dev-2", Topic := "com.game", Payload := "world" }

/-- A response of the push service: accepted. -/
def demoResponse : Response :=
  { StatusCode := 200, Reason := "", ApnsID := "apns-9" }

/-- The clients a pool loop of `k` iterations creates when the next free identity
is `start`: identities `start, start + 1, ...`, all built from `token`, all on
the production host if `isProduction` holds and on the development host
otherwise. -/
def poolOf (isProduction : Bool) (token : Option Token) (start : Nat) : Nat → List Client
  | 0 => []
  | k + 1 =>
    { id := start, Token := token,
      Host := if isProduction then Host.Production else Host.Development } ::
      poolOf isProduction token (start + 1) k

/-- The client a worker has taken out of the pool and not yet put back. -/
def Worker.borrowed : Worker → Option Client
  | Worker.release _ c => some c
  | _ => none

/-- The notification a worker holds: accepted from `pushChannel`, neither published
nor dropped yet. -/
def Worker.held : Worker → Option Notification
  | Worker.acquire n => some n
  | Worker.release n _ => some n
  | Worker.send n _ => some n
  | Worker.publish n _ => some n
  | _ => none

/-- Number of workers that hold a notification. -/
def busyWorkers (s : Sys) : Nat :=
  s.workers.countP fun w => w.held.isSome

/-- Whether an event is the acceptance of a notification. -/
def Event.isAccepted : Event → Bool
  | Event.accepted _ _ => true
  | _ => false

/-- Whether an event retires a notification: its record was delivered, or it was
dropped. -/
def Event.isRetired : Event → Bool
  | Event.accepted _ _ => false
  | _ => true

/-- Number of notifications accepted from `pushChannel` and not yet retired,
counted on the trace. -/
def inFlight (trace : List Event) : Nat :=
  trace.countP Event.isAccepted - trace.countP Event.isRetired

/-- Effect of one event on the notification worker `i` has in flight. -/
def holderUpdate (i : Nat) (cur : Option Notification) : Event → Option Notification
  | Event.accepted j n => if j = i then some n else cur
  | Event.published j _ _ => if j = i then none else cur
  | Event.dropped j _ => if j = i then none else cur

/-- The notification that, according to the trace, worker `i` accepted and has not
retired. -/
def inFlightOf (i : Nat) (trace : List Event) : Option Notification :=
  trace.foldl (holderUpdate i) none

/-- The transitions of `step` that succeed, one rule per case. -/
inductive Step : Sys → Label → Sys → Prop where
  | push (s : Sys) (n : Notification) (i : Nat) (pc : Chan Notification) :
      s.q.pushChannel = some pc → pc.closed = false → s.workers[i]? = some Worker.recv →
      Step s (Label.push n i) { s with
        workers := s.workers.set i (Worker.acquire n)
        trace := s.trace ++ [Event.accepted i n] }
  | borrow (s : Sys) (i : Nat) (n : Notification) (pool : Chan Client) (c : Client)
      (rest : List Client) :
      s.workers[i]? = some (Worker.acquire n) → s.q.clients = some pool →
      pool.buf = c :: rest →
      Step s (Label.borrow i) { s with
        q := { s.q with clients := some { pool with buf := rest } }
        workers := s.workers.set i (Worker.release n c) }
  | giveBack (s : Sys) (i : Nat) (n : Notification) (c : Client) (pool : Chan Client) :
      s.workers[i]? = some (Worker.release n c) → s.q.clients = some pool →
      pool.closed = false → pool.buf.length < pool.cap →
      Step s (Label.giveBack i) { s with
        q := { s.q with clients := some { pool with buf := pool.buf ++ [c] } }
        workers := s.workers.set i (Worker.send n c) }
  | dropped (s : Sys) (i : Nat) (n : Notification) (c : Client) (err : Option String) :
      s.workers[i]? = some (Worker.send n c) →
      Step s (Label.clientPush i none err) { s with
        workers := s.workers.set i Worker.recv
        trace := s.trace ++ [Event.dropped i n]
        log := s.log ++ (afterPush n none err).1 }
  | responded (s : Sys) (i : Nat) (n : Notification) (c : Client) (r : Response)
      (err : Option String) :
      s.workers[i]? = some (Worker.send n c) →
      Step s (Label.clientPush i (some r) err) { s with
        workers := s.workers.set i (Worker.publish n (newRes n r))
        log := s.log ++ (afterPush n (some r) err).1 }
  | publish (s : Sys) (i : Nat) (n : Notification) (r : ResponseWithMetadata)
      (rc : Chan ResponseWithMetadata) :
      s.workers[i]? = some (Worker.publish n r) → s.q.responseChannel = some rc →
      rc.closed = false →
      Step s (Label.publish i) { s with
        workers := s.workers.set i Worker.recv
        delivered := s.delivered ++ [r]
        trace := s.trace ++ [Event.published i n r] }
  | exit (s : Sys) (i : Nat) (pc : Chan Notification) :
      s.workers[i]? = some Worker.recv → s.q.pushChannel = some pc → pc.closed = true →
      Step s (Label.exit i) { s with workers := s.workers.set i Worker.exited }
  | close (s : Sys) (pc : Chan Notification) (rc : Chan ResponseWithMetadata) :
      s.q.pushChannel = some pc → pc.closed = false →
      s.q.responseChannel = some rc → rc.closed = false →
      Step s Label.close { s with
        q := { s.q with
          pushChannel := some { pc with closed := true }
          responseChannel := some { rc with closed := true }
          Closed := true } }

/-- The pool invariant, relative to the clients `P0` that `Configure` created and
the capacity `cap` of the pool channel: the pool channel is open and has that
capacity; the clients in it, together with those borrowed and not yet returned,
are `P0` up to order; a worker sends only with a client of `P0`; and exactly
`cap` client objects were ever created. -/
structure PoolInv (P0 : List Client) (cap : Nat) (s : Sys) : Prop where
  pool : ∃ pool, s.q.clients = some pool ∧ pool.cap = cap ∧ pool.closed = false ∧
    (pool.buf ++ s.workers.filterMap Worker.borrowed).Perm P0
  sending : ∀ (i : Nat) n c, s.workers[i]? = some (Worker.send n c) → c ∈ P0
  allocated : s.allocated = cap

/-- The worker invariant, relative to the number `w` of spawned workers: the
notifications accepted are those retired plus one per busy worker; what the trace
says worker `i` has in flight is what worker `i` holds; and there are `w` workers. -/
structure WorkerInv (w : Nat) (s : Sys) : Prop where
  count : s.trace.countP Event.isAccepted = s.trace.countP Event.isRetired + busyWorkers s
  owner : ∀ i : Nat, inFlightOf i s.trace = (s.workers[i]?).bind Worker.held
  workers : s.workers.length = w

/-- A schedule in which two workers overlap: both accept, worker 0 borrows, worker
1 borrows and returns, worker 0 returns, and the send of worker 0 yields no
response. -/
def demoOverlap : List Label :=
  [Label.push demoNote1 0, Label.push demoNote2 1, Label.borrow 0, Label.borrow 1,
   Label.giveBack 1, Label.giveBack 0, Label.clientPush 0 none none]

/-- The state `demoOverlap` leads to from `demoConfigured`. -/
def demoAfterOverlap : Sys :=
  { demoConfigured with
    q := { demoConfigured.q with
      clients := some { buf := [demoClient 2, demoClient 1, demoClient 0], cap := 3,
                        closed := false } }
    workers := [Worker.recv, Worker.send demoNote2 (demoClient 1)]
    trace := [Event.accepted 0 demoNote1, Event.accepted 1 demoNote2,
              Event.dropped 0 demoNote1] }

/-- The demonstration queue after `Push(demoNote1)` was accepted by worker 0, which
borrowed and returned a client and is about to call it. -/
def demoInFlight : Sys :=
  { demoConfigured with
    q := { demoConfigured.q with
      clients := some { buf := [demoClient 1, demoClient 2, demoClient 0], cap := 3,
                        closed := false } }
    workers := [Worker.send demoNote1 (demoClient 0), Worker.recv]
    trace := [Event.accepted 0 demoNote1] }

/-- The state `Close()` leaves when called in `demoInFlight`. -/
def demoClosedInFlight : Sys :=
  { demoInFlight with
    q := { demoInFlight.q with
      pushChannel := some { buf := [], cap := 0, closed := true }
      responseChannel := some { buf := [], cap := 0, closed := true }
      Closed := true } }

/-! ## feedback/listener.go -/

/-- Wrap-around of a mathematical integer to a Go `int64`. -/
def wrapInt64 (x : Int) : Int :=
  (x + 9223372036854775808) % 18446744073709551616 - 9223372036854775808

/-- Go `time.Second` as a `time.Duration`, a count of nanoseconds. -/
def Second : Int := 1000000000

/-- The expression `time.Duration(seconds) * time.Second`: a conversion to
`int64` and an `int64` multiplication, both wrapping. -/
def durationOfSeconds (seconds : Int) : Int :=
  wrapInt64 (wrapInt64 seconds * Second)

/-- A `*sync.WaitGroup`: its counter. -/
structure WaitGroup where
  counter : Int
deriving DecidableEq, Repr

/-- The state of one call of `WaitTimeout(wg, timeout)`: the counter of `wg`; the
argument `timeout`, in nanoseconds; the time since the call, in nanoseconds;
whether the goroutine of `WaitTimeout` has returned from `wg.Wait()` and closed
the channel `c`; and the value returned, once the `select` has run. -/
structure WaitState where
  counter : Int
  timeout : Int
  elapsed : Nat
  closed : Bool
  result : Option Bool
deriving DecidableEq, Repr

/-- The atomic actions around one call of `WaitTimeout`.
* `tick ns`: `ns` nanoseconds pass;
* `counterDone`: another goroutine calls `wg.Done()`;
* `wake`: in the goroutine of `WaitTimeout`, `wg.Wait()` returns and the deferred
  `close(c)` runs;
* `selectClosed`: the `select` takes `case <-c` and `WaitTimeout` returns false;
* `selectTimer`: the `select` takes `case <-time.After(timeout)` and `WaitTimeout`
  returns true. -/
inductive WaitLabel where
  | tick (ns : Nat)
  | counterDone
  | wake
  | selectClosed
  | selectTimer
deriving DecidableEq, Repr

/-- One atomic action, `none` when it cannot happen: `wg.Done()` needs a positive
counter, `wg.Wait()` returns only when the counter is zero, a receive from `c`
proceeds only once `c` is closed, and the timer's channel delivers only once
`timeout` has elapsed (at once when `timeout` is zero or negative). No goroutine
adds to the counter during the wait. -/
def waitStep (s : WaitState) : WaitLabel → Option WaitState
  | WaitLabel.tick ns => some { s with elapsed := s.elapsed + ns }
  | WaitLabel.counterDone =>
    if 0 < s.counter then some { s with counter := s.counter - 1 } else none
  | WaitLabel.wake =>
    if s.counter = 0 ∧ s.closed = false then some { s with closed := true } else none
  | WaitLabel.selectClosed =>
    if s.result = none ∧ s.closed = true then some { s with result := some false } else none
  | WaitLabel.selectTimer =>
    if s.result = none ∧ s.timeout ≤ (s.elapsed : Int) then some { s with result := some true }
    else none

/-- Runs a schedule of atomic actions, `none` when one of them cannot happen. -/
def waitRun : WaitState → List WaitLabel → Option WaitState
  | s, [] => some s
  | s, l :: ls =>
    match waitStep s l with
    | none => none
    | some s1 => waitRun s1 ls

/-- The state at the call `WaitTimeout(wg, timeout)`: `c` is made and the
goroutine is spawned. -/
def WaitState.init (wg : WaitGroup) (timeout : Int) : WaitState :=
  { counter := wg.counter, timeout := timeout, elapsed := 0, closed := false, result := none }

/-- Go `func WaitTimeout(wg *sync.WaitGroup, timeout time.Duration) bool` under a
schedule of the atomic actions around it: the value returned, `none` when the
schedule cannot happen or ends before the `select` has run. -/
def WaitTimeout (wg : WaitGroup) (timeout : Int) (sched : List WaitLabel) : Option Bool :=
  match waitRun (WaitState.init wg timeout) sched with
  | some s => s.result
  | none => none

/-- What a listener does that can be observed: calls on the queue, the call of
`WaitTimeout` with its arguments, logger calls and lines printed with
`fmt.Println`. -/
inductive ListenerEvent where
  | cleanup
  | waitTimeout (wg : WaitGroup) (timeout : Int)
  | log (level : String) (msg : String)
  | print (line : String)
deriving DecidableEq, Repr

/-- The methods of the interface `Queue` that `Stop` calls, over a state `Q` of
the queue. `NewListener` hands the queue a pointer to the listener's
`stopChannel`, so `Cleanup` may act on that channel too. -/
structure Queue (Q : Type) where
  Cleanup : Option (Chan Unit) → Q → Outcome (Option (Chan Unit) × Q)
  PendingMessagesWaitGroup : Q → Option WaitGroup

/-- The fields of `type Listener struct` that `Start` and `Stop` use, with the
state of the queue in place of the interface value, and the observable events in
place of the logger. -/
structure Listener (Q : Type) where
  Queue : Q
  GracefulShutdownTimeout : Int
  run : Bool
  stopChannel : Option (Chan Unit)
  events : List ListenerEvent

/-- Go `func (l *Listener) gracefulShutdown(wg *sync.WaitGroup, timeout
time.Duration)`. The fields put on the logger (`method`, `timeout`) are left
out. `sched` is the schedule of the call of `WaitTimeout`; the function is
blocked while that call has not returned. -/
def Listener.gracefulShutdown {Q : Type} (l : Listener Q) (wg : Option WaitGroup)
    (timeout : Int) (sched : List WaitLabel) : Outcome (Listener Q) :=
  match wg with
  | none => Outcome.done l
  | some wg =>
    let l1 : Listener Q :=
      { l with events := l.events ++ [ListenerEvent.log "info" "listener is waiting to exit..."] }
    match WaitTimeout wg timeout sched with
    | none => Outcome.blocked
    | some e =>
      let l2 : Listener Q :=
        { l1 with events := l1.events ++ [ListenerEvent.waitTimeout wg timeout] }
      if e then
        Outcome.done { l2 with events := l2.events ++
          [ListenerEvent.print "timeout",
           ListenerEvent.log "warning" "exited listener because of graceful shutdown timeout"] }
      else
        Outcome.done { l2 with events := l2.events ++
          [ListenerEvent.print "gracefully",
           ListenerEvent.log "info" "exited listener gracefully"] }

/-- Go `func (l *Listener) Stop()`. `queue` implements `l.Queue`; `sched` is the
schedule of the call of `WaitTimeout`, should `WaitTimeout` be called. -/
def Listener.Stop {Q : Type} (queue : Pusher.Queue Q) (sched : List WaitLabel)
    (l : Listener Q) : Outcome (Listener Q) :=
  let l1 : Listener Q := { l with run := false }
  (queue.Cleanup l1.stopChannel l1.Queue).bind fun (stop, q) =>
    let l2 : Listener Q :=
      { l1 with Queue := q, stopChannel := stop, events := l1.events ++ [ListenerEvent.cleanup] }
    l2.gracefulShutdown (queue.PendingMessagesWaitGroup l2.Queue)
      (durationOfSeconds l2.GracefulShutdownTimeout) sched

/-- The case of the `select` in the loop of `Start` that runs. -/
inductive StartCase where
  | signal (name : String)
  | stopChannel
deriving DecidableEq, Repr

/-- Go `func (l *Listener) Start()` from its `select` statement on, where the
goroutine waits once the consumer, the broker and the handler are started: the
case that runs sets `run` to false, the loop `for l.run == true` ends, and `Stop`
is called. A receive from `stopChannel` proceeds only when the channel is
closed, nothing being ever sent on it. -/
def Listener.resumeStart {Q : Type} (queue : Pusher.Queue Q) (case : StartCase)
    (sched : List WaitLabel) (l : Listener Q) : Outcome (Listener Q) :=
  match case with
  | StartCase.signal _ =>
    Listener.Stop queue sched { l with
      run := false
      events := l.events ++ [ListenerEvent.log "warning" "terminating due to caught signal"] }
  | StartCase.stopChannel =>
    match l.stopChannel with
    | none => Outcome.blocked
    | some ch =>
      if ch.closed then
        Listener.Stop queue sched { l with
          run := false
          events := l.events ++
            [ListenerEvent.print "STOPPING CHANNEL",
             ListenerEvent.log "warning" "Stop channel closed\n"] }
      else Outcome.blocked

/-- Modelled from the spec: the state of the consumer `KafkaConsumer`, whose
source is not among the files: its messages channel, its pending-work counter,
and whether acknowledgement positions were committed. Its stop signal is the
listener's `stopChannel`. -/
structure KafkaConsumer where
  msgChan : Option (Chan String)
  pendingMessagesWG : Option WaitGroup
  committed : Bool
deriving DecidableEq, Repr

/-- Modelled from the spec: closing a one-shot closable event. The spec has the
stop signal be "a closable one-shot" and `Stop` be idempotent, so closing what is
closed already changes nothing, and there is nothing to close in a nil channel. -/
def closeOnce {α : Type} : Option (Chan α) → Option (Chan α)
  | none => none
  | some ch => some { ch with closed := true }

/-- Modelled from the spec: `KafkaConsumer.Cleanup()`, which "closes the message
channel, closes the shared stop signal, and performs any commit of
acknowledgement positions supported by the log". -/
def KafkaConsumer.Cleanup (stop : Option (Chan Unit)) (q : KafkaConsumer) :
    Outcome (Option (Chan Unit) × KafkaConsumer) :=
  Outcome.done (closeOnce stop, { q with msgChan := closeOnce q.msgChan, committed := true })

/-- Modelled from the spec: `KafkaConsumer.PendingMessagesWaitGroup()`, "a counter
that downstream decrements when a message is fully processed". -/
def KafkaConsumer.PendingMessagesWaitGroup (q : KafkaConsumer) : Option WaitGroup :=
  q.pendingMessagesWG

/-- Modelled from the spec: `KafkaConsumer` as an implementation of `Queue`. -/
def kafkaQueue : Queue KafkaConsumer :=
  { Cleanup := KafkaConsumer.Cleanup
    PendingMessagesWaitGroup := KafkaConsumer.PendingMessagesWaitGroup }

/-- A listener as `NewListener` leaves it, started: open stop channel, open
messages channel, no pending message, the default timeout of one second. -/
def demoListener : Listener KafkaConsumer :=
  { Queue := { msgChan := some (Chan.make 0), pendingMessagesWG := some { counter := 0 },
               committed := false }
    GracefulShutdownTimeout := 1
    run := true
    stopChannel := some (Chan.make 0)
    events := [] }

/-! ## feedback/listener.go: NewListener and configure -/

/-- A value held by the configuration library `viper`, as a configuration file
or a default gives it: null, a boolean, an integer (a Go `int`), a string, or a
map from keys to values, whose first entry for a key counts. The other kinds of
value a YAML file can hold (floating-point numbers, sequences, timestamps) are
left out. -/
inductive ConfigValue where
  | int (v : Int)
  | str (s : String)
  | bool (b : Bool)
  | null
  | map (entries : List (String × ConfigValue))

/-- What the process finds around it: the configuration file behind a path, as
`viper` holds it once read (nested maps, keys in lower case), or the error of
reading or parsing it; and the environment variables. -/
structure Surroundings where
  readConfigFile : String → Except String (List (String × ConfigValue))
  LookupEnv : String → Option String

/-- The state of a `*viper.Viper` as far as the listener uses the library: the
configuration file's path, the environment prefix (`SetEnvPrefix`), the
replacement applied to environment keys (`SetEnvKeyReplacer`, one character for
another), whether `AutomaticEnv` was called, the values read from the file and
the defaults, both as nested maps. -/
structure Viper where
  configFile : String
  envPrefix : String
  envKeyReplacer : Option (Char × Char)
  automaticEnvApplied : Bool
  config : List (String × ConfigValue)
  defaults : List (String × ConfigValue)

/-- Go `strings.ToLower` on the ASCII letters. -/
def toLowerASCII (s : String) : String := ⟨s.data.map Char.toLower⟩

/-- Go `strings.ToUpper` on the ASCII letters. -/
def toUpperASCII (s : String) : String := ⟨s.data.map Char.toUpper⟩

/-- Go `strings.Split(s, sep)` for a separator of one character, on the
characters of `s`. -/
def splitChars (sep : Char) : List Char → List (List Char)
  | [] => [[]]
  | c :: cs =>
    if c = sep then [] :: splitChars sep cs
    else
      match splitChars sep cs with
      | [] => [[c]]
      | w :: ws => (c :: w) :: ws

/-- Go `strings.Split(key, v.keyDelim)`, the key delimiter being ".". -/
def splitKey (key : String) : List String :=
  (splitChars '.' key.data).map String.mk

/-- Go `strings.Join(path, v.keyDelim)`. -/
def joinKey (path : List String) : String := ".".intercalate path

/-- A Go `interface{}` read from a map: a null entry is the nil interface. -/
def nonNil : ConfigValue → Option ConfigValue
  | ConfigValue.null => none
  | val => some val

/-- Whether a value is a plain one, neither nil nor a map: the `default` case of
the type switches of `viper`. -/
def ConfigValue.isPlain : ConfigValue → Bool
  | ConfigValue.null => false
  | ConfigValue.map _ => false
  | _ => true

/-- The method `searchMap` of `viper`: follows `path` through nested maps, `none`
for nil. -/
def searchMap (source : List (String × ConfigValue)) : List String → Option ConfigValue
  | [] => some (ConfigValue.map source)
  | k :: rest =>
    match source.lookup k with
    | some next =>
      match rest with
      | [] => nonNil next
      | _ :: _ =>
        match next with
        | ConfigValue.map m => searchMap m rest
        | _ => none
    | none => none

/-- The loop of `searchMapWithPathPrefixes`, from the path's first `i` elements
down to its first one; `search` is the function itself, for the nested case. -/
def searchPrefixes (search : List (String × ConfigValue) → List String → Option ConfigValue)
    (source : List (String × ConfigValue)) (path : List String) : Nat → Option ConfigValue
  | 0 => none
  | i + 1 =>
    let prefixKey := toLowerASCII (joinKey (path.take (i + 1)))
    match source.lookup prefixKey with
    | some next =>
      if i + 1 = path.length then nonNil next
      else
        match next with
        | ConfigValue.map m =>
          match search m (path.drop (i + 1)) with
          | some val => some val
          | none => searchPrefixes search source path i
        | _ => searchPrefixes search source path i
    | none => searchPrefixes search source path i

/-- The method `searchMapWithPathPrefixes` of `viper`, with a bound on the depth
of the recursion. -/
def searchMapWithPathPrefixesAux :
    Nat → List (String × ConfigValue) → List String → Option ConfigValue
  | 0, _, _ => none
  | fuel + 1, source, path =>
    if path.length = 0 then some (ConfigValue.map source)
    else searchPrefixes (searchMapWithPathPrefixesAux fuel) source path path.length

/-- The method `searchMapWithPathPrefixes` of `viper`: as `searchMap`, but a key of
a map may itself join several elements of the path, the longest first. Each
nested call has a shorter path, so a depth of the path's length, plus one for
the empty path, is never exceeded (`searchMapWithPathPrefixes_fuel`). -/
def searchMapWithPathPrefixes (source : List (String × ConfigValue)) (path : List String) :
    Option ConfigValue :=
  searchMapWithPathPrefixesAux (path.length + 1) source path

/-- The loop of `isPathShadowedInDeepMap` from index `i` on, for `n` more
rounds. -/
def shadowedInDeepMapFrom (path : List String) (m : List (String × ConfigValue)) (i : Nat) :
    Nat → String
  | 0 => ""
  | n + 1 =>
    match searchMap m (path.take i) with
    | none => ""
    | some (ConfigValue.map _) => shadowedInDeepMapFrom path m (i + 1) n
    | some _ => joinKey (path.take i)

/-- The method `isPathShadowedInDeepMap` of `viper`: the first parent of `path` that
holds a plain value in `m`, "" when there is none. -/
def isPathShadowedInDeepMap (path : List String) (m : List (String × ConfigValue)) : String :=
  shadowedInDeepMapFrom path m 1 (path.length - 1)

/-- Go `viper.New()`. -/
def Viper.New : Viper :=
  { configFile := "", envPrefix := "", envKeyReplacer := none, automaticEnvApplied := false,
    config := [], defaults := [] }

/-- Go `v.SetConfigFile(in)`. -/
def Viper.SetConfigFile (v : Viper) (file : String) : Viper :=
  if file ≠ "" then { v with configFile := file } else v

/-- Go `v.SetEnvPrefix(in)`. -/
def Viper.SetEnvPrefix (v : Viper) (pre : String) : Viper :=
  if pre ≠ "" then { v with envPrefix := pre } else v

/-- Go `v.SetEnvKeyReplacer(strings.NewReplacer(old, new))` for one-character
strings `old` and `new`. -/
def Viper.SetEnvKeyReplacer (v : Viper) (old new : Char) : Viper :=
  { v with envKeyReplacer := some (old, new) }

/-- Go `v.AutomaticEnv()`. -/
def Viper.AutomaticEnv (v : Viper) : Viper := { v with automaticEnvApplied := true }

/-- Go `v.ReadInConfig()`: the values of the file replace those read before. -/
def Viper.ReadInConfig (os : Surroundings) (v : Viper) : Except String Viper :=
  match os.readConfigFile v.configFile with
  | Except.error err => Except.error err
  | Except.ok values => Except.ok { v with config := values }

/-- Puts `value` under `key` in a map, in place of what the key held. -/
def setKey (m : List (String × ConfigValue)) (key : String) (value : ConfigValue) :
    List (String × ConfigValue) :=
  (key, value) :: m.filter fun e => e.1 != key

/-- The function `deepSearch` of `viper` followed by the assignment of `value` to
the last key: the maps along `path` are made where a key is missing or holds a
plain value. -/
def setDeep (m : List (String × ConfigValue)) :
    List String → ConfigValue → List (String × ConfigValue)
  | [], _ => m
  | [k], value => setKey m (toLowerASCII k) value
  | k :: k1 :: rest, value =>
    let m3 : List (String × ConfigValue) :=
      match m.lookup k with
      | some (ConfigValue.map m3) => m3
      | _ => []
    setKey m k (ConfigValue.map (setDeep m3 (k1 :: rest) value))

/-- Go `v.SetDefault(key, value)`. -/
def Viper.SetDefault (v : Viper) (key : String) (value : ConfigValue) : Viper :=
  { v with defaults := setDeep v.defaults (splitKey (toLowerASCII key)) value }

/-- The method `mergeWithEnvPrefix` of `viper`: the prefix, an underscore and the
key, in upper case. -/
def Viper.mergeWithEnvPrefix (v : Viper) (key : String) : String :=
  if v.envPrefix ≠ "" then toUpperASCII (v.envPrefix ++ "_" ++ key) else toUpperASCII key

/-- The method `getEnv` of `viper`: the key replacer is applied to the name, and
a variable that is unset or empty gives "". -/
def Viper.getEnv (os : Surroundings) (v : Viper) (name : String) : String :=
  let name : String :=
    match v.envKeyReplacer with
    | some (old, new) => ⟨name.data.map fun c => if c = old then new else c⟩
    | none => name
  match os.LookupEnv name with
  | some val => val
  | none => ""

/-- The loop of `isPathShadowedInAutoEnv` from index `i` on, for `n` more
rounds. -/
def Viper.shadowedInAutoEnvFrom (os : Surroundings) (v : Viper) (path : List String) (i : Nat) :
    Nat → String
  | 0 => ""
  | n + 1 =>
    let parentKey := joinKey (path.take i)
    if v.getEnv os (v.mergeWithEnvPrefix parentKey) ≠ "" then parentKey
    else Viper.shadowedInAutoEnvFrom os v path (i + 1) n

/-- The method `isPathShadowedInAutoEnv` of `viper`: the first parent of `path`
whose environment variable has a value, "" when there is none. -/
def Viper.isPathShadowedInAutoEnv (os : Surroundings) (v : Viper) (path : List String) :
    String :=
  v.shadowedInAutoEnvFrom os path 1 (path.length - 1)

/-- The method `find` of `viper` on a key in lower case, for the sources the
listener fills, in the library's order of precedence: the environment (after
`AutomaticEnv`), the configuration file, the defaults; `none` for nil. A parent
of the key that holds a plain value in a source hides the key in the sources
after it. The aliases, the overrides of `Set`, the flags, the variables of
`BindEnv` and the key/value store come in between in the library; the listener
leaves them empty, and an empty source gives nothing and hides nothing. -/
def Viper.find (os : Surroundings) (v : Viper) (lcaseKey : String) : Option ConfigValue :=
  let path := splitKey lcaseKey
  let nested : Bool := decide (1 < path.length)
  let val : String :=
    if v.automaticEnvApplied then v.getEnv os (v.mergeWithEnvPrefix lcaseKey) else ""
  if val ≠ "" then some (ConfigValue.str val)
  else if v.automaticEnvApplied ∧ nested ∧ v.isPathShadowedInAutoEnv os path ≠ "" then none
  else
    match searchMapWithPathPrefixes v.config path with
    | some val => some val
    | none =>
      if nested ∧ isPathShadowedInDeepMap path v.config ≠ "" then none
      else searchMap v.defaults path

/-- Go `v.Get(key)`: the key is put in lower case. -/
def Viper.Get (os : Surroundings) (v : Viper) (key : String) : Option ConfigValue :=
  v.find os (toLowerASCII key)

/-- The value of a character as a digit in `strconv.ParseUint`: `c - '0'` for a
decimal digit, `lower(c) - 'a' + 10` for a letter, `none` for any other
character. -/
def strconv.digitValue (c : Char) : Option Nat :=
  if '0'.toNat ≤ c.toNat ∧ c.toNat ≤ '9'.toNat then some (c.toNat - '0'.toNat)
  else if 'a'.toNat ≤ c.toLower.toNat ∧ c.toLower.toNat ≤ 'z'.toNat then
    some (c.toLower.toNat - 'a'.toNat + 10)
  else none

/-- The loop of `strconv.ParseUint` over the characters after the base prefix:
the number read so far and whether an underscore was seen, `none` for a syntax
error or a range error. `n * base + d` is computed without wrapping, so the two
overflow tests of the library are the tests `n ≥ cutoff` and `n1 > maxVal`. -/
def strconv.parseUintLoop (base : Nat) (base0 : Bool) (cutoff maxVal : Nat) :
    List Char → Nat → Bool → Option (Nat × Bool)
  | [], n, underscores => some (n, underscores)
  | c :: cs, n, underscores =>
    if c = '_' ∧ base0 = true then strconv.parseUintLoop base base0 cutoff maxVal cs n true
    else
      match strconv.digitValue c with
      | none => none
      | some d =>
        if d ≥ base then none
        else if n ≥ cutoff then none
        else
          let n1 := n * base + d
          if n1 > maxVal then none
          else strconv.parseUintLoop base base0 cutoff maxVal cs n1 underscores

/-- The loop of `strconv.underscoreOK`; `saw` is the last kind of character
seen. -/
def strconv.underscoreOKLoop (hex : Bool) : List Char → Char → Bool
  | [], saw => saw ≠ '_'
  | c :: cs, saw =>
    if ('0'.toNat ≤ c.toNat ∧ c.toNat ≤ '9'.toNat) ∨
        (hex = true ∧ 'a'.toNat ≤ c.toLower.toNat ∧ c.toLower.toNat ≤ 'f'.toNat) then
      strconv.underscoreOKLoop hex cs '0'
    else if c = '_' then
      if saw ≠ '0' then false else strconv.underscoreOKLoop hex cs '_'
    else if saw = '_' then false
    else strconv.underscoreOKLoop hex cs '!'

/-- Go `strconv.underscoreOK(s)`: underscores only between digits, or between a
base prefix and a digit. -/
def strconv.underscoreOK (s : List Char) : Bool :=
  let s : List Char :=
    match s with
    | '-' :: rest => rest
    | '+' :: rest => rest
    | _ => s
  match s with
  | '0' :: c :: rest =>
    if c.toLower = 'b' ∨ c.toLower = 'o' ∨ c.toLower = 'x' then
      strconv.underscoreOKLoop (c.toLower = 'x') rest '0'
    else strconv.underscoreOKLoop false s '^'
  | _ => strconv.underscoreOKLoop false s '^'

/-- Go `strconv.ParseUint(s, 0, 0)` where `int` has 64 bits: base 0 takes the base
from the prefix of `s` ("0b", "0o", "0x", a leading "0" for octal, else
decimal) and allows underscores; `none` for an error. -/
def strconv.ParseUint (s : List Char) : Option Nat :=
  match s with
  | [] => none
  | _ :: _ =>
    let baseAndDigits : Nat × List Char :=
      match s with
      | '0' :: c :: d :: rest =>
        if c.toLower = 'b' then (2, d :: rest)
        else if c.toLower = 'o' then (8, d :: rest)
        else if c.toLower = 'x' then (16, d :: rest)
        else (8, c :: d :: rest)
      | '0' :: rest => (8, rest)
      | _ => (10, s)
    let base := baseAndDigits.1
    let cutoff := (2 ^ 64 - 1) / base + 1
    let maxVal := 2 ^ 64 - 1
    match strconv.parseUintLoop base true cutoff maxVal baseAndDigits.2 0 false with
    | none => none
    | some (n, underscores) =>
      if underscores = true ∧ strconv.underscoreOK s = false then none else some n

/-- Go `strconv.ParseInt(s, 0, 0)` where `int` has 64 bits, `none` for an error. -/
def strconv.ParseInt (s : String) : Option Int :=
  match s.data with
  | [] => none
  | c :: rest =>
    let neg : Bool := c = '-'
    let digits : List Char := if c = '+' ∨ c = '-' then rest else c :: rest
    match strconv.ParseUint digits with
    | none => none
    | some un =>
      let cutoff : Nat := 2 ^ 63
      if neg = false ∧ un ≥ cutoff then none
      else if neg = true ∧ un > cutoff then none
      else some (if neg = true then -(un : Int) else (un : Int))

/-- Go `cast.ToInt(i)` on what `Get` returns: an integer is itself, a string is
parsed with `strconv.ParseInt(s, 0, 0)` and gives 0 when that fails, a boolean
is 1 or 0, and nil or a map gives 0. -/
def cast.ToInt : Option ConfigValue → Int
  | some (ConfigValue.int i) => i
  | some (ConfigValue.str s) => (strconv.ParseInt s).getD 0
  | some (ConfigValue.bool b) => if b then 1 else 0
  | some ConfigValue.null => 0
  | some (ConfigValue.map _) => 0
  | none => 0

/-- Go `cast.ToString(i)` on what `Get` returns. -/
def cast.ToString : Option ConfigValue → String
  | some (ConfigValue.int i) => toString i
  | some (ConfigValue.str s) => s
  | some (ConfigValue.bool b) => if b then "true" else "false"
  | some ConfigValue.null => ""
  | some (ConfigValue.map _) => ""
  | none => ""

/-- Go `v.GetInt(key)`, that is `cast.ToInt(v.Get(key))`. -/
def Viper.GetInt (os : Surroundings) (v : Viper) (key : String) : Int :=
  cast.ToInt (v.Get os key)

/-- Go `v.GetString(key)`, that is `cast.ToString(v.Get(key))`. -/
def Viper.GetString (os : Surroundings) (v : Viper) (key : String) : String :=
  cast.ToString (v.Get os key)

/-- The number that a string of decimal digits denotes when it follows digits
that denote `a`. -/
def decimalValue (a : Nat) : List Nat → Nat
  | [] => a
  | d :: ds => decimalValue (a * 10 + d) ds

/-- The identity of a channel object. -/
structure ChanRef where
  id : Nat
deriving DecidableEq, Repr

/-- The constructors and accessors of the consumer (`Q`), the broker (`B`) and the
invalid-token handler (`H`) that `configure` calls. A constructor returns either
its object or an error. `NewKafkaConsumer` also receives the logger, the address
of the listener's `stopChannel` and a nil client, and the other two the logger;
`InvalidTokenOutChan` is the broker's field of that name. -/
structure Components (Q B H : Type) where
  NewKafkaConsumer : Viper → Except String Q
  MessagesChannel : Q → ChanRef
  PendingMessagesWaitGroup : Q → Option WaitGroup
  NewBroker : Viper → ChanRef → Option WaitGroup → Except String B
  InvalidTokenOutChan : B → ChanRef
  NewInvalidTokenHandler : Viper → ChanRef → Except String H

/-- What `configure` does that can be observed: the constructor calls with the
channels and counter handed over, the call of `raven.SetDSN`, and logger calls. -/
inductive ConfigureEvent where
  | newKafkaConsumer
  | newBroker (messages : ChanRef) (pending : Option WaitGroup)
  | newInvalidTokenHandler (inChan : ChanRef)
  | setDSN (url : String)
  | log (level : String) (msg : String)
deriving DecidableEq, Repr

/-- All fields of `type Listener struct` but the logger, as `NewListener` fills
them: a pointer or interface field is `none` while nil. -/
structure ListenerFields (Q B H : Type) where
  Config : Option Viper
  ConfigFile : String
  Queue : Option Q
  Broker : Option B
  InvalidTokenHandler : Option H
  GracefulShutdownTimeout : Int
  run : Bool
  stopChannel : Option (Chan Unit)

/-- Go `func (l *Listener) loadConfigurationDefaults()`, on the configuration. -/
def loadConfigurationDefaults (config : Viper) : Viper :=
  config.SetDefault "feedbackListeners.gracefulShutdownTimeout" (ConfigValue.int 1)

/-- Go `func (l *Listener) configureSentry()`: the events it causes. -/
def configureSentry (os : Surroundings) (config : Viper) : List ConfigureEvent :=
  let sentryURL := config.GetString os "sentry.url"
  (if sentryURL ≠ "" then [ConfigureEvent.setDSN sentryURL] else []) ++
    [ConfigureEvent.log "info" "Configured sentry successfully."]

/-- Go `errors.Errorf(format, args...)` of `github.com/pkg/errors`: an error whose
message is `fmt.Sprintf(format, args...)`. -/
def Errorf (format : String) (args : List String) : String :=
  ⟨Sprintf format.data args⟩

/-- Go `func (l *Listener) configure() error`: the returned error (`none` for
nil), the listener as it is left, and the events in order. -/
def configure {Q B H : Type} (os : Surroundings) (comp : Components Q B H)
    (l : ListenerFields Q B H) : Option String × ListenerFields Q B H × List ConfigureEvent :=
  let config : Viper :=
    (((Viper.New.SetConfigFile l.ConfigFile).SetEnvPrefix "pusher").SetEnvKeyReplacer '.' '_').AutomaticEnv
  match config.ReadInConfig os with
  | Except.error err => (some err, { l with Config := some config }, [])
  | Except.ok config =>
    let config := loadConfigurationDefaults config
    let events := configureSentry os config
    let l : ListenerFields Q B H :=
      { l with
        Config := some config
        GracefulShutdownTimeout :=
          config.GetInt os "feedbackListeners.gracefulShutdownTimeout" }
    let events := events ++ [ConfigureEvent.newKafkaConsumer]
    match comp.NewKafkaConsumer config with
    | Except.error err =>
      (some (Errorf "error creating new queue: %s" [err]), l, events)
    | Except.ok q =>
      let l : ListenerFields Q B H := { l with Queue := some q }
      let events := events ++
        [ConfigureEvent.newBroker (comp.MessagesChannel q) (comp.PendingMessagesWaitGroup q)]
      match comp.NewBroker config (comp.MessagesChannel q) (comp.PendingMessagesWaitGroup q) with
      | Except.error err =>
        (some (Errorf "error creating new broke: %s" [err]), l, events)
      | Except.ok broker =>
        let l : ListenerFields Q B H := { l with Broker := some broker }
        let events := events ++
          [ConfigureEvent.newInvalidTokenHandler (comp.InvalidTokenOutChan broker)]
        match comp.NewInvalidTokenHandler config (comp.InvalidTokenOutChan broker) with
        | Except.error err =>
          (some (Errorf "error creating new invalid token handler: %s" [err]), l, events)
        | Except.ok handler =>
          (none, { l with InvalidTokenHandler := some handler }, events)

/-- Go `func NewListener(configFile string, logger *log.Logger) (*Listener, error)`:
the returned pair (`none` for nil) and the events of `configure`. -/
def NewListener {Q B H : Type} (os : Surroundings) (comp : Components Q B H)
    (configFile : String) :
    (Option (ListenerFields Q B H) × Option String) × List ConfigureEvent :=
  let l : ListenerFields Q B H :=
    { Config := none, ConfigFile := configFile, Queue := none, Broker := none,
      InvalidTokenHandler := none, GracefulShutdownTimeout := 0, run := false,
      stopChannel := some (Chan.make 0) }
  match configure os comp l with
  | (some err, _, events) => ((none, some err), events)
  | (none, l, events) => ((some l, none), events)

/-- The configuration `configure` holds once the file at `configFile` was read
with the values `values` and the defaults were loaded. -/
def loadedConfig (configFile : String) (values : List (String × ConfigValue)) : Viper :=
  loadConfigurationDefaults
    { (((Viper.New.SetConfigFile configFile).SetEnvPrefix "pusher").SetEnvKeyReplacer '.' '_').AutomaticEnv
      with config := values }

/-- A broker for demonstrations: what it was constructed with, and its output
channel. -/
structure DemoBroker where
  messages : ChanRef
  pending : Option WaitGroup
  InvalidTokenOutChan : ChanRef
deriving DecidableEq, Repr

/-- A handler for demonstrations: the channel it was constructed with. -/
structure DemoHandler where
  inChan : ChanRef
deriving DecidableEq, Repr

/-- Components for demonstrations: every constructor succeeds; the consumer's
messages channel is channel 1 and a broker's output channel is channel 2. -/
def demoComponents : Components KafkaConsumer DemoBroker DemoHandler :=
  { NewKafkaConsumer := fun _ =>
      Except.ok { msgChan := some (Chan.make 0), pendingMessagesWG := some { counter := 0 },
                  committed := false }
    MessagesChannel := fun _ => { id := 1 }
    PendingMessagesWaitGroup := KafkaConsumer.PendingMessagesWaitGroup
    NewBroker := fun _ messages pending =>
      Except.ok { messages := messages, pending := pending, InvalidTokenOutChan := { id := 2 } }
    InvalidTokenOutChan := DemoBroker.InvalidTokenOutChan
    NewInvalidTokenHandler := fun _ inChan => Except.ok { inChan := inChan } }

/-- Surroundings for demonstrations: a configuration file that only names the
log's brokers, and no environment variable. -/
def demoSurroundings : Surroundings :=
  { readConfigFile := fun _ =>
      Except.ok [("feedbacklisteners",
        ConfigValue.map [("queue",
          ConfigValue.map [("brokers", ConfigValue.str "localhost:9941")])])]
    LookupEnv := fun _ => none }

/-- Surroundings for demonstrations: no configuration file can be read. -/
def demoNoConfigFile : Surroundings :=
  { readConfigFile := fun _ => Except.error "open ../config/test.yaml: no such file or directory"
    LookupEnv := fun _ => none }

/-- Surroundings for demonstrations: the file of `demoSurroundings`, and the
environment variable of the timeout's key set to "30". -/
def demoTimeoutInEnv : Surroundings :=
  { demoSurroundings with
    LookupEnv := fun name =>
      if name = "PUSHER_FEEDBACKLISTENERS_GRACEFULSHUTDOWNTIMEOUT" then some "30" else none }

/-- Surroundings for demonstrations: the file of `demoSurroundings`, and the
environment variable `PUSHER_FEEDBACKLISTENERS`, that of the parent of the
timeout's key, set to "x". -/
def demoParentInEnv : Surroundings :=
  { demoSurroundings with
    LookupEnv := fun name => if name = "PUSHER_FEEDBACKLISTENERS" then some "x" else none }

/-- Surroundings for demonstrations: a configuration file that holds only the
line `feedbackListeners: 5`, and no environment variable. -/
def demoPlainParentInFile : Surroundings :=
  { readConfigFile := fun _ => Except.ok [("feedbacklisteners", ConfigValue.int 5)]
    LookupEnv := fun _ => none }

/-- The listener that `NewListener` hands to `configure` for the file
`../config/test.yaml`. -/
def demoFields : ListenerFields KafkaConsumer DemoBroker DemoHandler :=
  { Config := none, ConfigFile := "../config/test.yaml", Queue := none, Broker := none,
    InvalidTokenHandler := none, GracefulShutdownTimeout := 0, run := false,
    stopChannel := some (Chan.make 0) }

/-! ## The feedback pipeline started by `Listener.Start` -/

/-- Modelled from the spec: the platform of a feedback, "one of `gcm`, `apns`".
The consumer, the broker and the invalid-token handler that `Start` launches are
not among the sources; this section follows the spec's component design. -/
inductive Platform where
  | gcm
  | apns
deriving DecidableEq, Repr

/-- Modelled from the spec: the platform as written in topic and table names. -/
def Platform.name : Platform → String
  | Platform.gcm => "gcm"
  | Platform.apns => "apns"

/-- Modelled from the spec: a GCM feedback, "at minimum `from` (device token) and
`error` (string code)". -/
structure GCMFeedback where
  From : String
  Error : String
deriving DecidableEq, Repr

/-- Modelled from the spec: an APNS feedback, "at minimum `deviceToken`, `reason`
(string), and `statusCode` (integer)". -/
structure APNSFeedback where
  DeviceToken : String
  Reason : String
  StatusCode : Int
deriving DecidableEq, Repr

/-- Modelled from the spec: a message the consumer hands to the broker, a topic and
an opaque payload. -/
structure QueueMessage where
  topic : String
  payload : String
deriving DecidableEq, Repr

/-- Modelled from the spec: the decoding of a payload as a JSON object of either
variant; `none` stands for "malformed JSON or missing required fields". -/
structure Decoders where
  gcm : String → Option GCMFeedback
  apns : String → Option APNSFeedback

/-- Modelled from the spec: an invalid-token event, "a triple
`(game, platform, token)`". -/
structure InvalidToken where
  game : String
  platform : Platform
  token : String
deriving DecidableEq, Repr

/-- Modelled from the spec: the GCM error codes that report an invalid token. -/
def gcmInvalidTokenCodes : List String :=
  ["DEVICE_UNREGISTERED", "BAD_REGISTRATION", "INVALID_REGISTRATION", "MISMATCH_SENDER_ID",
   "NOT_REGISTERED"]

/-- Modelled from the spec: the APNS reasons that report an invalid token. -/
def apnsInvalidTokenReasons : List String := ["BadDeviceToken", "Unregistered"]

/-- Modelled from the spec: a character of a game name, class `[A-Za-z0-9_-]`. -/
def gameChar (c : Char) : Bool := c.isAlphanum || c == '_' || c == '-'

/-- Modelled from the spec: a game name matches `^[A-Za-z0-9_-]+$`. -/
def validGame (game : List Char) : Bool := !game.isEmpty && game.all gameChar

/-- Removes `start` from the front of `l`, if `l` begins with it. -/
def stripStart : List Char → List Char → Option (List Char)
  | [], l => some l
  | _ :: _, [] => none
  | a :: start, b :: l => if a = b then stripStart start l else none

/-- Removes `ending` from the back of `l`, if `l` ends with it. -/
def stripEnd (ending l : List Char) : Option (List Char) :=
  (stripStart ending.reverse l.reverse).map List.reverse

/-- Modelled from the spec: parsing of a topic name of the shape
`push-<game>-<platform>-feedbacks`, with `<game>` matching `[A-Za-z0-9_-]+` and
`<platform>` one of `gcm`, `apns`; `none` is the parse error. -/
def parseTopic (topic : String) : Option (String × Platform) :=
  match stripStart "push-".data topic.data with
  | none => none
  | some rest =>
    match stripEnd "-gcm-feedbacks".data rest with
    | some game => if validGame game then some (⟨game⟩, Platform.gcm) else none
    | none =>
      match stripEnd "-apns-feedbacks".data rest with
      | some game => if validGame game then some (⟨game⟩, Platform.apns) else none
      | none => none

/-- Modelled from the spec: what the broker does with one message. It parses the
topic, decodes the payload as the variant of the platform, and emits the
invalid-token event if the error or reason code is in the invalid-token set;
`none` when the message is discarded. -/
def Broker.route (codec : Decoders) (m : QueueMessage) : Option InvalidToken :=
  match parseTopic m.topic with
  | none => none
  | some (game, Platform.gcm) =>
    match codec.gcm m.payload with
    | none => none
    | some f =>
      if f.Error ∈ gcmInvalidTokenCodes then
        some { game := game, platform := Platform.gcm, token := f.From }
      else none
  | some (game, Platform.apns) =>
    match codec.apns m.payload with
    | none => none
    | some f =>
      if f.Reason ∈ apnsInvalidTokenReasons then
        some { game := game, platform := Platform.apns, token := f.DeviceToken }
      else none

/-- Modelled from the spec: a row of a per-game table, "with at least columns
`(id, user_id, token, region, locale, tz)`". -/
structure Row where
  id : String
  user_id : String
  token : String
  region : String
  locale : String
  tz : String
deriving DecidableEq, Repr

/-- Modelled from the spec: the database, the rows of each table by table name. -/
abbrev Database := String → List Row

/-- Modelled from the spec: the table of a game and platform,
`<game>_<platform>`. -/
def tableName (game : String) (platform : Platform) : String :=
  game ++ "_" ++ platform.name

/-- Modelled from the spec: the table an invalid-token event belongs to. -/
def InvalidToken.table (ev : InvalidToken) : String := tableName ev.game ev.platform

/-- Modelled from the spec: the statement
`DELETE FROM <table> WHERE token IN (...)`. -/
def Database.delete (db : Database) (table : String) (tokens : List String) : Database :=
  fun t => if t = table then (db t).filter fun r => !tokens.contains r.token else db t

/-- Modelled from the spec: the rows a
`SELECT ... FROM <table> WHERE token = <token>` returns. -/
def Database.selectByToken (db : Database) (table : String) (token : String) : List Row :=
  (db table).filter fun r => r.token == token

/-- Modelled from the spec: the handler's parameters `bufferSize` and `maxRetries`.
The third, `flushInterval`, is a duration: the flush it causes is the final flush
of `runFeedbacks`. -/
structure HandlerConfig where
  bufferSize : Nat
  maxRetries : Nat
deriving DecidableEq, Repr

/-- Modelled from the spec: the state of the invalid-token handler and of the
database behind it: the events buffered for the next flush, the tables, and the
number of statement executions attempted so far. -/
structure HandlerState where
  buffer : List InvalidToken
  db : Database
  attempts : Nat

/-- Modelled from the spec: one DELETE statement with its retries. The `k`-th
attempt on the database succeeds iff `up k`; "per-statement failure is retried up
to `maxRetries`", and "after exhaustion the batch is logged and dropped". -/
def execDelete (up : Nat → Bool) : Nat → HandlerState → String → List String → HandlerState
  | retries, st, table, tokens =>
    if up st.attempts then
      { st with db := st.db.delete table tokens, attempts := st.attempts + 1 }
    else
      match retries with
      | 0 => { st with attempts := st.attempts + 1 }
      | retries + 1 =>
        execDelete up retries { st with attempts := st.attempts + 1 } table tokens

/-- Modelled from the spec: the tables of a batch, each once. -/
def batchTables : List InvalidToken → List String
  | [] => []
  | ev :: rest =>
    if ev.table ∈ batchTables rest then batchTables rest else ev.table :: batchTables rest

/-- Modelled from the spec: the tokens of a batch that belong to a table. -/
def batchTokens (table : String) (batch : List InvalidToken) : List String :=
  (batch.filter fun ev => ev.table == table).map InvalidToken.token

/-- Modelled from the spec: a flush, "one statement per `(game, platform)` group",
after which the buffer is empty. -/
def flush (cfg : HandlerConfig) (up : Nat → Bool) (st : HandlerState) : HandlerState :=
  let done := (batchTables st.buffer).foldl
    (fun s table => execDelete up cfg.maxRetries s table (batchTokens table st.buffer)) st
  { done with buffer := [] }

/-- Modelled from the spec: the handler takes one event from its input channel and
flushes when the buffer has reached `bufferSize`. -/
def receive (cfg : HandlerConfig) (up : Nat → Bool) (st : HandlerState) (ev : InvalidToken) :
    HandlerState :=
  let st1 : HandlerState := { st with buffer := st.buffer ++ [ev] }
  if cfg.bufferSize ≤ st1.buffer.length then flush cfg up st1 else st1

/-- Modelled from the spec: one message through the broker and, if it yields an
event, the handler. -/
def feed (codec : Decoders) (cfg : HandlerConfig) (up : Nat → Bool) (st : HandlerState)
    (m : QueueMessage) : HandlerState :=
  match Broker.route codec m with
  | none => st
  | some ev => receive cfg up st ev

/-- Modelled from the spec: a game, "a tenant identifier embedded in topic names
and table names", its name matching `[A-Za-z0-9_-]+`. -/
structure Game where
  name : String
  valid : validGame name.data = true

/-- Modelled from the spec: one run of the consumer over the messages `produced` on
its topics while the listener is started: the messages it yields to the broker,
in order. Delivery is at least once and in no guaranteed order: every produced
message is yielded, once or more, and nothing else is. -/
structure Consumption (produced : List QueueMessage) where
  consumed : List QueueMessage
  atLeastOnce : ∀ m, m ∈ produced → m ∈ consumed
  onlyProduced : ∀ m, m ∈ consumed → m ∈ produced

/-- Modelled from the spec: the run of the consumer that yields every produced
message once, in the order of production. -/
def Consumption.inOrder (produced : List QueueMessage) : Consumption produced :=
  { consumed := produced, atLeastOnce := fun _ h => h, onlyProduced := fun _ h => h }

/-- Modelled from the spec: the started listener takes the messages `msgs` in the
order the consumer yields them, and the handler then flushes what is left in
its buffer (when `flushInterval` has passed, or on shutdown). -/
def runFeedbacks (codec : Decoders) (cfg : HandlerConfig) (up : Nat → Bool)
    (msgs : List QueueMessage) (st : HandlerState) : HandlerState :=
  flush cfg up (msgs.foldl (feed codec cfg up) st)

/-- The row of scenario S1: token `AAAA-AAAA-AAAA`. -/
def demoRow : Row :=
  { id := "u1", user_id := "x", token := "AAAA-AAAA-AAAA", region := "br", locale := "PT",
    tz := "-300" }

/-- A database whose table `table` holds `demoRow` and whose other tables are
empty. -/
def demoDatabase (table : String) : Database :=
  fun t => if t = table then [demoRow] else []

/-- The payload of scenario S1, a JSON object with the fields `from` and
`error`. -/
def demoPayload : String :=
  "\x7b\"from\":\"AAAA-AAAA-AAAA\",\"error\":\"DEVICE_UNREGISTERED\"\x7d"

/-- A decoder that knows the payload of scenario S1. -/
def demoDecoders : Decoders :=
  { gcm := fun payload =>
      if payload = demoPayload then
        some { From := "AAAA-AAAA-AAAA", Error := "DEVICE_UNREGISTERED" }
      else none
    apns := fun _ => none }

/-- The feedback of scenario S1, produced on the topic of game `game`. -/
def demoFeedback (game : String) : QueueMessage :=
  { topic := "push-" ++ game ++ "-gcm-feedbacks"
    payload := demoPayload }

/-- The handler's defaults: `bufferSize` 1000, `maxRetries` 3. -/
def demoHandlerConfig : HandlerConfig := { bufferSize := 1000, maxRetries := 3 }

/-- No row of table `table` holds the token `token`: a select by that token
returns no row. -/
def Absent (db : Database) (table : String) (token : String) : Prop :=
  ∀ r ∈ db table, r.token ≠ token

/-! ## Theorems -/

theorem configure_demo :
    Configure demoKeyLoader (Sys.new demoQueue) = Outcome.done (none, demoConfigured) := by
  rfl

/-- C1: for every key `k` and description `d`, `NewPushError(k, d)` carries
`Key = k` and `Description = d`, and its `Error()` string is exactly
`"Sending push notification failed with error " ++ k ++ " (" ++ d ++ ")."`;
nothing in `k` or `d` (parentheses, `%`, emptiness) is interpreted. -/
theorem C1_pushError_rendering (k d : String) :
    (NewPushError k d).Key = k ∧ (NewPushError k d).Description = d ∧
    (NewPushError k d).Error =
      "Sending push notification failed with error " ++ k ++ " (" ++ d ++ ")." := by
  refine ⟨rfl, rfl, ?_⟩
  apply String.ext
  simp [PushError.Error, NewPushError, Sprintf]

theorem getElem?_set_self_of_some {α : Type} (l : List α) (i : Nat) (a b : α)
    (h : l[i]? = some a) : (l.set i b)[i]? = some b := by
  have hi : i < l.length := by
    by_contra hcon
    rw [List.getElem?_eq_none (Nat.le_of_not_lt hcon)] at h
    cases h
  simp [List.getElem?_set, hi]

theorem step_clientPush_none (s : Sys) (i : Nat) (n : Notification) (c : Client)
    (err : Option String) (hw : s.workers[i]? = some (Worker.send n c)) :
    step s (Label.clientPush i none err) = Outcome.done { s with
      workers := s.workers.set i Worker.recv
      trace := s.trace ++ [Event.dropped i n]
      log := s.log ++ (afterPush n none err).1 } := by
  simp [step, workerStep, hw, afterPush]

theorem step_clientPush_some (s : Sys) (i : Nat) (n : Notification) (c : Client)
    (r : Response) (err : Option String) (hw : s.workers[i]? = some (Worker.send n c)) :
    step s (Label.clientPush i (some r) err) = Outcome.done { s with
      workers := s.workers.set i (Worker.publish n (newRes n r))
      log := s.log ++ (afterPush n (some r) err).1 } := by
  simp [step, workerStep, hw, afterPush]

theorem step_publish_open (s : Sys) (i : Nat) (n : Notification) (r : ResponseWithMetadata)
    (ch : Chan ResponseWithMetadata) (hw : s.workers[i]? = some (Worker.publish n r))
    (hch : s.q.responseChannel = some ch) (hopen : ch.closed = false) :
    step s (Label.publish i) = Outcome.done { s with
      workers := s.workers.set i Worker.recv
      delivered := s.delivered ++ [r]
      trace := s.trace ++ [Event.published i n r] } := by
  simp [step, workerStep, hw, hch, hopen]

theorem step_publish_closed (s : Sys) (i : Nat) (n : Notification) (r : ResponseWithMetadata)
    (ch : Chan ResponseWithMetadata) (hw : s.workers[i]? = some (Worker.publish n r))
    (hch : s.q.responseChannel = some ch) (hclosed : ch.closed = true) :
    step s (Label.publish i) = Outcome.panic "send on closed channel" := by
  simp [step, workerStep, hw, hch, hclosed]

theorem step_publish_at_recv (s : Sys) (i : Nat) (hw : s.workers[i]? = some Worker.recv) :
    step s (Label.publish i) = Outcome.blocked := by
  simp [step, workerStep, hw]

/-- C2: take a worker `i` that holds notification `n` and is about to call the
client. If the call yields no response (`res == nil`, whatever `err` is), the
worker goes back to the head of its loop and nothing is published. If it yields a
response `r` (again whatever `err` is), the worker proceeds to publish the record
`{r.StatusCode, r.Reason, r.ApnsID, r.Sent(), n.DeviceToken}`, and when the
response channel is open and read, exactly that one record is delivered: the
worker is then back at the head of its loop, where it has nothing to publish. -/
theorem C2_worker_publishes_response (s : Sys) (i : Nat) (n : Notification) (c : Client)
    (err : Option String) (hw : s.workers[i]? = some (Worker.send n c)) :
    (∃ s1, step s (Label.clientPush i none err) = Outcome.done s1 ∧
        s1.delivered = s.delivered ∧ s1.q = s.q ∧
        s1.workers[i]? = some Worker.recv ∧
        step s1 (Label.publish i) = Outcome.blocked) ∧
    (∀ r : Response,
      ∃ s1, step s (Label.clientPush i (some r) err) = Outcome.done s1 ∧
        s1.delivered = s.delivered ∧ s1.q = s.q ∧
        s1.workers[i]? = some (Worker.publish n
          { StatusCode := r.StatusCode, Reason := r.Reason, ApnsID := r.ApnsID,
            Sent := r.Sent, DeviceToken := n.DeviceToken }) ∧
        ∀ ch, s.q.responseChannel = some ch → ch.closed = false →
          ∃ s2, step s1 (Label.publish i) = Outcome.done s2 ∧
            s2.delivered = s.delivered ++
              [{ StatusCode := r.StatusCode, Reason := r.Reason, ApnsID := r.ApnsID,
                 Sent := r.Sent, DeviceToken := n.DeviceToken }] ∧
            s2.workers[i]? = some Worker.recv ∧
            step s2 (Label.publish i) = Outcome.blocked) := by
  constructor
  · have h1 := getElem?_set_self_of_some s.workers i _ Worker.recv hw
    exact ⟨_, step_clientPush_none s i n c err hw, rfl, rfl, h1,
      step_publish_at_recv _ i h1⟩
  · intro r
    have h1 := getElem?_set_self_of_some s.workers i _ (Worker.publish n (newRes n r)) hw
    refine ⟨_, step_clientPush_some s i n c r err hw, rfl, rfl, h1, ?_⟩
    intro ch hch hopen
    have h2 := getElem?_set_self_of_some _ i _ Worker.recv h1
    exact ⟨_, step_publish_open _ i n (newRes n r) ch h1 hch hopen, rfl, h2,
      step_publish_at_recv _ i h2⟩

/-- Witness of C2 on the demonstration queue: worker 0 holds `demoNote1` and the
client answers with `demoResponse` together with an error value. -/
theorem C2_worker_publishes_response_witness :
    ∃ s1, step { demoConfigured with
              workers := [Worker.send demoNote1 (demoClient 0), Worker.recv] }
            (Label.clientPush 0 (some demoResponse) (some "unexpected EOF")) = Outcome.done s1 ∧
      s1.workers[0]? = some (Worker.publish demoNote1
        { StatusCode := 200, Reason := "", ApnsID := "apns-9", Sent := true,
          DeviceToken := "dev-1" }) := by
  obtain ⟨s1, h1, _, _, h2, _⟩ :=
    (C2_worker_publishes_response
      { demoConfigured with workers := [Worker.send demoNote1 (demoClient 0), Worker.recv] }
      0 demoNote1 (demoClient 0) (some "unexpected EOF") rfl).2 demoResponse
  exact ⟨s1, h1, h2⟩

/-- C3: when loading the signing key from `authKeyPath` fails with `err`,
`Configure` returns `err` and the queue stays as it was: `token`, the client pool,
`pushChannel`, `responseChannel`, `Closed` and every other field of the queue are
unchanged, no worker is spawned and no client is created. -/
theorem C3_configure_key_failure (authKeyFromFile : String → Except String AuthKey)
    (s : Sys) (err : String) (hkey : authKeyFromFile s.q.authKeyPath = Except.error err) :
    ∃ s1, Configure authKeyFromFile s = Outcome.done (some err, s1) ∧
      s1.q = s.q ∧
      s1.q.token = s.q.token ∧ s1.q.clients = s.q.clients ∧
      s1.q.pushChannel = s.q.pushChannel ∧
      s1.q.responseChannel = s.q.responseChannel ∧ s1.q.Closed = s.q.Closed ∧
      s1.workers = s.workers ∧ s1.allocated = s.allocated ∧
      s1.delivered = s.delivered ∧ s1.trace = s.trace := by
  refine ⟨(configureCertificate authKeyFromFile s).2, ?_, ?_⟩
  · simp [Configure, configureCertificate, hkey]
  · simp [configureCertificate, hkey]

/-- Witness of C3: the demonstration queue with a key loader that fails. -/
theorem C3_configure_key_failure_witness :
    ∃ s1, Configure demoNoKey (Sys.new demoQueue) =
        Outcome.done (some "open key.p8: no such file or directory", s1) ∧
      s1.q = demoQueue ∧ s1.workers = [] := by
  obtain ⟨s1, h1, h2, _, _, _, _, _, h3, _⟩ :=
    C3_configure_key_failure demoNoKey (Sys.new demoQueue)
      "open key.p8: no such file or directory" rfl
  exact ⟨s1, h1, h2, h3⟩

theorem poolClient_eq (s : Sys) :
    poolClient s = ({ id := s.allocated, Token := s.q.token, Host := (if s.q.IsProduction then Host.Production else Host.Development) } : Client) := by
  unfold poolClient NewTokenClient Client.Production Client.Development
  cases s.q.IsProduction <;> simp

theorem fillClients_eq (k : Nat) : ∀ (s : Sys) (ch : Chan Client),
    s.q.clients = some ch → ch.buf.length + k ≤ ch.cap →
    fillClients k s = Outcome.done { s with
      q := { s.q with clients := some { ch with
        buf := ch.buf ++ poolOf s.q.IsProduction s.q.token s.allocated k } }
      allocated := s.allocated + k } := by
  induction k with
  | zero =>
    intro s ch hc _
    obtain ⟨q, w, a, d, t, l⟩ := s
    obtain ⟨a1, a2, a3, a4, a5, a6, a7, a8, a9, a10⟩ := q
    simp only at hc
    subst hc
    simp [fillClients, poolOf]
  | succ k ih =>
    intro s ch hc hcap
    have hlt : ch.buf.length < ch.cap := by omega
    rw [fillClients]
    simp only [hc, hlt, if_true]
    rw [ih _ { ch with buf := ch.buf ++ [poolClient s] } rfl (by simp; omega)]
    simp [poolOf, poolClient_eq, Nat.add_assoc, Nat.add_comm 1 k]

theorem poolOf_length (p : Bool) (t : Option Token) (k : Nat) :
    ∀ start, (poolOf p t start k).length = k := by
  induction k with
  | zero => intro _; rfl
  | succ k ih => intro start; simp [poolOf, ih]

theorem poolOf_mem (p : Bool) (t : Option Token) (k : Nat) :
    ∀ start c, c ∈ poolOf p t start k →
      c.Token = t ∧ c.Host = (if p then Host.Production else Host.Development) ∧
      start ≤ c.id ∧ c.id < start + k := by
  induction k with
  | zero => intro _ c h; simp [poolOf] at h
  | succ k ih =>
    intro start c h
    simp only [poolOf, List.mem_cons] at h
    rcases h with h | h
    · subst h; simp
    · obtain ⟨h1, h2, h3, h4⟩ := ih _ c h
      exact ⟨h1, h2, by omega, by omega⟩

theorem poolOf_nodup (p : Bool) (t : Option Token) (k : Nat) :
    ∀ start, ((poolOf p t start k).map Client.id).Nodup := by
  induction k with
  | zero => intro _; simp [poolOf]
  | succ k ih =>
    intro start
    simp only [poolOf, List.map_cons, List.nodup_cons]
    refine ⟨?_, ih _⟩
    intro hmem
    obtain ⟨c, hc, hid⟩ := List.mem_map.1 hmem
    have := (poolOf_mem p t k _ c hc).2.2.1
    omega

theorem spawnWorkers_eq (k : Nat) : ∀ s : Sys,
    spawnWorkers k s = { s with workers := s.workers ++ List.replicate k Worker.recv } := by
  induction k with
  | zero => intro s; simp [spawnWorkers]
  | succ k ih =>
    intro s
    rw [spawnWorkers, ih]
    simp [List.replicate_succ]

theorem Configure_eq (authKeyFromFile : String → Except String AuthKey) (s : Sys)
    (key : AuthKey) (hkey : authKeyFromFile s.q.authKeyPath = Except.ok key)
    (hn : 0 ≤ s.q.Config.connectionPoolSize) :
    Configure authKeyFromFile s = Outcome.done (none,
      { s with
        q := { s.q with
          token := some { AuthKey := key, KeyID := s.q.keyID, TeamID := s.q.teamID }
          Closed := false
          clients := some
            { buf := poolOf s.q.IsProduction
                (some { AuthKey := key, KeyID := s.q.keyID, TeamID := s.q.teamID })
                s.allocated s.q.Config.connectionPoolSize.toNat
              cap := s.q.Config.connectionPoolSize.toNat
              closed := false }
          pushChannel := some (Chan.make 0)
          responseChannel := some (Chan.make 0) }
        workers := s.workers ++ List.replicate s.q.Config.concurrentWorkers.toNat Worker.recv
        allocated := s.allocated + s.q.Config.connectionPoolSize.toNat
        log := s.log ++ [⟨"debug", "configureCertificate", "token loaded"⟩,
          ⟨"debug", "configure", "clients configured"⟩] }) := by
  have hneg : ¬ s.q.Config.connectionPoolSize < 0 := by omega
  simp only [Configure, configureCertificate, hkey, hneg, if_false]
  rw [fillClients_eq _ _ (Chan.make s.q.Config.connectionPoolSize.toNat) rfl
    (by simp [Chan.make])]
  simp [spawnWorkers_eq, Chan.make]

/-- C4: when the signing key loads and `apns.connectionPoolSize = n ≥ 0`,
`Configure` returns no error; `token` is `{authKey, keyID, teamID}`; the client
pool is a channel of capacity `n` holding exactly `n` distinct clients, each built
from that token and bound to the production host if `IsProduction` and to the
development host otherwise; `Closed` is false; `pushChannel` and
`responseChannel` are fresh channels of capacity 0; and the spawned workers, all
at the head of their loop, number exactly `apns.concurrentWorkers` (a setting
below zero spawns none, the loop `for i := 0; i < w; i++` not being entered). -/
theorem C4_configure_success (authKeyFromFile : String → Except String AuthKey) (s : Sys)
    (key : AuthKey) (hkey : authKeyFromFile s.q.authKeyPath = Except.ok key)
    (hn : 0 ≤ s.q.Config.connectionPoolSize) :
    ∃ s1, Configure authKeyFromFile s = Outcome.done (none, s1) ∧
      s1.q.token = some { AuthKey := key, KeyID := s.q.keyID, TeamID := s.q.teamID } ∧
      (∃ pool, s1.q.clients = some pool ∧
        (pool.cap : Int) = s.q.Config.connectionPoolSize ∧ pool.closed = false ∧
        (pool.buf.length : Int) = s.q.Config.connectionPoolSize ∧
        (pool.buf.map Client.id).Nodup ∧
        ∀ c ∈ pool.buf,
          c.Token = some { AuthKey := key, KeyID := s.q.keyID, TeamID := s.q.teamID } ∧
          c.Host = (if s.q.IsProduction then Host.Production else Host.Development)) ∧
      s1.q.Closed = false ∧
      s1.q.pushChannel = some { buf := [], cap := 0, closed := false } ∧
      s1.q.responseChannel = some { buf := [], cap := 0, closed := false } ∧
      (∃ spawned, s1.workers = s.workers ++ spawned ∧
        (∀ w ∈ spawned, w = Worker.recv) ∧
        spawned.length = s.q.Config.concurrentWorkers.toNat ∧
        (0 ≤ s.q.Config.concurrentWorkers →
          (spawned.length : Int) = s.q.Config.concurrentWorkers) ∧
        (s.q.Config.concurrentWorkers < 0 → spawned = [])) := by
  refine ⟨_, Configure_eq authKeyFromFile s key hkey hn, rfl, ?_, rfl, rfl, rfl, ?_⟩
  · refine ⟨_, rfl, ?_, rfl, ?_, poolOf_nodup _ _ _ _, ?_⟩
    · simpa using Int.toNat_of_nonneg hn
    · simpa [poolOf_length] using Int.toNat_of_nonneg hn
    · intro c hc
      have h := poolOf_mem _ _ _ _ c hc
      exact ⟨h.1, h.2.1⟩
  · refine ⟨List.replicate s.q.Config.concurrentWorkers.toNat Worker.recv, rfl, ?_, ?_, ?_, ?_⟩
    · intro w hw
      exact List.eq_of_mem_replicate hw
    · simp
    · intro hw
      simpa using Int.toNat_of_nonneg hw
    · intro hw
      have : s.q.Config.concurrentWorkers.toNat = 0 := by omega
      simp [this]

/-- Witness of C4: the demonstration queue (pool of three, two workers,
production). -/
theorem C4_configure_success_witness :
    ∃ s1, Configure demoKeyLoader (Sys.new demoQueue) = Outcome.done (none, s1) ∧
      s1.q.Closed = false ∧
      ∃ spawned, s1.workers = (Sys.new demoQueue).workers ++ spawned ∧ spawned.length = 2 := by
  obtain ⟨s1, h1, _, _, h2, _, _, spawned, h3, _, h4, _⟩ :=
    C4_configure_success demoKeyLoader (Sys.new demoQueue) { pem := "KEY" } rfl (by decide)
  exact ⟨s1, h1, h2, spawned, h3, h4⟩

theorem Close_eq (s : Sys) (pc : Chan Notification) (rc : Chan ResponseWithMetadata)
    (hp : s.q.pushChannel = some pc) (hpo : pc.closed = false)
    (hr : s.q.responseChannel = some rc) (hro : rc.closed = false) :
    Close s = Outcome.done { s with
      q := { s.q with
        pushChannel := some { pc with closed := true }
        responseChannel := some { rc with closed := true }
        Closed := true } } := by
  simp [Close, closePushChannel, closeResponseChannel, setClosed, closeChan, Outcome.bind,
    hp, hpo, hr, hro]

theorem Close_done_inv (s s1 : Sys) (h : Close s = Outcome.done s1) :
    ∃ pc rc, s.q.pushChannel = some pc ∧ pc.closed = false ∧
      s.q.responseChannel = some rc ∧ rc.closed = false := by
  unfold Close closePushChannel closeResponseChannel setClosed closeChan at h
  cases hp : s.q.pushChannel with
  | none => simp [hp, Outcome.bind] at h
  | some pc =>
    cases hr : s.q.responseChannel with
    | none =>
      cases hpc : pc.closed <;> simp [hp, hr, hpc, Outcome.bind] at h
    | some rc =>
      cases hpc : pc.closed with
      | true => simp [hp, hr, hpc, Outcome.bind] at h
      | false =>
        cases hrc : rc.closed with
        | true => simp [hp, hr, hpc, hrc, Outcome.bind] at h
        | false => exact ⟨pc, rc, rfl, hpc, rfl, hrc⟩

theorem step_sound (s : Sys) (l : Label) (s1 : Sys) (h : step s l = Outcome.done s1) :
    Step s l s1 := by
  cases l with
  | push n i =>
    simp only [step, Push] at h
    split at h
    · cases h
    · rename_i pc hp
      split at h
      · cases h
      · rename_i hclosed
        split at h
        · rename_i hw
          cases h
          exact Step.push s n i pc hp (by simpa using hclosed) hw
        · cases h
  | borrow i =>
    simp only [step, workerStep] at h
    split at h
    · rename_i n hw
      split at h
      · cases h
      · rename_i pool hpool
        split at h
        · cases h
        · rename_i c rest hbuf
          cases h
          exact Step.borrow s i n pool c rest hw hpool hbuf
    · cases h
  | giveBack i =>
    simp only [step, workerStep] at h
    split at h
    · rename_i n c hw
      split at h
      · cases h
      · rename_i pool hpool
        split at h
        · cases h
        · rename_i hclosed
          split at h
          · rename_i hlt
            cases h
            exact Step.giveBack s i n c pool hw hpool (by simpa using hclosed) hlt
          · cases h
    · cases h
  | clientPush i res err =>
    simp only [step, workerStep] at h
    split at h
    · rename_i n c hw
      cases res with
      | none =>
        simp only [afterPush] at h
        cases h
        exact Step.dropped s i n c err hw
      | some r =>
        simp only [afterPush] at h
        cases h
        exact Step.responded s i n c r err hw
    · cases h
  | publish i =>
    simp only [step, workerStep] at h
    split at h
    · rename_i n r hw
      split at h
      · cases h
      · rename_i rc hrc
        split at h
        · cases h
        · rename_i hclosed
          cases h
          exact Step.publish s i n r rc hw hrc (by simpa using hclosed)
    · cases h
  | exit i =>
    simp only [step, workerStep] at h
    split at h
    · rename_i hw
      split at h
      · cases h
      · rename_i pc hpc
        split at h
        · rename_i hclosed
          cases h
          exact Step.exit s i pc hw hpc hclosed
        · cases h
    · cases h
  | close =>
    simp only [step] at h
    obtain ⟨pc, rc, hp, hpo, hr, hro⟩ := Close_done_inv s s1 h
    rw [Close_eq s pc rc hp hpo hr hro] at h
    cases h
    exact Step.close s pc rc hp hpo hr hro

theorem lt_length_of_getElem? {α : Type} (l : List α) (i : Nat) (a : α)
    (h : l[i]? = some a) : i < l.length := by
  by_contra hcon
  rw [List.getElem?_eq_none (Nat.le_of_not_lt hcon)] at h
  cases h

theorem filterMap_set_perm {α β : Type} (f : α → Option β) :
    ∀ (l : List α) (i : Nat) (a b : α), l[i]? = some a →
      ((f b).toList ++ l.filterMap f).Perm ((f a).toList ++ (l.set i b).filterMap f) := by
  intro l
  induction l with
  | nil => intro i a b h; simp at h
  | cons x t ih =>
    intro i a b h
    cases i with
    | zero =>
      simp only [List.getElem?_cons_zero, Option.some.injEq] at h
      subst h
      simp only [List.set_cons_zero, List.filterMap_cons]
      cases hx : f x <;> cases hb : f b <;> simp [List.Perm.swap]
    | succ k =>
      simp only [List.getElem?_cons_succ] at h
      have := ih k a b h
      simp only [List.set_cons_succ, List.filterMap_cons]
      cases hx : f x with
      | none => simpa using this
      | some y =>
        simp only
        exact (List.perm_middle.trans (List.Perm.cons y this)).trans List.perm_middle.symm

theorem countP_set {α : Type} (p : α → Bool) :
    ∀ (l : List α) (i : Nat) (a b : α), l[i]? = some a →
      (l.set i b).countP p + (if p a then 1 else 0) = l.countP p + (if p b then 1 else 0) := by
  intro l
  induction l with
  | nil => intro i a b h; simp at h
  | cons x t ih =>
    intro i a b h
    cases i with
    | zero =>
      simp only [List.getElem?_cons_zero, Option.some.injEq] at h
      subst h
      simp only [List.set_cons_zero, List.countP_cons]
      omega
    | succ k =>
      simp only [List.getElem?_cons_succ] at h
      have := ih k a b h
      simp only [List.set_cons_succ, List.countP_cons]
      omega

theorem bind_held_set (l : List Worker) (i : Nat) (a b : Worker) (h : l[i]? = some a)
    (j : Nat) :
    ((l.set i b)[j]?).bind Worker.held =
      if j = i then b.held else (l[j]?).bind Worker.held := by
  have hi := lt_length_of_getElem? l i a h
  by_cases hji : j = i
  · subst hji
    simp [List.getElem?_set, hi]
  · have : ¬ i = j := fun e => hji e.symm
    simp [List.getElem?_set, hji, this]

theorem inFlightOf_append (i : Nat) (tr : List Event) (e : Event) :
    inFlightOf i (tr ++ [e]) = holderUpdate i (inFlightOf i tr) e := by
  simp [inFlightOf, List.foldl_append]

theorem getElem?_set_ne_send (l : List Worker) (i j : Nat) (b : Worker) (n : Notification)
    (c : Client) (hb : ∀ n1 c1, b ≠ Worker.send n1 c1)
    (h : (l.set i b)[j]? = some (Worker.send n c)) : l[j]? = some (Worker.send n c) := by
  rw [List.getElem?_set] at h
  split at h
  · split at h
    · simp only [Option.some.injEq] at h
      exact absurd h (hb n c)
    · cases h
  · exact h

theorem Configure_done_inv (authKeyFromFile : String → Except String AuthKey) (s s1 : Sys)
    (h : Configure authKeyFromFile s = Outcome.done (none, s1)) :
    ∃ key, authKeyFromFile s.q.authKeyPath = Except.ok key ∧
      0 ≤ s.q.Config.connectionPoolSize := by
  cases hk : authKeyFromFile s.q.authKeyPath with
  | error e => simp [Configure, configureCertificate, hk] at h
  | ok key =>
    refine ⟨key, rfl, ?_⟩
    by_contra hneg
    have hlt : s.q.Config.connectionPoolSize < 0 := by omega
    simp [Configure, configureCertificate, hk, hlt] at h

theorem sending_set (P0 : List Client) (l : List Worker) (i : Nat) (b : Worker)
    (hb : ∀ n c, b = Worker.send n c → c ∈ P0)
    (hl : ∀ (j : Nat) n c, l[j]? = some (Worker.send n c) → c ∈ P0) :
    ∀ (j : Nat) n c, (l.set i b)[j]? = some (Worker.send n c) → c ∈ P0 := by
  intro j n c h
  rw [List.getElem?_set] at h
  split at h
  · split at h
    · simp only [Option.some.injEq] at h
      exact hb n c h
    · cases h
  · exact hl j n c h

theorem borrowed_set_none (l : List Worker) (i : Nat) (a b : Worker) (h : l[i]? = some a)
    (ha : a.borrowed = none) (hb : b.borrowed = none) :
    ((l.set i b).filterMap Worker.borrowed).Perm (l.filterMap Worker.borrowed) := by
  have := filterMap_set_perm Worker.borrowed l i a b h
  simpa [ha, hb] using this.symm

theorem PoolInv_step (P0 : List Client) (cap : Nat) (s : Sys) (l : Label) (s1 : Sys)
    (hinv : PoolInv P0 cap s) (hstep : Step s l s1) : PoolInv P0 cap s1 := by
  obtain ⟨⟨pool, hpool, hcap, hopen, hperm⟩, hsend, halloc⟩ := hinv
  cases hstep with
  | push n i pc hp hpo hw =>
    refine ⟨⟨pool, hpool, hcap, hopen, ?_⟩, ?_, halloc⟩
    · exact (List.Perm.append_left _ (borrowed_set_none _ i _ (Worker.acquire n) hw rfl rfl)).trans hperm
    · exact sending_set P0 _ i _ (fun _ _ h => by cases h) hsend
  | borrow i n pool1 c rest hw hp hbuf =>
    rw [hpool] at hp
    cases hp
    refine ⟨⟨_, rfl, hcap, hopen, ?_⟩, ?_, halloc⟩
    · have h1 := filterMap_set_perm Worker.borrowed s.workers i _ (Worker.release n c) hw
      simp only [Worker.borrowed, Option.toList, List.nil_append, List.singleton_append] at h1
      rw [hbuf] at hperm
      refine ((List.Perm.append_left rest h1.symm).trans ?_).trans hperm
      exact List.perm_middle
    · exact sending_set P0 _ i _ (fun _ _ h => by cases h) hsend
  | giveBack i n c pool1 hw hp hpo hlt =>
    rw [hpool] at hp
    cases hp
    have h1 := filterMap_set_perm Worker.borrowed s.workers i _ (Worker.send n c) hw
    simp only [Worker.borrowed, Option.toList, List.nil_append, List.singleton_append] at h1
    have h2 : (pool.buf ++ c :: (s.workers.set i (Worker.send n c)).filterMap Worker.borrowed).Perm
        P0 := (List.Perm.append_left pool.buf h1.symm).trans hperm
    refine ⟨⟨_, rfl, hcap, hopen, ?_⟩, ?_, halloc⟩
    · simpa using h2
    · refine sending_set P0 _ i _ ?_ hsend
      intro n1 c1 h
      cases h
      exact h2.subset (by simp)
  | dropped i n c err hw =>
    refine ⟨⟨pool, hpool, hcap, hopen, ?_⟩, ?_, halloc⟩
    · exact (List.Perm.append_left _ (borrowed_set_none _ i _ Worker.recv hw rfl rfl)).trans hperm
    · exact sending_set P0 _ i _ (fun _ _ h => by cases h) hsend
  | responded i n c r err hw =>
    refine ⟨⟨pool, hpool, hcap, hopen, ?_⟩, ?_, halloc⟩
    · exact (List.Perm.append_left _ (borrowed_set_none _ i _ (Worker.publish n (newRes n r)) hw rfl rfl)).trans hperm
    · exact sending_set P0 _ i _ (fun _ _ h => by cases h) hsend
  | publish i n r rc hw hr hro =>
    refine ⟨⟨pool, hpool, hcap, hopen, ?_⟩, ?_, halloc⟩
    · exact (List.Perm.append_left _ (borrowed_set_none _ i _ Worker.recv hw rfl rfl)).trans hperm
    · exact sending_set P0 _ i _ (fun _ _ h => by cases h) hsend
  | exit i pc hw hp hpc =>
    refine ⟨⟨pool, hpool, hcap, hopen, ?_⟩, ?_, halloc⟩
    · exact (List.Perm.append_left _ (borrowed_set_none _ i _ Worker.exited hw rfl rfl)).trans hperm
    · exact sending_set P0 _ i _ (fun _ _ h => by cases h) hsend
  | close pc rc hp hpo hr hro =>
    exact ⟨⟨pool, hpool, hcap, hopen, hperm⟩, hsend, halloc⟩

theorem busy_set (s : Sys) (i : Nat) (a b : Worker) (h : s.workers[i]? = some a) :
    (s.workers.set i b).countP (fun w => w.held.isSome) + (if a.held.isSome then 1 else 0) =
      busyWorkers s + (if b.held.isSome then 1 else 0) :=
  countP_set (fun w => w.held.isSome) s.workers i a b h

theorem WorkerInv_step (w : Nat) (s : Sys) (l : Label) (s1 : Sys)
    (hinv : WorkerInv w s) (hstep : Step s l s1) : WorkerInv w s1 := by
  obtain ⟨hcount, howner, hlen⟩ := hinv
  cases hstep with
  | push n i pc hp hpo hw =>
    have hb := busy_set s i _ (Worker.acquire n) hw
    refine ⟨?_, ?_, by simpa using hlen⟩
    · simp only [busyWorkers, List.countP_append, List.countP_cons, List.countP_nil,
        Event.isAccepted, Event.isRetired, Worker.held, Option.isSome] at hb hcount ⊢
      simp at hb ⊢
      omega
    · intro j
      rw [inFlightOf_append, bind_held_set _ i _ _ hw, howner j]
      by_cases hji : j = i
      · subst hji; simp [holderUpdate, Worker.held]
      · have : ¬ i = j := fun e => hji e.symm
        simp [holderUpdate, hji, this]
  | borrow i n pool c rest hw hp hbuf =>
    have hb := busy_set s i _ (Worker.release n c) hw
    refine ⟨?_, ?_, by simpa using hlen⟩
    · simp only [busyWorkers, Worker.held, Option.isSome] at hb hcount ⊢
      simp at hb ⊢
      omega
    · intro j
      rw [bind_held_set _ i _ _ hw, howner j]
      by_cases hji : j = i
      · subst hji; simp [hw, Worker.held]
      · simp [hji]
  | giveBack i n c pool hw hp hpo hlt =>
    have hb := busy_set s i _ (Worker.send n c) hw
    refine ⟨?_, ?_, by simpa using hlen⟩
    · simp only [busyWorkers, Worker.held, Option.isSome] at hb hcount ⊢
      simp at hb ⊢
      omega
    · intro j
      rw [bind_held_set _ i _ _ hw, howner j]
      by_cases hji : j = i
      · subst hji; simp [hw, Worker.held]
      · simp [hji]
  | dropped i n c err hw =>
    have hb := busy_set s i _ Worker.recv hw
    refine ⟨?_, ?_, by simpa using hlen⟩
    · simp only [busyWorkers, List.countP_append, List.countP_cons, List.countP_nil,
        Event.isAccepted, Event.isRetired, Worker.held, Option.isSome] at hb hcount ⊢
      simp at hb ⊢
      omega
    · intro j
      rw [inFlightOf_append, bind_held_set _ i _ _ hw, howner j]
      by_cases hji : j = i
      · subst hji; simp [holderUpdate, Worker.held]
      · have : ¬ i = j := fun e => hji e.symm
        simp [holderUpdate, hji, this]
  | responded i n c r err hw =>
    have hb := busy_set s i _ (Worker.publish n (newRes n r)) hw
    refine ⟨?_, ?_, by simpa using hlen⟩
    · simp only [busyWorkers, Worker.held, Option.isSome] at hb hcount ⊢
      simp at hb ⊢
      omega
    · intro j
      rw [bind_held_set _ i _ _ hw, howner j]
      by_cases hji : j = i
      · subst hji; simp [hw, Worker.held]
      · simp [hji]
  | publish i n r rc hw hr hro =>
    have hb := busy_set s i _ Worker.recv hw
    refine ⟨?_, ?_, by simpa using hlen⟩
    · simp only [busyWorkers, List.countP_append, List.countP_cons, List.countP_nil,
        Event.isAccepted, Event.isRetired, Worker.held, Option.isSome] at hb hcount ⊢
      simp at hb ⊢
      omega
    · intro j
      rw [inFlightOf_append, bind_held_set _ i _ _ hw, howner j]
      by_cases hji : j = i
      · subst hji; simp [holderUpdate, Worker.held]
      · have : ¬ i = j := fun e => hji e.symm
        simp [holderUpdate, hji, this]
  | exit i pc hw hp hpc =>
    have hb := busy_set s i _ Worker.exited hw
    refine ⟨?_, ?_, by simpa using hlen⟩
    · simp only [busyWorkers, Worker.held, Option.isSome] at hb hcount ⊢
      simp at hb ⊢
      omega
    · intro j
      rw [bind_held_set _ i _ _ hw, howner j]
      by_cases hji : j = i
      · subst hji; simp [hw, Worker.held]
      · simp [hji]
  | close pc rc hp hpo hr hro =>
    exact ⟨hcount, howner, hlen⟩

theorem Reachable_run (authKeyFromFile : String → Except String AuthKey) (q0 : APNSPushQueue)
    (ls : List Label) : ∀ s s1 : Sys, Reachable authKeyFromFile q0 s →
      run s ls = Outcome.done s1 → Reachable authKeyFromFile q0 s1 := by
  induction ls with
  | nil =>
    intro s s1 hr h
    simp only [run, Outcome.done.injEq] at h
    exact h ▸ hr
  | cons l ls ih =>
    intro s s1 hr h
    simp only [run] at h
    cases hs : step s l with
    | done s2 =>
      rw [hs] at h
      exact ih s2 s1 (Reachable.step s l s2 hr hs) h
    | blocked => rw [hs] at h; cases h
    | panic m => rw [hs] at h; cases h

theorem Reachable_inv (authKeyFromFile : String → Except String AuthKey) (q0 : APNSPushQueue)
    (s : Sys) (h : Reachable authKeyFromFile q0 s) :
    ∃ key, authKeyFromFile q0.authKeyPath = Except.ok key ∧
      0 ≤ q0.Config.connectionPoolSize ∧
      PoolInv (poolOf q0.IsProduction
          (some { AuthKey := key, KeyID := q0.keyID, TeamID := q0.teamID }) 0
          q0.Config.connectionPoolSize.toNat)
        q0.Config.connectionPoolSize.toNat s ∧
      WorkerInv q0.Config.concurrentWorkers.toNat s := by
  induction h with
  | init s hc =>
    obtain ⟨key, hkey, hn⟩ := Configure_done_inv authKeyFromFile _ _ hc
    rw [Configure_eq authKeyFromFile _ key hkey hn] at hc
    simp only [Outcome.done.injEq, Prod.mk.injEq, true_and] at hc
    subst hc
    refine ⟨key, hkey, hn, ⟨⟨_, rfl, rfl, rfl, ?_⟩, ?_, ?_⟩, ⟨?_, ?_, ?_⟩⟩
    · simp [Sys.new, List.filterMap_replicate, Worker.borrowed]
    · intro i n c hw
      simp only [Sys.new, List.nil_append] at hw
      have := List.getElem?_mem hw
      cases List.eq_of_mem_replicate this
    · simp [Sys.new]
    · simp [Sys.new, busyWorkers, List.countP_replicate, Worker.held]
    · intro i
      simp only [Sys.new, List.nil_append, inFlightOf, List.foldl_nil]
      cases hw : (List.replicate q0.Config.concurrentWorkers.toNat Worker.recv)[i]? with
      | none => rfl
      | some w =>
        cases List.eq_of_mem_replicate (List.getElem?_mem hw)
        rfl
    · simp [Sys.new]
  | step s l s1 _ hstep ih =>
    obtain ⟨key, hkey, hn, hp, hw⟩ := ih
    have hS := step_sound s l s1 hstep
    exact ⟨key, hkey, hn, PoolInv_step _ _ s l s1 hp hS, WorkerInv_step _ s l s1 hw hS⟩

theorem step_borrow_eq (s : Sys) (i : Nat) (n : Notification) (pool : Chan Client)
    (c : Client) (rest : List Client) (hw : s.workers[i]? = some (Worker.acquire n))
    (hp : s.q.clients = some pool) (hbuf : pool.buf = c :: rest) :
    step s (Label.borrow i) = Outcome.done { s with
      q := { s.q with clients := some { pool with buf := rest } }
      workers := s.workers.set i (Worker.release n c) } := by
  simp [step, workerStep, hw, hp, hbuf]

theorem step_giveBack_eq (s : Sys) (i : Nat) (n : Notification) (c : Client)
    (pool : Chan Client) (hw : s.workers[i]? = some (Worker.release n c))
    (hp : s.q.clients = some pool) (hopen : pool.closed = false)
    (hlt : pool.buf.length < pool.cap) :
    step s (Label.giveBack i) = Outcome.done { s with
      q := { s.q with clients := some { pool with buf := pool.buf ++ [c] } }
      workers := s.workers.set i (Worker.send n c) } := by
  simp [step, workerStep, hw, hp, hopen, hlt]

theorem PoolInv_room (P0 : List Client) (cap : Nat) (s : Sys) (hlen : P0.length = cap)
    (hinv : PoolInv P0 cap s) (i : Nat) (n : Notification) (c : Client)
    (hw : s.workers[i]? = some (Worker.release n c)) :
    ∃ pool, s.q.clients = some pool ∧ pool.closed = false ∧ pool.buf.length < pool.cap := by
  obtain ⟨⟨pool, hpool, hcap, hopen, hperm⟩, _, _⟩ := hinv
  refine ⟨pool, hpool, hopen, ?_⟩
  have hmem : c ∈ s.workers.filterMap Worker.borrowed :=
    List.mem_filterMap.2 ⟨_, List.getElem?_mem hw, rfl⟩
  have hpos : 0 < (s.workers.filterMap Worker.borrowed).length := List.length_pos_of_mem hmem
  have := hperm.length_eq
  simp only [List.length_append] at this
  omega

/-- C5 (as amended): in every state reachable after a successful `Configure` with
pool size `n` through `Push`, worker steps and `Close`, exactly the `n` clients
that `Configure` created exist, with distinct identities: the clients in the pool
together with those borrowed and not yet returned are these `n` clients up to
order, workers send only with them, and no further client is created. A worker
that holds a borrowed client can always return it (the return does not block) and
returns that same client, to the tail of the pool, before sending. A worker about
to borrow takes the client at the head of the pool, and when its borrow and return
run with no other worker in between the pool is rotated by one position. -/
theorem C5_client_pool_invariant (authKeyFromFile : String → Except String AuthKey)
    (q0 : APNSPushQueue) (s : Sys) (h : Reachable authKeyFromFile q0 s) :
    ∃ s0 pool0 pool, Configure authKeyFromFile (Sys.new q0) = Outcome.done (none, s0) ∧
      s0.q.clients = some pool0 ∧
      (pool0.buf.length : Int) = q0.Config.connectionPoolSize ∧
      (pool0.buf.map Client.id).Nodup ∧
      s.q.clients = some pool ∧
      (pool.buf ++ s.workers.filterMap Worker.borrowed).Perm pool0.buf ∧
      (s.allocated : Int) = q0.Config.connectionPoolSize ∧
      (∀ (i : Nat) n c, s.workers[i]? = some (Worker.send n c) → c ∈ pool0.buf) ∧
      (∀ (i : Nat) n c, s.workers[i]? = some (Worker.release n c) →
        ∃ s1, step s (Label.giveBack i) = Outcome.done s1 ∧
          s1.q.clients = some { pool with buf := pool.buf ++ [c] } ∧
          s1.workers[i]? = some (Worker.send n c)) ∧
      (∀ (i : Nat) n, s.workers[i]? = some (Worker.acquire n) →
        ∀ c rest, pool.buf = c :: rest →
          ∃ s1 s2, step s (Label.borrow i) = Outcome.done s1 ∧
            s1.workers[i]? = some (Worker.release n c) ∧
            step s1 (Label.giveBack i) = Outcome.done s2 ∧
            s2.workers[i]? = some (Worker.send n c) ∧
            s2.q.clients = some { pool with buf := pool.buf.rotate 1 }) := by
  obtain ⟨key, hkey, hn, hp, _⟩ := Reachable_inv authKeyFromFile q0 s h
  have hP0len := poolOf_length q0.IsProduction
    (some { AuthKey := key, KeyID := q0.keyID, TeamID := q0.teamID })
    q0.Config.connectionPoolSize.toNat 0
  have hp' := hp
  obtain ⟨⟨pool, hpool, hcap, hopen, hperm⟩, hsend, halloc⟩ := hp
  refine ⟨_, _, pool, Configure_eq authKeyFromFile (Sys.new q0) key hkey hn, rfl, ?_, ?_,
    hpool, hperm, ?_, hsend, ?_, ?_⟩
  · simpa [Sys.new, poolOf_length] using Int.toNat_of_nonneg hn
  · exact poolOf_nodup _ _ _ _
  · rw [halloc]; exact Int.toNat_of_nonneg hn
  · intro i n c hw
    obtain ⟨pool1, hpool1, hopen1, hlt⟩ := PoolInv_room _ _ s hP0len hp' i n c hw
    rw [hpool] at hpool1
    cases hpool1
    exact ⟨_, step_giveBack_eq s i n c pool hw hpool hopen hlt, rfl,
      getElem?_set_self_of_some _ _ _ _ hw⟩
  · intro i n hw c rest hbuf
    have h1 := step_borrow_eq s i n pool c rest hw hpool hbuf
    have hS := PoolInv_step _ _ s _ _ hp' (step_sound _ _ _ h1)
    have hw1 := getElem?_set_self_of_some s.workers i _ (Worker.release n c) hw
    obtain ⟨pool1, hpool1, hopen1, hlt⟩ := PoolInv_room _ _ _ hP0len hS i n c hw1
    simp only [Option.some.injEq] at hpool1
    subst hpool1
    refine ⟨_, _, h1, hw1, step_giveBack_eq _ i n c _ hw1 rfl hopen1 hlt,
      getElem?_set_self_of_some _ _ _ _ hw1, ?_⟩
    simp [hbuf, List.rotate_cons_succ]

/-- Witness of C5: the state right after `Configure` of the demonstration queue. -/
theorem C5_client_pool_invariant_witness :
    Reachable demoKeyLoader demoQueue demoConfigured ∧
    ∃ pool, demoConfigured.q.clients = some pool ∧
      (pool.buf ++ demoConfigured.workers.filterMap Worker.borrowed).Perm
        [demoClient 0, demoClient 1, demoClient 2] := by
  have hr : Reachable demoKeyLoader demoQueue demoConfigured :=
    Reachable.init _ configure_demo
  obtain ⟨s0, pool0, pool, h0, hp0, _, _, hp, hperm, _⟩ :=
    C5_client_pool_invariant demoKeyLoader demoQueue demoConfigured hr
  rw [configure_demo] at h0
  cases h0
  cases hp0
  exact ⟨hr, pool, hp, hperm⟩

/-- Counterexample to C5 as stated: pool of three clients, two workers. Worker 0
and worker 1 each accept a notification; worker 0 borrows client 0, worker 1
borrows client 1 and returns it, then worker 0 returns client 0 and its send
yields no response, which ends its iteration. The pool went from
`[client 0, client 1, client 2]` to `[client 2, client 1, client 0]`, which is not
the former rotated by one position. -/
theorem C5_counterexample :
    Reachable demoKeyLoader demoQueue demoAfterOverlap ∧
      demoConfigured.workers[0]? = some Worker.recv ∧
      demoConfigured.q.clients =
        some { buf := [demoClient 0, demoClient 1, demoClient 2], cap := 3, closed := false } ∧
      run demoConfigured demoOverlap = Outcome.done demoAfterOverlap ∧
      demoAfterOverlap.workers[0]? = some Worker.recv ∧
      demoAfterOverlap.q.clients =
        some { buf := [demoClient 2, demoClient 1, demoClient 0], cap := 3, closed := false } ∧
      [demoClient 2, demoClient 1, demoClient 0] ≠
        [demoClient 0, demoClient 1, demoClient 2].rotate 1 := by
  have hrun : run demoConfigured demoOverlap = Outcome.done demoAfterOverlap := rfl
  refine ⟨Reachable_run demoKeyLoader demoQueue _ demoConfigured _
    (Reachable.init _ configure_demo) hrun, rfl, rfl, hrun, rfl, rfl, ?_⟩
  decide

/-- C6: in every state reachable after `Configure` with
`apns.concurrentWorkers = w`, the number of notifications accepted from
`pushChannel` and not yet retired (published or dropped) equals the number of
workers holding a notification, which is at most the number of workers, `w` (none
when `w` is below zero); and for every worker index `i`, the notification that `i`
accepted and has not retired is exactly the one worker `i` holds, so that each
in-flight notification has one holder. -/
theorem C6_push_pool_bound (authKeyFromFile : String → Except String AuthKey)
    (q0 : APNSPushQueue) (s : Sys) (h : Reachable authKeyFromFile q0 s) :
    s.workers.length = q0.Config.concurrentWorkers.toNat ∧
    inFlight s.trace = busyWorkers s ∧
    busyWorkers s ≤ s.workers.length ∧
    inFlight s.trace ≤ q0.Config.concurrentWorkers.toNat ∧
    (0 ≤ q0.Config.concurrentWorkers → (inFlight s.trace : Int) ≤ q0.Config.concurrentWorkers) ∧
    (∀ i : Nat, inFlightOf i s.trace = (s.workers[i]?).bind Worker.held) := by
  obtain ⟨_, _, _, _, ⟨hcount, howner, hlen⟩⟩ := Reachable_inv authKeyFromFile q0 s h
  have hbusy : busyWorkers s ≤ s.workers.length := List.countP_le_length _
  have hin : inFlight s.trace = busyWorkers s := by
    unfold inFlight
    omega
  refine ⟨hlen, hin, hbusy, by omega, ?_, howner⟩
  intro hw
  have := Int.toNat_of_nonneg hw
  omega

/-- Witness of C6: the demonstration queue while worker 0 holds a notification. -/
theorem C6_push_pool_bound_witness :
    Reachable demoKeyLoader demoQueue demoInFlight ∧
    inFlight demoInFlight.trace = 1 ∧ inFlight demoInFlight.trace ≤ 2 ∧
    inFlightOf 0 demoInFlight.trace = some demoNote1 := by
  have hr : Reachable demoKeyLoader demoQueue demoInFlight :=
    Reachable_run demoKeyLoader demoQueue
      [Label.push demoNote1 0, Label.borrow 0, Label.giveBack 0] demoConfigured _
      (Reachable.init _ configure_demo) rfl
  obtain ⟨_, h1, _, h2, _, h3⟩ := C6_push_pool_bound demoKeyLoader demoQueue demoInFlight hr
  exact ⟨hr, h1.trans rfl, h2, (h3 0).trans rfl⟩

/-- C7, the behaviour of the code where it departs from the claim: the
demonstration queue is configured, `Push(demoNote1)` is accepted by worker 0, and
the caller runs `Close()` while worker 0 still holds the notification. `Close`
succeeds, closing `pushChannel`, then `responseChannel`, then setting `Closed`.
The client then answers worker 0 with a response, and the worker's send on the
closed `responseChannel` panics. -/
theorem C7_close_with_held_notification_panics :
    Reachable demoKeyLoader demoQueue demoInFlight ∧
    demoInFlight.workers[0]? = some (Worker.send demoNote1 (demoClient 0)) ∧
    step demoInFlight Label.close = Outcome.done demoClosedInFlight ∧
    (∃ s1, step demoClosedInFlight (Label.clientPush 0 (some demoResponse) none) =
        Outcome.done s1 ∧
      step s1 (Label.publish 0) = Outcome.panic "send on closed channel") := by
  refine ⟨?_, rfl, rfl, _, rfl, rfl⟩
  exact Reachable_run demoKeyLoader demoQueue
    [Label.push demoNote1 0, Label.borrow 0, Label.giveBack 0] demoConfigured _
    (Reachable.init _ configure_demo) rfl

theorem Close_result (s s1 : Sys) (h : Close s = Outcome.done s1) :
    ∃ pc rc, s.q.pushChannel = some pc ∧ pc.closed = false ∧
      s.q.responseChannel = some rc ∧ rc.closed = false ∧
      s1 = { s with
        q := { s.q with
          pushChannel := some { pc with closed := true }
          responseChannel := some { rc with closed := true }
          Closed := true } } := by
  obtain ⟨pc, rc, hp, hpo, hr, hro⟩ := Close_done_inv s s1 h
  rw [Close_eq s pc rc hp hpo hr hro] at h
  cases h
  exact ⟨pc, rc, hp, hpo, hr, hro, rfl⟩

theorem publish_after_Close_panics (s s1 : Sys) (i : Nat) (n : Notification)
    (r : ResponseWithMetadata) (hw : s.workers[i]? = some (Worker.publish n r))
    (h : Close s = Outcome.done s1) :
    step s1 (Label.publish i) = Outcome.panic "send on closed channel" := by
  obtain ⟨pc, rc, _, _, _, _, rfl⟩ := Close_result s s1 h
  exact step_publish_closed _ i n r { rc with closed := true } hw rfl rfl

theorem idle_worker_exits_after_Close (s s1 : Sys) (i : Nat)
    (hw : s.workers[i]? = some Worker.recv) (h : Close s = Outcome.done s1) :
    ∃ s2, step s1 (Label.exit i) = Outcome.done s2 ∧ s2.workers[i]? = some Worker.exited := by
  obtain ⟨pc, rc, _, _, _, _, rfl⟩ := Close_result s s1 h
  refine ⟨{ s with
      q := { s.q with
        pushChannel := some { pc with closed := true }
        responseChannel := some { rc with closed := true }
        Closed := true }
      workers := s.workers.set i Worker.exited }, ?_, ?_⟩
  · simp [step, workerStep, hw]
  · exact getElem?_set_self_of_some _ _ _ _ hw

theorem waitRun_append (a : List WaitLabel) :
    ∀ (s : WaitState) (b : List WaitLabel),
      waitRun s (a ++ b) =
        match waitRun s a with
        | none => none
        | some s1 => waitRun s1 b := by
  induction a with
  | nil => intro s b; rfl
  | cons l ls ih =>
    intro s b
    simp only [List.cons_append, waitRun]
    cases waitStep s l with
    | none => rfl
    | some s1 => exact ih s1 b

theorem waitStep_inv (s s1 : WaitState) (l : WaitLabel) (h : waitStep s l = some s1)
    (hinv : (s.closed = true → s.counter = 0) ∧ (s.result = some false → s.closed = true) ∧
      (s.result = some true → s.timeout ≤ (s.elapsed : Int)) ∧ True) :
    (s1.closed = true → s1.counter = 0) ∧ (s1.result = some false → s1.closed = true) ∧
      (s1.result = some true → s1.timeout ≤ (s1.elapsed : Int)) ∧ s1.timeout = s.timeout := by
  obtain ⟨h1, h2, h3, _⟩ := hinv
  cases l with
  | tick ns =>
    simp only [waitStep, Option.some.injEq] at h
    subst h
    refine ⟨h1, h2, ?_, rfl⟩
    intro hr
    have := h3 hr
    simp only [Nat.cast_add]
    omega
  | counterDone =>
    simp only [waitStep] at h
    split at h
    · rename_i hpos
      simp only [Option.some.injEq] at h
      subst h
      refine ⟨?_, h2, h3, rfl⟩
      intro hc
      have := h1 hc
      omega
    · cases h
  | wake =>
    simp only [waitStep] at h
    split at h
    · rename_i hz
      simp only [Option.some.injEq] at h
      subst h
      exact ⟨fun _ => hz.1, fun _ => rfl, h3, rfl⟩
    · cases h
  | selectClosed =>
    simp only [waitStep] at h
    split at h
    · rename_i hz
      simp only [Option.some.injEq] at h
      subst h
      refine ⟨h1, fun _ => hz.2, ?_, rfl⟩
      intro hr
      cases hr
    · cases h
  | selectTimer =>
    simp only [waitStep] at h
    split at h
    · rename_i hz
      simp only [Option.some.injEq] at h
      subst h
      refine ⟨h1, ?_, fun _ => hz.2, rfl⟩
      intro hr
      cases hr
    · cases h

theorem waitRun_inv (sched : List WaitLabel) :
    ∀ (s s1 : WaitState), waitRun s sched = some s1 →
      (s.closed = true → s.counter = 0) ∧ (s.result = some false → s.closed = true) ∧
        (s.result = some true → s.timeout ≤ (s.elapsed : Int)) ∧ True →
      (s1.closed = true → s1.counter = 0) ∧ (s1.result = some false → s1.closed = true) ∧
        (s1.result = some true → s1.timeout ≤ (s1.elapsed : Int)) ∧ s1.timeout = s.timeout := by
  induction sched with
  | nil =>
    intro s s1 h hinv
    simp only [waitRun, Option.some.injEq] at h
    subst h
    exact ⟨hinv.1, hinv.2.1, hinv.2.2.1, rfl⟩
  | cons l ls ih =>
    intro s s1 h hinv
    simp only [waitRun] at h
    cases hs : waitStep s l with
    | none => rw [hs] at h; cases h
    | some s2 =>
      rw [hs] at h
      have h2 := waitStep_inv s s2 l hs hinv
      have h3 := ih s2 s1 h ⟨h2.1, h2.2.1, h2.2.2.1, trivial⟩
      exact ⟨h3.1, h3.2.1, h3.2.2.1, h3.2.2.2.trans h2.2.2.2⟩

theorem waitRun_init_inv (wg : WaitGroup) (timeout : Int) (sched : List WaitLabel)
    (s : WaitState) (h : waitRun (WaitState.init wg timeout) sched = some s) :
    (s.closed = true → s.counter = 0) ∧ (s.result = some false → s.closed = true) ∧
      (s.result = some true → timeout ≤ (s.elapsed : Int)) ∧ s.timeout = timeout := by
  have := waitRun_inv sched _ s h
    ⟨fun hc => (by cases hc), fun hr => (by cases hr), fun hr => (by cases hr), trivial⟩
  have ht : s.timeout = timeout := this.2.2.2
  refine ⟨this.1, this.2.1, ?_, ht⟩
  intro hr
  rw [← ht]
  exact this.2.2.1 hr

theorem WaitTimeout_eq_some (wg : WaitGroup) (timeout : Int) (sched : List WaitLabel)
    (b : Bool) (h : WaitTimeout wg timeout sched = some b) :
    ∃ s, waitRun (WaitState.init wg timeout) sched = some s ∧ s.result = some b := by
  unfold WaitTimeout at h
  cases hr : waitRun (WaitState.init wg timeout) sched with
  | none => rw [hr] at h; cases h
  | some s =>
    rw [hr] at h
    exact ⟨s, rfl, h⟩

theorem WaitTimeout_snoc (wg : WaitGroup) (timeout : Int) (sched : List WaitLabel)
    (s s1 : WaitState) (l : WaitLabel)
    (h : waitRun (WaitState.init wg timeout) sched = some s) (hs : waitStep s l = some s1) :
    WaitTimeout wg timeout (sched ++ [l]) = s1.result := by
  unfold WaitTimeout
  rw [waitRun_append, h]
  simp [waitRun, hs]

/-- C8 (as amended): for every wait group `wg`, timeout `d` and schedule,
`WaitTimeout(wg, d)` returns false only when the counter has reached zero and the
goroutine that waited on it has closed `c`, and true only when `d` has elapsed; a
call whose counter stays non-zero does not return false. While the `select` has
not run: if `d` has elapsed and the counter is still non-zero, the timer is the
only case that can run and `WaitTimeout` returns true; if the counter has reached
zero and `c` is closed and `d` has not elapsed, `c` is the only case that can run
and `WaitTimeout` returns false; and in every such state the call returns once
`d` has elapsed at the latest, the timer's case being then able to run. -/
theorem C8_waitTimeout_result (wg : WaitGroup) (timeout : Int) (sched : List WaitLabel) :
    (WaitTimeout wg timeout sched = some false →
      ∃ s, waitRun (WaitState.init wg timeout) sched = some s ∧
        s.closed = true ∧ s.counter = 0) ∧
    (WaitTimeout wg timeout sched = some true →
      ∃ s, waitRun (WaitState.init wg timeout) sched = some s ∧
        timeout ≤ (s.elapsed : Int)) ∧
    (∀ s, waitRun (WaitState.init wg timeout) sched = some s → s.counter ≠ 0 →
      WaitTimeout wg timeout sched ≠ some false) ∧
    (∀ s, waitRun (WaitState.init wg timeout) sched = some s → s.result = none →
      s.counter ≠ 0 → timeout ≤ (s.elapsed : Int) →
      waitStep s WaitLabel.selectClosed = none ∧
      WaitTimeout wg timeout (sched ++ [WaitLabel.selectTimer]) = some true) ∧
    (∀ s, waitRun (WaitState.init wg timeout) sched = some s → s.result = none →
      s.closed = true → (s.elapsed : Int) < timeout →
      s.counter = 0 ∧ waitStep s WaitLabel.selectTimer = none ∧
      WaitTimeout wg timeout (sched ++ [WaitLabel.selectClosed]) = some false) ∧
    (∀ s, waitRun (WaitState.init wg timeout) sched = some s → s.result = none →
      WaitTimeout wg timeout
        (sched ++ [WaitLabel.tick (timeout - (s.elapsed : Int)).toNat, WaitLabel.selectTimer]) =
        some true) := by
  refine ⟨?_, ?_, ?_, ?_, ?_, ?_⟩
  · intro h
    obtain ⟨s, hs, hr⟩ := WaitTimeout_eq_some wg timeout sched false h
    have hinv := waitRun_init_inv wg timeout sched s hs
    exact ⟨s, hs, hinv.2.1 hr, hinv.1 (hinv.2.1 hr)⟩
  · intro h
    obtain ⟨s, hs, hr⟩ := WaitTimeout_eq_some wg timeout sched true h
    have hinv := waitRun_init_inv wg timeout sched s hs
    exact ⟨s, hs, hinv.2.2.1 hr⟩
  · intro s hs hc h
    obtain ⟨s1, hs1, hr⟩ := WaitTimeout_eq_some wg timeout sched false h
    rw [hs] at hs1
    cases hs1
    have hinv := waitRun_init_inv wg timeout sched s hs
    exact hc (hinv.1 (hinv.2.1 hr))
  · intro s hs hr hc ht
    have hinv := waitRun_init_inv wg timeout sched s hs
    have hclosed : s.closed = false := by
      cases hcl : s.closed with
      | false => rfl
      | true => exact absurd (hinv.1 hcl) hc
    refine ⟨by simp [waitStep, hclosed], ?_⟩
    rw [WaitTimeout_snoc wg timeout sched s { s with result := some true }
      WaitLabel.selectTimer hs (by simp [waitStep, hr, hinv.2.2.2, ht])]
  · intro s hs hr hcl ht
    have hinv := waitRun_init_inv wg timeout sched s hs
    refine ⟨hinv.1 hcl, ?_, ?_⟩
    · have : ¬ s.timeout ≤ (s.elapsed : Int) := by rw [hinv.2.2.2]; omega
      simp [waitStep, this]
    · rw [WaitTimeout_snoc wg timeout sched s { s with result := some false }
        WaitLabel.selectClosed hs (by simp [waitStep, hr, hcl])]
  · intro s hs hr
    have hinv := waitRun_init_inv wg timeout sched s hs
    have hle : s.timeout ≤ ((s.elapsed + (timeout - (s.elapsed : Int)).toNat : Nat) : Int) := by
      rw [hinv.2.2.2]
      simp only [Nat.cast_add]
      omega
    have hsplit : sched ++ [WaitLabel.tick (timeout - (s.elapsed : Int)).toNat,
        WaitLabel.selectTimer] =
        (sched ++ [WaitLabel.tick (timeout - (s.elapsed : Int)).toNat]) ++
          [WaitLabel.selectTimer] := by simp
    have hrun : waitRun (WaitState.init wg timeout)
        (sched ++ [WaitLabel.tick (timeout - (s.elapsed : Int)).toNat]) =
        some { s with elapsed := s.elapsed + (timeout - (s.elapsed : Int)).toNat } := by
      rw [waitRun_append, hs]
      rfl
    have hstep : waitStep { s with elapsed := s.elapsed + (timeout - (s.elapsed : Int)).toNat }
        WaitLabel.selectTimer =
        some { s with elapsed := s.elapsed + (timeout - (s.elapsed : Int)).toNat,
                      result := some true } := by
      unfold waitStep
      exact if_pos ⟨hr, hle⟩
    rw [hsplit, WaitTimeout_snoc wg timeout _ _ _ WaitLabel.selectTimer hrun hstep]

/-- Witness of C8: a counter of one that is released, after which the goroutine
closes `c` and the `select` runs, one second being allowed: false. -/
theorem C8_waitTimeout_result_witness :
    WaitTimeout { counter := 1 } 1000000000
      ([WaitLabel.counterDone, WaitLabel.wake] ++ [WaitLabel.selectClosed]) = some false := by
  exact ((C8_waitTimeout_result { counter := 1 } 1000000000
    [WaitLabel.counterDone, WaitLabel.wake]).2.2.2.2.1
      { counter := 0, timeout := 1000000000, elapsed := 0, closed := true, result := none }
      rfl rfl rfl (by decide)).2.2

/-- Counterexample to C8 as stated: the counter is zero at the call and the
timeout is zero. The timer's channel delivers at once, the goroutine has not yet
closed `c`, the `select` takes the timer's case and `WaitTimeout` returns true,
where the claim has it return false. The same happens with a negative timeout.
When the goroutine closes `c` before the `select` runs, both cases can run, and
false is returned if the `select` takes the case of `c`. -/
theorem C8_counterexample :
    (WaitState.init { counter := 0 } 0).counter = 0 ∧
    WaitTimeout { counter := 0 } 0 [WaitLabel.selectTimer] = some true ∧
    WaitTimeout { counter := 0 } (-1) [WaitLabel.selectTimer] = some true ∧
    WaitTimeout { counter := 0 } 0 [WaitLabel.wake, WaitLabel.selectTimer] = some true ∧
    WaitTimeout { counter := 0 } 0 [WaitLabel.wake, WaitLabel.selectClosed] = some false := by
  exact ⟨rfl, rfl, rfl, rfl, rfl⟩

theorem durationOfSeconds_exact (g : Int) (hlo : -9223372036 ≤ g) (hhi : g ≤ 9223372036) :
    durationOfSeconds g = g * Second := by
  unfold durationOfSeconds wrapInt64 Second
  omega

theorem WaitTimeout_by_timer (wg : WaitGroup) (timeout : Int) :
    WaitTimeout wg timeout [WaitLabel.tick timeout.toNat, WaitLabel.selectTimer] = some true := by
  have hle : timeout ≤ ((0 + timeout.toNat : Nat) : Int) := by
    simp only [Nat.zero_add]
    omega
  have hstep : waitStep { WaitState.init wg timeout with elapsed := 0 + timeout.toNat }
      WaitLabel.selectTimer =
      some { WaitState.init wg timeout with elapsed := 0 + timeout.toNat,
                                            result := some true } := by
    unfold waitStep
    exact if_pos ⟨rfl, hle⟩
  exact WaitTimeout_snoc wg timeout [WaitLabel.tick timeout.toNat]
    { WaitState.init wg timeout with elapsed := 0 + timeout.toNat } _
    WaitLabel.selectTimer rfl hstep

theorem gracefulShutdown_nil {Q : Type} (l : Listener Q) (timeout : Int)
    (sched : List WaitLabel) :
    l.gracefulShutdown none timeout sched = Outcome.done l := rfl

theorem gracefulShutdown_some {Q : Type} (l : Listener Q) (wg : WaitGroup) (timeout : Int)
    (sched : List WaitLabel) (e : Bool) (hw : WaitTimeout wg timeout sched = some e) :
    l.gracefulShutdown (some wg) timeout sched = Outcome.done
      { l with events := l.events ++
          [ListenerEvent.log "info" "listener is waiting to exit...",
           ListenerEvent.waitTimeout wg timeout] ++
          (if e = true then
            [ListenerEvent.print "timeout",
             ListenerEvent.log "warning" "exited listener because of graceful shutdown timeout"]
           else
            [ListenerEvent.print "gracefully",
             ListenerEvent.log "info" "exited listener gracefully"]) } := by
  cases e <;> simp [Listener.gracefulShutdown, hw]

theorem gracefulShutdown_blocked {Q : Type} (l : Listener Q) (wg : WaitGroup) (timeout : Int)
    (sched : List WaitLabel) (hw : WaitTimeout wg timeout sched = none) :
    l.gracefulShutdown (some wg) timeout sched = Outcome.blocked := by
  simp [Listener.gracefulShutdown, hw]

theorem gracefulShutdown_fields {Q : Type} (l l1 : Listener Q) (wg : Option WaitGroup)
    (timeout : Int) (sched : List WaitLabel)
    (h : l.gracefulShutdown wg timeout sched = Outcome.done l1) :
    l1.Queue = l.Queue ∧ l1.stopChannel = l.stopChannel ∧ l1.run = l.run ∧
    l1.GracefulShutdownTimeout = l.GracefulShutdownTimeout := by
  cases wg with
  | none =>
    rw [gracefulShutdown_nil] at h
    cases h
    exact ⟨rfl, rfl, rfl, rfl⟩
  | some wg =>
    cases hw : WaitTimeout wg timeout sched with
    | none =>
      rw [gracefulShutdown_blocked l wg timeout sched hw] at h
      cases h
    | some e =>
      rw [gracefulShutdown_some l wg timeout sched e hw] at h
      cases h
      exact ⟨rfl, rfl, rfl, rfl⟩

theorem gracefulShutdown_no_panic {Q : Type} (l : Listener Q) (wg : Option WaitGroup)
    (timeout : Int) (sched : List WaitLabel) (msg : String) :
    l.gracefulShutdown wg timeout sched ≠ Outcome.panic msg := by
  intro h
  cases wg with
  | none =>
    rw [gracefulShutdown_nil] at h
    cases h
  | some wg =>
    cases hw : WaitTimeout wg timeout sched with
    | none =>
      rw [gracefulShutdown_blocked l wg timeout sched hw] at h
      cases h
    | some e =>
      rw [gracefulShutdown_some l wg timeout sched e hw] at h
      cases h

theorem Stop_eq {Q : Type} (queue : Queue Q) (sched : List WaitLabel) (l : Listener Q)
    (stop1 : Option (Chan Unit)) (q1 : Q)
    (hc : queue.Cleanup l.stopChannel l.Queue = Outcome.done (stop1, q1)) :
    Listener.Stop queue sched l =
      Listener.gracefulShutdown
        { l with run := false, Queue := q1, stopChannel := stop1,
                 events := l.events ++ [ListenerEvent.cleanup] }
        (queue.PendingMessagesWaitGroup q1)
        (durationOfSeconds l.GracefulShutdownTimeout) sched := by
  simp only [Listener.Stop, hc, Outcome.bind]

theorem Stop_returns_by_timer {Q : Type} (queue : Queue Q) (l : Listener Q)
    (stop1 : Option (Chan Unit)) (q1 : Q)
    (hc : queue.Cleanup l.stopChannel l.Queue = Outcome.done (stop1, q1)) :
    ∃ l1, Listener.Stop queue
      [WaitLabel.tick (durationOfSeconds l.GracefulShutdownTimeout).toNat,
       WaitLabel.selectTimer] l = Outcome.done l1 := by
  rw [Stop_eq queue _ l stop1 q1 hc]
  cases hwg : queue.PendingMessagesWaitGroup q1 with
  | none => exact ⟨_, gracefulShutdown_nil _ _ _⟩
  | some wg =>
    exact ⟨_, gracefulShutdown_some _ wg _ _ true (WaitTimeout_by_timer wg _)⟩

/-- C9 (as amended): when the queue's `Cleanup` returns, `Stop` sets `run` to
false, calls `Cleanup` once, on the state the queue was in, before anything else,
and leaves the queue as `Cleanup` left it. If the queue's counter handle is nil it
does nothing more: no wait, no message. Otherwise it calls `WaitTimeout` once,
with that counter and the bound
`time.Duration(GracefulShutdownTimeout) * time.Second` computed in `int64`
nanoseconds, which is `GracefulShutdownTimeout` seconds when
`-9223372036 ≤ GracefulShutdownTimeout ≤ 9223372036` and wraps around otherwise;
it is blocked while `WaitTimeout` has not returned, then takes the
timeout-warning branch if `WaitTimeout` returned true and the graceful-success
branch if it returned false. The wait can always end, by the timer, and `Stop`
then returns. -/
theorem C9_stop_cleanup_then_bounded_wait {Q : Type} (queue : Queue Q)
    (sched : List WaitLabel) (l : Listener Q) (stop1 : Option (Chan Unit)) (q1 : Q)
    (hc : queue.Cleanup l.stopChannel l.Queue = Outcome.done (stop1, q1)) :
    (queue.PendingMessagesWaitGroup q1 = none →
      ∃ l1, Listener.Stop queue sched l = Outcome.done l1 ∧
        l1.run = false ∧ l1.Queue = q1 ∧ l1.stopChannel = stop1 ∧
        l1.GracefulShutdownTimeout = l.GracefulShutdownTimeout ∧
        l1.events = l.events ++ [ListenerEvent.cleanup]) ∧
    (∀ wg, queue.PendingMessagesWaitGroup q1 = some wg →
      (WaitTimeout wg (durationOfSeconds l.GracefulShutdownTimeout) sched = none →
        Listener.Stop queue sched l = Outcome.blocked) ∧
      (∀ e, WaitTimeout wg (durationOfSeconds l.GracefulShutdownTimeout) sched = some e →
        ∃ l1, Listener.Stop queue sched l = Outcome.done l1 ∧
          l1.run = false ∧ l1.Queue = q1 ∧ l1.stopChannel = stop1 ∧
          l1.GracefulShutdownTimeout = l.GracefulShutdownTimeout ∧
          l1.events = l.events ++
            [ListenerEvent.cleanup,
             ListenerEvent.log "info" "listener is waiting to exit...",
             ListenerEvent.waitTimeout wg (durationOfSeconds l.GracefulShutdownTimeout)] ++
            (if e = true then
              [ListenerEvent.print "timeout",
               ListenerEvent.log "warning"
                 "exited listener because of graceful shutdown timeout"]
             else
              [ListenerEvent.print "gracefully",
               ListenerEvent.log "info" "exited listener gracefully"])) ∧
      WaitTimeout wg (durationOfSeconds l.GracefulShutdownTimeout)
        [WaitLabel.tick (durationOfSeconds l.GracefulShutdownTimeout).toNat,
         WaitLabel.selectTimer] = some true) ∧
    (∃ l1, Listener.Stop queue
      [WaitLabel.tick (durationOfSeconds l.GracefulShutdownTimeout).toNat,
       WaitLabel.selectTimer] l = Outcome.done l1) ∧
    (-9223372036 ≤ l.GracefulShutdownTimeout ∧ l.GracefulShutdownTimeout ≤ 9223372036 →
      durationOfSeconds l.GracefulShutdownTimeout = l.GracefulShutdownTimeout * Second) := by
  refine ⟨?_, ?_, Stop_returns_by_timer queue l stop1 q1 hc, ?_⟩
  · intro hnil
    refine ⟨{ l with run := false, Queue := q1, stopChannel := stop1,
                     events := l.events ++ [ListenerEvent.cleanup] }, ?_, rfl, rfl, rfl, rfl, rfl⟩
    rw [Stop_eq queue sched l stop1 q1 hc, hnil, gracefulShutdown_nil]
  · intro wg hwg
    refine ⟨?_, ?_, WaitTimeout_by_timer wg _⟩
    · intro hw
      rw [Stop_eq queue sched l stop1 q1 hc, hwg, gracefulShutdown_blocked _ wg _ sched hw]
    · intro e hw
      rw [Stop_eq queue sched l stop1 q1 hc, hwg, gracefulShutdown_some _ wg _ sched e hw]
      refine ⟨_, rfl, rfl, rfl, rfl, rfl, ?_⟩
      simp
  · intro h
    exact durationOfSeconds_exact _ h.1 h.2

/-- Witness of C9: the demonstration listener, whose counter is zero; the
goroutine closes `c` and the `select` runs before the second has passed. -/
theorem C9_stop_cleanup_then_bounded_wait_witness :
    ∃ l1, Listener.Stop kafkaQueue [WaitLabel.wake, WaitLabel.selectClosed] demoListener =
        Outcome.done l1 ∧
      l1.run = false ∧
      l1.events =
        [ListenerEvent.cleanup,
         ListenerEvent.log "info" "listener is waiting to exit...",
         ListenerEvent.waitTimeout { counter := 0 } 1000000000,
         ListenerEvent.print "gracefully",
         ListenerEvent.log "info" "exited listener gracefully"] := by
  obtain ⟨l1, h1, h2, _, _, _, h3⟩ :=
    ((C9_stop_cleanup_then_bounded_wait kafkaQueue [WaitLabel.wake, WaitLabel.selectClosed]
      demoListener (some { buf := [], cap := 0, closed := true })
      { msgChan := some { buf := [], cap := 0, closed := true },
        pendingMessagesWG := some { counter := 0 }, committed := true } rfl).2.1
      { counter := 0 } rfl).2.1 false rfl
  exact ⟨l1, h1, h2, h3⟩

/-- Counterexample to C9 as stated: with `GracefulShutdownTimeout = -9223372037` the
product `time.Duration(GracefulShutdownTimeout) * time.Second` wraps around, and
the bound `Stop` passes to `WaitTimeout` is 9223372036709551616 nanoseconds, some
292 years: it is not `GracefulShutdownTimeout` times one second, and it is more
than `GracefulShutdownTimeout` seconds. -/
theorem C9_counterexample :
    durationOfSeconds (-9223372037) = 9223372036709551616 ∧
    durationOfSeconds (-9223372037) ≠ -9223372037 * Second ∧
    ¬ durationOfSeconds (-9223372037) ≤ -9223372037 * Second ∧
    ∃ l1, Listener.Stop kafkaQueue [WaitLabel.wake, WaitLabel.selectClosed]
        { demoListener with GracefulShutdownTimeout := -9223372037 } = Outcome.done l1 ∧
      l1.events =
        [ListenerEvent.cleanup,
         ListenerEvent.log "info" "listener is waiting to exit...",
         ListenerEvent.waitTimeout { counter := 0 } 9223372036709551616,
         ListenerEvent.print "gracefully",
         ListenerEvent.log "info" "exited listener gracefully"] := by
  refine ⟨by decide, by decide, by decide, _, rfl, rfl⟩

theorem closeOnce_closeOnce {α : Type} (c : Option (Chan α)) :
    closeOnce (closeOnce c) = closeOnce c := by
  cases c <;> rfl

theorem closeOnce_closed {α : Type} (c : Option (Chan α)) (ch : Chan α)
    (h : closeOnce c = some ch) : ch.closed = true := by
  cases c with
  | none => cases h
  | some c0 =>
    cases h
    rfl

theorem Stop_no_panic {Q : Type} (queue : Queue Q) (sched : List WaitLabel) (l : Listener Q)
    (stop1 : Option (Chan Unit)) (q1 : Q)
    (hc : queue.Cleanup l.stopChannel l.Queue = Outcome.done (stop1, q1)) (msg : String) :
    Listener.Stop queue sched l ≠ Outcome.panic msg := by
  rw [Stop_eq queue sched l stop1 q1 hc]
  exact gracefulShutdown_no_panic _ _ _ _ msg

theorem Stop_fields {Q : Type} (queue : Queue Q) (sched : List WaitLabel) (l l1 : Listener Q)
    (stop1 : Option (Chan Unit)) (q1 : Q)
    (hc : queue.Cleanup l.stopChannel l.Queue = Outcome.done (stop1, q1))
    (h : Listener.Stop queue sched l = Outcome.done l1) :
    l1.run = false ∧ l1.Queue = q1 ∧ l1.stopChannel = stop1 ∧
    l1.GracefulShutdownTimeout = l.GracefulShutdownTimeout := by
  rw [Stop_eq queue sched l stop1 q1 hc] at h
  obtain ⟨hq, hs, hr, hg⟩ := gracefulShutdown_fields _ l1 _ _ sched h
  exact ⟨hr, hq, hs, hg⟩

theorem kafka_Cleanup_eq (stop : Option (Chan Unit)) (q : KafkaConsumer) :
    kafkaQueue.Cleanup stop q =
      Outcome.done (closeOnce stop,
        { q with msgChan := closeOnce q.msgChan, committed := true }) := rfl

theorem kafka_Cleanup_again (stop : Option (Chan Unit)) (q : KafkaConsumer) :
    kafkaQueue.Cleanup (closeOnce stop)
        { q with msgChan := closeOnce q.msgChan, committed := true } =
      Outcome.done (closeOnce stop,
        { q with msgChan := closeOnce q.msgChan, committed := true }) := by
  rw [kafka_Cleanup_eq]
  simp only [closeOnce_closeOnce]

theorem resumeStart_stopChannel_closed {Q : Type} (queue : Queue Q) (sched : List WaitLabel)
    (l : Listener Q) (ch : Chan Unit) (hs : l.stopChannel = some ch) (hcl : ch.closed = true) :
    Listener.resumeStart queue StartCase.stopChannel sched l =
      Listener.Stop queue sched { l with
        run := false
        events := l.events ++
          [ListenerEvent.print "STOPPING CHANNEL",
           ListenerEvent.log "warning" "Stop channel closed\n"] } := by
  simp only [Listener.resumeStart, hs, hcl, if_true]

/-- C10: with the consumer's `Cleanup` as the specification describes it, `Stop` is
idempotent. For every listener state on which a first `Stop` has returned, the
`Cleanup` of a second `Stop` finds the message channel and the stop signal closed
and the positions committed, and changes nothing; the second `Stop` does not
panic, and when it returns the listener's `run`, queue, `stopChannel` and
`GracefulShutdownTimeout` are what the first call left. The second call can
always return, by the timer of its wait. The same holds when the second call is the one `Start`
makes: after the first `Stop` a non-nil stop channel is closed, the `select` of
`Start` takes its case, and the `Stop` it calls does not panic and leaves the
same fields. -/
theorem C10_stop_idempotent (l l1 : Listener KafkaConsumer) (sched1 sched2 : List WaitLabel)
    (h1 : Listener.Stop kafkaQueue sched1 l = Outcome.done l1) :
    kafkaQueue.Cleanup l1.stopChannel l1.Queue = Outcome.done (l1.stopChannel, l1.Queue) ∧
    (∀ msg, Listener.Stop kafkaQueue sched2 l1 ≠ Outcome.panic msg) ∧
    (∀ l2, Listener.Stop kafkaQueue sched2 l1 = Outcome.done l2 →
      l2.run = l1.run ∧ l2.Queue = l1.Queue ∧ l2.stopChannel = l1.stopChannel ∧
      l2.GracefulShutdownTimeout = l1.GracefulShutdownTimeout) ∧
    (∃ l2, Listener.Stop kafkaQueue
      [WaitLabel.tick (durationOfSeconds l1.GracefulShutdownTimeout).toNat,
       WaitLabel.selectTimer] l1 = Outcome.done l2) ∧
    (∀ ch, l1.stopChannel = some ch →
      ch.closed = true ∧
      (∀ msg, Listener.resumeStart kafkaQueue StartCase.stopChannel sched2 l1 ≠
        Outcome.panic msg) ∧
      (∀ l2, Listener.resumeStart kafkaQueue StartCase.stopChannel sched2 l1 =
          Outcome.done l2 →
        l2.run = l1.run ∧ l2.Queue = l1.Queue ∧ l2.stopChannel = l1.stopChannel ∧
        l2.GracefulShutdownTimeout = l1.GracefulShutdownTimeout) ∧
      (∃ l2, Listener.resumeStart kafkaQueue StartCase.stopChannel
        [WaitLabel.tick (durationOfSeconds l1.GracefulShutdownTimeout).toNat,
         WaitLabel.selectTimer] l1 = Outcome.done l2)) := by
  obtain ⟨hr, hq, hs, _⟩ :=
    Stop_fields kafkaQueue sched1 l l1 _ _ (kafka_Cleanup_eq l.stopChannel l.Queue) h1
  have hc : kafkaQueue.Cleanup l1.stopChannel l1.Queue =
      Outcome.done (l1.stopChannel, l1.Queue) := by
    rw [hq, hs]
    exact kafka_Cleanup_again l.stopChannel l.Queue
  refine ⟨hc, ?_, ?_, ?_, ?_⟩
  · intro msg
    exact Stop_no_panic kafkaQueue sched2 l1 _ _ hc msg
  · intro l2 h2
    obtain ⟨hr2, hq2, hs2, hg2⟩ := Stop_fields kafkaQueue sched2 l1 l2 _ _ hc h2
    exact ⟨hr2.trans hr.symm, hq2, hs2, hg2⟩
  · exact Stop_returns_by_timer kafkaQueue l1 _ _ hc
  · intro ch hch
    have hcl : ch.closed = true := closeOnce_closed l.stopChannel ch (hs ▸ hch)
    refine ⟨hcl, ?_, ?_, ?_⟩
    · intro msg
      rw [resumeStart_stopChannel_closed kafkaQueue sched2 l1 ch hch hcl]
      exact Stop_no_panic kafkaQueue sched2 { l1 with
        run := false
        events := l1.events ++
          [ListenerEvent.print "STOPPING CHANNEL",
           ListenerEvent.log "warning" "Stop channel closed\n"] } l1.stopChannel l1.Queue hc msg
    · intro l2 h2
      rw [resumeStart_stopChannel_closed kafkaQueue sched2 l1 ch hch hcl] at h2
      obtain ⟨hr2, hq2, hs2, hg2⟩ :=
        Stop_fields kafkaQueue sched2 { l1 with
        run := false
        events := l1.events ++
          [ListenerEvent.print "STOPPING CHANNEL",
           ListenerEvent.log "warning" "Stop channel closed\n"] } l2 l1.stopChannel l1.Queue hc h2
      exact ⟨hr2.trans hr.symm, hq2, hs2, hg2⟩
    · rw [resumeStart_stopChannel_closed kafkaQueue _ l1 ch hch hcl]
      exact Stop_returns_by_timer kafkaQueue { l1 with
        run := false
        events := l1.events ++
          [ListenerEvent.print "STOPPING CHANNEL",
           ListenerEvent.log "warning" "Stop channel closed\n"] } l1.stopChannel l1.Queue hc

/-- Witness of C10: the demonstration listener is stopped by a caller while
`Start` waits in its `select`; the `Stop` that `Start` then makes leaves the
queue and the stop channel as the first call left them. -/
theorem C10_stop_idempotent_witness :
    Listener.Stop kafkaQueue [WaitLabel.wake, WaitLabel.selectClosed] demoListener =
      Outcome.done
        { Queue := { msgChan := some { buf := [], cap := 0, closed := true },
                     pendingMessagesWG := some { counter := 0 }, committed := true }
          GracefulShutdownTimeout := 1
          run := false
          stopChannel := some { buf := [], cap := 0, closed := true }
          events :=
            [ListenerEvent.cleanup,
             ListenerEvent.log "info" "listener is waiting to exit...",
             ListenerEvent.waitTimeout { counter := 0 } 1000000000,
             ListenerEvent.print "gracefully",
             ListenerEvent.log "info" "exited listener gracefully"] } ∧
    ∃ l2, Listener.resumeStart kafkaQueue StartCase.stopChannel
        [WaitLabel.tick (durationOfSeconds 1).toNat, WaitLabel.selectTimer]
        { Queue := { msgChan := some { buf := [], cap := 0, closed := true },
                     pendingMessagesWG := some { counter := 0 }, committed := true }
          GracefulShutdownTimeout := 1
          run := false
          stopChannel := some { buf := [], cap := 0, closed := true }
          events :=
            [ListenerEvent.cleanup,
             ListenerEvent.log "info" "listener is waiting to exit...",
             ListenerEvent.waitTimeout { counter := 0 } 1000000000,
             ListenerEvent.print "gracefully",
             ListenerEvent.log "info" "exited listener gracefully"] } = Outcome.done l2 :=
  ⟨rfl,
   ((C10_stop_idempotent demoListener _ [WaitLabel.wake, WaitLabel.selectClosed] [] rfl).2.2.2.2
      { buf := [], cap := 0, closed := true } rfl).2.2.2⟩

theorem Errorf_queue (err : String) :
    Errorf "error creating new queue: %s" [err] = "error creating new queue: " ++ err := by
  apply String.ext
  simp [Errorf, Sprintf]

theorem Errorf_broker (err : String) :
    Errorf "error creating new broke: %s" [err] = "error creating new broke: " ++ err := by
  apply String.ext
  simp [Errorf, Sprintf]

theorem Errorf_handler (err : String) :
    Errorf "error creating new invalid token handler: %s" [err] =
      "error creating new invalid token handler: " ++ err := by
  apply String.ext
  simp [Errorf, Sprintf]

theorem initialConfig_ReadInConfig (os : Surroundings) (configFile : String) :
    ((((Viper.New.SetConfigFile configFile).SetEnvPrefix "pusher").SetEnvKeyReplacer
      '.' '_').AutomaticEnv).ReadInConfig os =
      match os.readConfigFile configFile with
      | Except.error err => Except.error err
      | Except.ok values => Except.ok
          { (((Viper.New.SetConfigFile configFile).SetEnvPrefix "pusher").SetEnvKeyReplacer
              '.' '_').AutomaticEnv with config := values } := by
  have hne : ("pusher" : String) ≠ "" := by decide
  have hfile : ((((Viper.New.SetConfigFile configFile).SetEnvPrefix "pusher").SetEnvKeyReplacer
      '.' '_').AutomaticEnv).configFile = configFile := by
    by_cases hcf : configFile = ""
    · subst hcf
      rfl
    · simp only [Viper.AutomaticEnv, Viper.SetEnvKeyReplacer, Viper.SetEnvPrefix,
        Viper.SetConfigFile, Viper.New, hne, hcf, ne_eq, not_false_eq_true, if_true]
  unfold Viper.ReadInConfig
  generalize (((Viper.New.SetConfigFile configFile).SetEnvPrefix "pusher").SetEnvKeyReplacer
    '.' '_').AutomaticEnv = config at hfile
  subst hfile
  rfl

theorem configure_read_error {Q B H : Type} (os : Surroundings) (comp : Components Q B H)
    (l : ListenerFields Q B H) (err : String)
    (hread : os.readConfigFile l.ConfigFile = Except.error err) :
    (configure os comp l).1 = some err ∧ (configure os comp l).2.2 = [] := by
  simp only [configure, initialConfig_ReadInConfig, hread, and_self]

theorem configure_read_ok {Q B H : Type} (os : Surroundings) (comp : Components Q B H)
    (l : ListenerFields Q B H) (values : List (String × ConfigValue))
    (hread : os.readConfigFile l.ConfigFile = Except.ok values) :
    configure os comp l =
      (let config := loadedConfig l.ConfigFile values
       let l1 : ListenerFields Q B H :=
         { l with
           Config := some config
           GracefulShutdownTimeout :=
             config.GetInt os "feedbackListeners.gracefulShutdownTimeout" }
       let ev1 := configureSentry os config ++ [ConfigureEvent.newKafkaConsumer]
       match comp.NewKafkaConsumer config with
       | Except.error err => (some (Errorf "error creating new queue: %s" [err]), l1, ev1)
       | Except.ok q =>
         let l2 : ListenerFields Q B H := { l1 with Queue := some q }
         let ev2 := ev1 ++
           [ConfigureEvent.newBroker (comp.MessagesChannel q) (comp.PendingMessagesWaitGroup q)]
         match comp.NewBroker config (comp.MessagesChannel q)
             (comp.PendingMessagesWaitGroup q) with
         | Except.error err => (some (Errorf "error creating new broke: %s" [err]), l2, ev2)
         | Except.ok broker =>
           let l3 : ListenerFields Q B H := { l2 with Broker := some broker }
           let ev3 := ev2 ++
             [ConfigureEvent.newInvalidTokenHandler (comp.InvalidTokenOutChan broker)]
           match comp.NewInvalidTokenHandler config (comp.InvalidTokenOutChan broker) with
           | Except.error err =>
             (some (Errorf "error creating new invalid token handler: %s" [err]), l3, ev3)
           | Except.ok handler =>
             (none, { l3 with InvalidTokenHandler := some handler }, ev3)) := by
  simp only [configure, initialConfig_ReadInConfig, hread, loadedConfig]

theorem configure_timeout {Q B H : Type} (os : Surroundings) (comp : Components Q B H)
    (l : ListenerFields Q B H) (values : List (String × ConfigValue))
    (hread : os.readConfigFile l.ConfigFile = Except.ok values) :
    (configure os comp l).2.1.GracefulShutdownTimeout =
      (loadedConfig l.ConfigFile values).GetInt os
        "feedbackListeners.gracefulShutdownTimeout" := by
  rw [configure_read_ok os comp l values hread]
  simp only
  cases comp.NewKafkaConsumer (loadedConfig l.ConfigFile values) with
  | error e => rfl
  | ok q =>
    simp only
    cases comp.NewBroker (loadedConfig l.ConfigFile values) (comp.MessagesChannel q)
        (comp.PendingMessagesWaitGroup q) with
    | error e => rfl
    | ok b =>
      simp only
      cases comp.NewInvalidTokenHandler (loadedConfig l.ConfigFile values)
          (comp.InvalidTokenOutChan b) with
      | error e => rfl
      | ok h => rfl

theorem loadedConfig_eq (configFile : String) (values : List (String × ConfigValue)) :
    loadedConfig configFile values =
      { configFile := configFile, envPrefix := "pusher", envKeyReplacer := some ('.', '_'),
        automaticEnvApplied := true, config := values,
        defaults := [("feedbacklisteners",
          ConfigValue.map [("gracefulshutdowntimeout", ConfigValue.int 1)])] } := by
  have hkey : splitKey (toLowerASCII "feedbackListeners.gracefulShutdownTimeout") =
      ["feedbacklisteners", "gracefulshutdowntimeout"] := by decide
  have hne : ("pusher" : String) ≠ "" := by decide
  by_cases hcf : configFile = ""
  · subst hcf
    simp only [loadedConfig, loadConfigurationDefaults, Viper.SetDefault, Viper.AutomaticEnv,
      Viper.SetEnvKeyReplacer, Viper.SetEnvPrefix, Viper.SetConfigFile, Viper.New, hkey, hne,
      ne_eq, not_true_eq_false, not_false_eq_true, if_true, if_false]
    rfl
  · simp only [loadedConfig, loadConfigurationDefaults, Viper.SetDefault, Viper.AutomaticEnv,
      Viper.SetEnvKeyReplacer, Viper.SetEnvPrefix, Viper.SetConfigFile, Viper.New, hkey, hne, hcf,
      ne_eq, not_true_eq_false, not_false_eq_true, if_true, if_false]
    rfl

theorem searchPrefixes_congr
    (f g : List (String × ConfigValue) → List String → Option ConfigValue)
    (source : List (String × ConfigValue)) (path : List String) (hpos : 0 < path.length)
    (h : ∀ src p, p.length < path.length → f src p = g src p) :
    ∀ i, searchPrefixes f source path i = searchPrefixes g source path i := by
  intro i
  induction i with
  | zero => rfl
  | succ i ih =>
    have hdrop : (path.drop (i + 1)).length < path.length := by
      rw [List.length_drop]
      omega
    unfold searchPrefixes
    simp only [ih]
    cases source.lookup (toLowerASCII (joinKey (path.take (i + 1)))) with
    | none => rfl
    | some next =>
      cases next with
      | map m => simp only [h m _ hdrop]
      | _ => rfl

theorem searchMapWithPathPrefixesAux_fuel (n : Nat) :
    ∀ (m : Nat) (source : List (String × ConfigValue)) (path : List String),
      path.length < n → path.length < m →
      searchMapWithPathPrefixesAux n source path =
        searchMapWithPathPrefixesAux m source path := by
  induction n with
  | zero => intro m source path hn; omega
  | succ n ih =>
    intro m source path hn hm
    cases m with
    | zero => omega
    | succ m =>
      unfold searchMapWithPathPrefixesAux
      by_cases hlen : path.length = 0
      · simp only [hlen, if_true]
      · simp only [hlen, if_false]
        exact searchPrefixes_congr _ _ source path (by omega)
          (fun src p hp => ih m src p (by omega) (by omega)) path.length

theorem searchMapWithPathPrefixes_fuel (fuel : Nat) (source : List (String × ConfigValue))
    (path : List String) (h : path.length < fuel) :
    searchMapWithPathPrefixesAux fuel source path = searchMapWithPathPrefixes source path :=
  searchMapWithPathPrefixesAux_fuel fuel (path.length + 1) source path h (by omega)

theorem getEnv_eq (os : Surroundings) (v : Viper) (name : String) :
    v.getEnv os name =
      (os.LookupEnv (match v.envKeyReplacer with
        | some (old, new) => ⟨name.data.map fun c => if c = old then new else c⟩
        | none => name)).getD "" := by
  unfold Viper.getEnv
  simp only
  cases os.LookupEnv _ <;> rfl

theorem searchMapWithPathPrefixes_two (values : List (String × ConfigValue)) :
    searchMapWithPathPrefixes values ["feedbacklisteners", "gracefulshutdowntimeout"] =
      match values.lookup "feedbacklisteners.gracefulshutdowntimeout" with
      | some next => nonNil next
      | none =>
        match values.lookup "feedbacklisteners" with
        | some (ConfigValue.map m) =>
          (match m.lookup "gracefulshutdowntimeout" with
           | some next => nonNil next
           | none => none)
        | _ => none := by
  have h2 : toLowerASCII (joinKey (List.take 2 ["feedbacklisteners", "gracefulshutdowntimeout"])) =
      "feedbacklisteners.gracefulshutdowntimeout" := by decide
  have h1 : toLowerASCII (joinKey (List.take 1 ["feedbacklisteners", "gracefulshutdowntimeout"])) =
      "feedbacklisteners" := by decide
  have h0 : toLowerASCII (joinKey (List.take 1 ["gracefulshutdowntimeout"])) =
      "gracefulshutdowntimeout" := by decide
  simp only [searchMapWithPathPrefixes, searchMapWithPathPrefixesAux, searchPrefixes,
    List.length_cons, List.length_nil, h2, h1, h0]
  cases hD : values.lookup "feedbacklisteners.gracefulshutdowntimeout" with
  | some next => simp
  | none =>
    simp only [Nat.reduceAdd, Nat.reduceEqDiff, if_false, Nat.succ_ne_zero]
    cases hP : values.lookup "feedbacklisteners" with
    | none => simp
    | some x =>
      cases x with
      | map m =>
        simp only [List.drop_succ_cons, List.drop_zero, h0, List.length_cons, List.length_nil]
        cases hm : m.lookup "gracefulshutdowntimeout" with
        | none => simp
        | some y => cases hy : nonNil y <;> simp [hy]
      | _ => simp

theorem isPathShadowedInDeepMap_two (values : List (String × ConfigValue)) :
    isPathShadowedInDeepMap ["feedbacklisteners", "gracefulshutdowntimeout"] values =
      match values.lookup "feedbacklisteners" with
      | none => ""
      | some ConfigValue.null => ""
      | some (ConfigValue.map _) => ""
      | some _ => "feedbacklisteners" := by
  have h1 : joinKey (List.take 1 ["feedbacklisteners", "gracefulshutdowntimeout"]) =
      "feedbacklisteners" := by decide
  simp only [isPathShadowedInDeepMap, List.length_cons, List.length_nil, Nat.reduceAdd,
    Nat.add_one_sub_one, shadowedInDeepMapFrom, h1, List.take_succ_cons, List.take_zero, searchMap]
  cases hP : values.lookup "feedbacklisteners" with
  | none => rfl
  | some x => cases x <;> rfl

theorem loadedConfig_Get (os : Surroundings) (configFile : String)
    (values : List (String × ConfigValue)) :
    (loadedConfig configFile values).Get os "feedbackListeners.gracefulShutdownTimeout" =
      if (os.LookupEnv "PUSHER_FEEDBACKLISTENERS_GRACEFULSHUTDOWNTIMEOUT").getD "" ≠ "" then
        some (ConfigValue.str
          ((os.LookupEnv "PUSHER_FEEDBACKLISTENERS_GRACEFULSHUTDOWNTIMEOUT").getD ""))
      else if (os.LookupEnv "PUSHER_FEEDBACKLISTENERS").getD "" ≠ "" then none
      else
        match searchMapWithPathPrefixes values
            ["feedbacklisteners", "gracefulshutdowntimeout"] with
        | some val => some val
        | none =>
          if isPathShadowedInDeepMap ["feedbacklisteners", "gracefulshutdowntimeout"] values ≠ ""
          then none
          else some (ConfigValue.int 1) := by
  have hkey : toLowerASCII "feedbackListeners.gracefulShutdownTimeout" =
      "feedbacklisteners.gracefulshutdowntimeout" := by decide
  have hpath : splitKey "feedbacklisteners.gracefulshutdowntimeout" =
      ["feedbacklisteners", "gracefulshutdowntimeout"] := by decide
  have henv : (⟨(toUpperASCII ("pusher" ++ "_" ++
      "feedbacklisteners.gracefulshutdowntimeout")).data.map
        fun c => if c = '.' then '_' else c⟩ : String) =
      "PUSHER_FEEDBACKLISTENERS_GRACEFULSHUTDOWNTIMEOUT" := by decide
  have hparent : (⟨(toUpperASCII ("pusher" ++ "_" ++ "feedbacklisteners")).data.map
        fun c => if c = '.' then '_' else c⟩ : String) =
      "PUSHER_FEEDBACKLISTENERS" := by decide
  have hne : ("pusher" : String) ≠ "" := by decide
  have hjoin : joinKey (List.take 1 ["feedbacklisteners", "gracefulshutdowntimeout"]) =
      "feedbacklisteners" := by decide
  have hpar : ("feedbacklisteners" : String) ≠ "" := by decide
  have hdef : searchMap [("feedbacklisteners",
      ConfigValue.map [("gracefulshutdowntimeout", ConfigValue.int 1)])]
      ["feedbacklisteners", "gracefulshutdowntimeout"] = some (ConfigValue.int 1) := by rfl
  have hnested : (decide (1 < 2) = true) = True := by decide
  rw [loadedConfig_eq]
  simp only [Viper.Get, Viper.find, hkey, hpath, getEnv_eq, Viper.mergeWithEnvPrefix, hne,
    ne_eq, not_false_eq_true, if_true, henv, Viper.isPathShadowedInAutoEnv,
    Viper.shadowedInAutoEnvFrom, List.length_cons, List.length_nil, Nat.reduceAdd,
    Nat.add_one_sub_one, hparent, hdef, hnested, true_and, hjoin]
  by_cases hE : (os.LookupEnv "PUSHER_FEEDBACKLISTENERS_GRACEFULSHUTDOWNTIMEOUT").getD "" = ""
  · by_cases hP : (os.LookupEnv "PUSHER_FEEDBACKLISTENERS").getD "" = ""
    · simp only [hE, hP, not_true_eq_false, if_false, if_true]
    · simp only [hE, hP, hpar, not_true_eq_false, not_false_eq_true, if_false, if_true]
  · simp only [hE, not_false_eq_true, if_true]

theorem digitValue_digitChar (k : Nat) (hk : k < 10) :
    strconv.digitValue (Nat.digitChar k) = some k := by
  interval_cases k <;> rfl

theorem digitChar_ne_underscore (k : Nat) (hk : k < 10) : Nat.digitChar k ≠ '_' := by
  interval_cases k <;> decide

theorem digitChar_ne_sign (k : Nat) (hk : k < 10) :
    Nat.digitChar k ≠ '+' ∧ Nat.digitChar k ≠ '-' := by
  interval_cases k <;> decide

theorem digitChar_ne_zero (k : Nat) (hk : k < 10) (h0 : 0 < k) : Nat.digitChar k ≠ '0' := by
  interval_cases k <;> decide

theorem decimalValue_ge (ds : List Nat) : ∀ a, a ≤ decimalValue a ds := by
  induction ds with
  | nil => intro a; exact Nat.le_refl a
  | cons d ds ih =>
    intro a
    have := ih (a * 10 + d)
    simp only [decimalValue]
    omega

theorem parseUintLoop_decimal (u : Bool) (ds : List Nat) :
    ∀ a, (∀ d ∈ ds, d < 10) → decimalValue a ds ≤ 2 ^ 64 - 1 →
      strconv.parseUintLoop 10 true ((2 ^ 64 - 1) / 10 + 1) (2 ^ 64 - 1)
        (ds.map Nat.digitChar) a u = some (decimalValue a ds, u) := by
  induction ds with
  | nil => intro a _ _; rfl
  | cons d ds ih =>
    intro a hds hle
    have hd : d < 10 := hds d (List.mem_cons_self _ _)
    have hrest : ∀ e ∈ ds, e < 10 := fun e he => hds e (List.mem_cons_of_mem _ he)
    have hge := decimalValue_ge ds (a * 10 + d)
    simp only [decimalValue] at hle
    have h1 : a * 10 + d ≤ 2 ^ 64 - 1 := Nat.le_trans hge hle
    have hcut : ¬ a ≥ (2 ^ 64 - 1) / 10 + 1 := by
      norm_num
      norm_num at h1
      omega
    have hmax : ¬ a * 10 + d > 2 ^ 64 - 1 := by omega
    have hnd : ¬ d ≥ 10 := by omega
    simp only [List.map_cons, strconv.parseUintLoop, digitChar_ne_underscore d hd, false_and,
      if_false, digitValue_digitChar d hd, hnd, hcut, hmax, decimalValue]
    exact ih (a * 10 + d) hrest hle

theorem decimalValue_append (xs ys : List Nat) :
    ∀ a, decimalValue a (xs ++ ys) = decimalValue (decimalValue a xs) ys := by
  induction xs with
  | nil => intro a; rfl
  | cons x xs ih => intro a; exact ih (a * 10 + x)

theorem toDigitsCore_decimal (fuel : Nat) :
    ∀ (n : Nat) (cs : List Char), n < fuel →
      ∃ d0 rest, (∀ d ∈ d0 :: rest, d < 10) ∧ (0 < n → 0 < d0) ∧
        decimalValue 0 (d0 :: rest) = n ∧
        Nat.toDigitsCore 10 fuel n cs = (d0 :: rest).map Nat.digitChar ++ cs := by
  induction fuel with
  | zero => intro n cs h; omega
  | succ fuel ih =>
    intro n cs hn
    have hmod : n % 10 < 10 := Nat.mod_lt _ (by decide)
    by_cases h0 : n / 10 = 0
    · refine ⟨n % 10, [], ?_, ?_, ?_, ?_⟩
      · intro d hd
        simp only [List.mem_singleton] at hd
        omega
      · intro hpos
        omega
      · simp only [decimalValue]
        omega
      · simp only [Nat.toDigitsCore, h0, if_true, List.map_cons, List.map_nil,
          List.singleton_append]
    · have hlt : n / 10 < fuel := by omega
      obtain ⟨d0, rest, hds, hpos, hval, heq⟩ := ih (n / 10) (Nat.digitChar (n % 10) :: cs) hlt
      refine ⟨d0, rest ++ [n % 10], ?_, ?_, ?_, ?_⟩
      · intro d hd
        rw [← List.cons_append, List.mem_append, List.mem_singleton] at hd
        rcases hd with hd | hd
        · exact hds d hd
        · omega
      · intro _
        exact hpos (by omega)
      · rw [← List.cons_append, decimalValue_append, hval]
        simp only [decimalValue]
        omega
      · simp only [Nat.toDigitsCore, h0, if_false, heq, List.map_cons, List.map_append,
          List.map_nil, List.cons_append, List.append_assoc, List.singleton_append,
          List.nil_append]

theorem ParseUint_decimal (n : Nat) (hn : n < 2 ^ 64) :
    strconv.ParseUint (Nat.toDigits 10 n) = some n := by
  by_cases h0 : n = 0
  · subst h0
    decide
  · obtain ⟨d0, rest, hds, hpos, hval, heq⟩ := toDigitsCore_decimal (n + 1) n [] (by omega)
    have hd0 : d0 < 10 := hds d0 (List.mem_cons_self _ _)
    have hne : Nat.digitChar d0 ≠ '0' := digitChar_ne_zero d0 hd0 (hpos (by omega))
    have hloop := parseUintLoop_decimal false (d0 :: rest) 0 hds (by rw [hval]; omega)
    rw [hval] at hloop
    unfold Nat.toDigits
    rw [heq, List.append_nil]
    rw [List.map_cons] at hloop ⊢
    generalize Nat.digitChar d0 = c0 at hne hloop ⊢
    generalize List.map Nat.digitChar rest = cs at hloop ⊢
    have hbase : (match c0 :: cs with
        | '0' :: c :: d :: rest =>
          if c.toLower = 'b' then ((2 : Nat), d :: rest)
          else if c.toLower = 'o' then (8, d :: rest)
          else if c.toLower = 'x' then (16, d :: rest)
          else (8, c :: d :: rest)
        | '0' :: rest => (8, rest)
        | _ => (10, c0 :: cs)) = (10, c0 :: cs) := by
      split
      · rename_i heq
        exact absurd (List.cons.inj heq).1 hne
      · rename_i heq
        exact absurd (List.cons.inj heq).1 hne
      · rfl
    simp only [strconv.ParseUint, hbase, hloop, Bool.false_eq_true, false_and, if_false]

theorem toDigits_head (n : Nat) :
    ∃ c cs, Nat.toDigits 10 n = c :: cs ∧ c ≠ '+' ∧ c ≠ '-' := by
  obtain ⟨d0, rest, hds, _, _, heq⟩ := toDigitsCore_decimal (n + 1) n [] (by omega)
  have hd0 : d0 < 10 := hds d0 (List.mem_cons_self _ _)
  refine ⟨Nat.digitChar d0, rest.map Nat.digitChar, ?_, digitChar_ne_sign d0 hd0⟩
  unfold Nat.toDigits
  rw [heq, List.append_nil, List.map_cons]

theorem ParseInt_ofNat (n : Nat) (hn : n < 2 ^ 63) :
    strconv.ParseInt (toString n) = some (n : Int) := by
  obtain ⟨c, cs, hcs, hplus, hminus⟩ := toDigits_head n
  have hu := ParseUint_decimal n (by omega)
  rw [hcs] at hu
  have hdata : (toString n).data = c :: cs := by
    show (Nat.repr n).data = c :: cs
    unfold Nat.repr
    rw [hcs]
    rfl
  have hge : ¬ n ≥ 2 ^ 63 := by omega
  simp only [strconv.ParseInt, hdata, hplus, hminus, or_self, if_false, hu, decide_False,
    Bool.false_eq_true, false_and, true_and, hge]

theorem ParseInt_negSucc (m : Nat) (hm : m + 1 ≤ 2 ^ 63) :
    strconv.ParseInt (toString (Int.negSucc m)) = some (Int.negSucc m) := by
  have hu := ParseUint_decimal (m + 1) (by omega)
  have hdata : (toString (Int.negSucc m)).data = '-' :: Nat.toDigits 10 (m + 1) := by
    show ("-" ++ Nat.repr (m + 1)).data = '-' :: Nat.toDigits 10 (m + 1)
    unfold Nat.repr
    rfl
  have hgt : ¬ m + 1 > 2 ^ 63 := by omega
  simp only [strconv.ParseInt, hdata, or_true, if_true, hu, decide_True, Bool.true_eq_false,
    false_and, true_and, hgt, if_false]
  rfl

theorem ParseInt_toString (v : Int) (hlo : -2 ^ 63 ≤ v) (hhi : v < 2 ^ 63) :
    strconv.ParseInt (toString v) = some v := by
  cases v with
  | ofNat n =>
    have hn : n < 2 ^ 63 := by
      have : (n : Int) < 2 ^ 63 := hhi
      exact_mod_cast this
    exact ParseInt_ofNat n hn
  | negSucc m =>
    have hm : m + 1 ≤ 2 ^ 63 := by
      have h1 : -(2 : Int) ^ 63 ≤ Int.negSucc m := hlo
      rw [Int.negSucc_eq] at h1
      have h2 : ((m : Int) + 1) ≤ 2 ^ 63 := by omega
      exact_mod_cast h2
    exact ParseInt_negSucc m hm

theorem toString_int_ne_empty (v : Int) : toString v ≠ "" := by
  intro h
  have hd : (toString v).data = [] := by rw [h]
  cases v with
  | ofNat n =>
    obtain ⟨c, cs, hcs, _, _⟩ := toDigits_head n
    have hdata : (toString (Int.ofNat n)).data = c :: cs := by
      show (Nat.repr n).data = c :: cs
      unfold Nat.repr
      rw [hcs]
      rfl
    rw [hdata] at hd
    cases hd
  | negSucc m =>
    have hdata : (toString (Int.negSucc m)).data = '-' :: Nat.toDigits 10 (m + 1) := by
      show ("-" ++ Nat.repr (m + 1)).data = '-' :: Nat.toDigits 10 (m + 1)
      unfold Nat.repr
      rfl
    rw [hdata] at hd
    cases hd

theorem loadedConfig_GetInt_env (os : Surroundings) (configFile : String)
    (values : List (String × ConfigValue)) (s : String)
    (hE : os.LookupEnv "PUSHER_FEEDBACKLISTENERS_GRACEFULSHUTDOWNTIMEOUT" = some s)
    (hs : s ≠ "") :
    (loadedConfig configFile values).GetInt os "feedbackListeners.gracefulShutdownTimeout" =
      (strconv.ParseInt s).getD 0 := by
  simp only [Viper.GetInt, loadedConfig_Get, hE, Option.getD_some, ne_eq, hs, not_false_eq_true,
    if_true, cast.ToInt]

theorem loadedConfig_GetInt_parent (os : Surroundings) (configFile : String)
    (values : List (String × ConfigValue)) (s : String)
    (hE : os.LookupEnv "PUSHER_FEEDBACKLISTENERS_GRACEFULSHUTDOWNTIMEOUT" = none ∨
      os.LookupEnv "PUSHER_FEEDBACKLISTENERS_GRACEFULSHUTDOWNTIMEOUT" = some "")
    (hP : os.LookupEnv "PUSHER_FEEDBACKLISTENERS" = some s) (hs : s ≠ "") :
    (loadedConfig configFile values).GetInt os "feedbackListeners.gracefulShutdownTimeout" =
      0 := by
  have hE0 : (os.LookupEnv "PUSHER_FEEDBACKLISTENERS_GRACEFULSHUTDOWNTIMEOUT").getD "" = "" := by
    rcases hE with hE | hE <;> rw [hE] <;> rfl
  simp only [Viper.GetInt, loadedConfig_Get, hE0, hP, Option.getD_some, ne_eq, hs,
    not_true_eq_false, not_false_eq_true, if_true, if_false, cast.ToInt]

theorem loadedConfig_GetInt_file (os : Surroundings) (configFile : String)
    (values : List (String × ConfigValue))
    (hE : os.LookupEnv "PUSHER_FEEDBACKLISTENERS_GRACEFULSHUTDOWNTIMEOUT" = none ∨
      os.LookupEnv "PUSHER_FEEDBACKLISTENERS_GRACEFULSHUTDOWNTIMEOUT" = some "")
    (hP : os.LookupEnv "PUSHER_FEEDBACKLISTENERS" = none ∨
      os.LookupEnv "PUSHER_FEEDBACKLISTENERS" = some "") :
    (loadedConfig configFile values).GetInt os "feedbackListeners.gracefulShutdownTimeout" =
      cast.ToInt
        (match searchMapWithPathPrefixes values
            ["feedbacklisteners", "gracefulshutdowntimeout"] with
         | some val => some val
         | none =>
           if isPathShadowedInDeepMap ["feedbacklisteners", "gracefulshutdowntimeout"] values ≠ ""
           then none
           else some (ConfigValue.int 1)) := by
  have hE0 : (os.LookupEnv "PUSHER_FEEDBACKLISTENERS_GRACEFULSHUTDOWNTIMEOUT").getD "" = "" := by
    rcases hE with hE | hE <;> rw [hE] <;> rfl
  have hP0 : (os.LookupEnv "PUSHER_FEEDBACKLISTENERS").getD "" = "" := by
    rcases hP with hP | hP <;> rw [hP] <;> rfl
  simp only [Viper.GetInt, loadedConfig_Get, hE0, hP0, ne_eq, not_true_eq_false, if_false]

/-- C11 (as amended): for every configuration that `configure` accepts (it returns no
error), `GracefulShutdownTimeout` is what `GetInt` of `viper` gives for the key
`feedbackListeners.gracefulShutdownTimeout`.
* When the environment variable
  `PUSHER_FEEDBACKLISTENERS_GRACEFULSHUTDOWNTIMEOUT` holds a non-empty string, it
  is the integer that `strconv.ParseInt(s, 0, 0)` reads in it, 0 when it reads
  none; for the decimal numeral of an `int64` `v` it is `v`.
* When that variable is unset or empty and the variable of the parent key,
  `PUSHER_FEEDBACKLISTENERS`, holds a non-empty string, it is 0.
* When both variables are unset or empty: it is `v` when the file sets the key to
  the integer `v`, either under the dotted key or, without a dotted key, inside
  the map `feedbackListeners`; it is 1 when the file does not set the key (no
  dotted key or a null one, and `feedbackListeners` absent, null, or a map in
  which `gracefulShutdownTimeout` is absent or null); and it is 0 when the file
  does not set the key and gives `feedbackListeners` a plain value. -/
theorem C11_gracefulShutdownTimeout_lookup {Q B H : Type} (os : Surroundings)
    (comp : Components Q B H) (l l1 : ListenerFields Q B H) (events : List ConfigureEvent)
    (h : configure os comp l = (none, l1, events)) :
    ∃ values, os.readConfigFile l.ConfigFile = Except.ok values ∧
      (∀ s, os.LookupEnv "PUSHER_FEEDBACKLISTENERS_GRACEFULSHUTDOWNTIMEOUT" = some s → s ≠ "" →
        l1.GracefulShutdownTimeout = (strconv.ParseInt s).getD 0 ∧
        (∀ v : Int, -2 ^ 63 ≤ v → v < 2 ^ 63 → s = toString v →
          l1.GracefulShutdownTimeout = v)) ∧
      ((os.LookupEnv "PUSHER_FEEDBACKLISTENERS_GRACEFULSHUTDOWNTIMEOUT" = none ∨
          os.LookupEnv "PUSHER_FEEDBACKLISTENERS_GRACEFULSHUTDOWNTIMEOUT" = some "") →
        (∀ s, os.LookupEnv "PUSHER_FEEDBACKLISTENERS" = some s → s ≠ "" →
          l1.GracefulShutdownTimeout = 0) ∧
        ((os.LookupEnv "PUSHER_FEEDBACKLISTENERS" = none ∨
            os.LookupEnv "PUSHER_FEEDBACKLISTENERS" = some "") →
          (∀ v : Int,
            values.lookup "feedbacklisteners.gracefulshutdowntimeout" =
              some (ConfigValue.int v) →
            l1.GracefulShutdownTimeout = v) ∧
          (∀ (m : List (String × ConfigValue)) (v : Int),
            values.lookup "feedbacklisteners.gracefulshutdowntimeout" = none →
            values.lookup "feedbacklisteners" = some (ConfigValue.map m) →
            m.lookup "gracefulshutdowntimeout" = some (ConfigValue.int v) →
            l1.GracefulShutdownTimeout = v) ∧
          ((values.lookup "feedbacklisteners.gracefulshutdowntimeout" = none ∨
              values.lookup "feedbacklisteners.gracefulshutdowntimeout" =
                some ConfigValue.null) →
            ((values.lookup "feedbacklisteners" = none ∨
                values.lookup "feedbacklisteners" = some ConfigValue.null ∨
                ∃ m, values.lookup "feedbacklisteners" = some (ConfigValue.map m) ∧
                  (m.lookup "gracefulshutdowntimeout" = none ∨
                    m.lookup "gracefulshutdowntimeout" = some ConfigValue.null)) →
              l1.GracefulShutdownTimeout = 1) ∧
            (∀ x, values.lookup "feedbacklisteners" = some x → x.isPlain = true →
              l1.GracefulShutdownTimeout = 0)))) := by
  cases hread : os.readConfigFile l.ConfigFile with
  | error e =>
    have := (configure_read_error os comp l e hread).1
    rw [h] at this
    cases this
  | ok values =>
    have ht := configure_timeout os comp l values hread
    rw [h] at ht
    simp only at ht
    refine ⟨values, rfl, ?_, ?_⟩
    · intro s hE hs
      have hg := loadedConfig_GetInt_env os l.ConfigFile values s hE hs
      refine ⟨ht.trans hg, ?_⟩
      intro v hlo hhi hv
      rw [ht, hg, hv, ParseInt_toString v hlo hhi]
      rfl
    · intro hE
      refine ⟨?_, ?_⟩
      · intro s hP hs
        exact ht.trans (loadedConfig_GetInt_parent os l.ConfigFile values s hE hP hs)
      · intro hP
        have hg := ht.trans (loadedConfig_GetInt_file os l.ConfigFile values hE hP)
        rw [searchMapWithPathPrefixes_two, isPathShadowedInDeepMap_two] at hg
        refine ⟨?_, ?_, ?_⟩
        · intro v hD
          rw [hg, hD]
          rfl
        · intro m v hD hPk hm
          rw [hg]
          simp only [hD, hPk, hm]
          rfl
        · intro hD
          refine ⟨?_, ?_⟩
          · intro hPk
            rw [hg]
            rcases hD with hD | hD <;> rcases hPk with hPk | hPk | ⟨m, hPk, hm | hm⟩ <;>
              simp only [hD, hPk] <;> first | rfl | (simp only [hm]; rfl)
          · intro x hPk hx
            rw [hg]
            rcases hD with hD | hD <;> simp only [hD, hPk] <;> cases x <;>
              first | rfl | cases hx

/-- Witness of C11: the demonstration file does not set the key and the
environment variable of the key holds "30"; the timeout is 30. -/
theorem C11_gracefulShutdownTimeout_lookup_witness :
    ∃ l1 events,
      configure demoTimeoutInEnv demoComponents demoFields = (none, l1, events) ∧
      l1.GracefulShutdownTimeout = 30 := by
  refine ⟨_, _, rfl, ?_⟩
  obtain ⟨_, _, h1, _⟩ :=
    C11_gracefulShutdownTimeout_lookup demoTimeoutInEnv demoComponents demoFields _ _ rfl
  exact (h1 "30" rfl (by decide)).2 30 (by decide) (by decide) (by decide)

/-- Counterexample to C11 as stated: the key is set neither in the configuration
file nor by its environment variable, and `configure` accepts the configuration,
yet the timeout is 0 and not 1, once when the environment variable
`PUSHER_FEEDBACKLISTENERS` of the parent key holds "x", once when the file holds
only `feedbackListeners: 5`. -/
theorem C11_counterexample :
    (demoParentInEnv.LookupEnv "PUSHER_FEEDBACKLISTENERS_GRACEFULSHUTDOWNTIMEOUT" = none ∧
      demoParentInEnv.readConfigFile "../config/test.yaml" =
        Except.ok [("feedbacklisteners",
          ConfigValue.map [("queue",
            ConfigValue.map [("brokers", ConfigValue.str "localhost:9941")])])] ∧
      (configure demoParentInEnv demoComponents demoFields).1 = none ∧
      (configure demoParentInEnv demoComponents demoFields).2.1.GracefulShutdownTimeout = 0) ∧
    (demoPlainParentInFile.LookupEnv "PUSHER_FEEDBACKLISTENERS_GRACEFULSHUTDOWNTIMEOUT" = none ∧
      demoPlainParentInFile.LookupEnv "PUSHER_FEEDBACKLISTENERS" = none ∧
      demoPlainParentInFile.readConfigFile "../config/test.yaml" =
        Except.ok [("feedbacklisteners", ConfigValue.int 5)] ∧
      (configure demoPlainParentInFile demoComponents demoFields).1 = none ∧
      (configure demoPlainParentInFile demoComponents demoFields).2.1.GracefulShutdownTimeout =
        0) :=
  ⟨⟨rfl, rfl, rfl, rfl⟩, ⟨rfl, rfl, rfl, rfl, rfl⟩⟩

theorem NewListener_configFile {Q B H : Type} (os : Surroundings) (comp : Components Q B H)
    (configFile : String) :
    NewListener os comp configFile =
      (match configure os comp
          ({ Config := none, ConfigFile := configFile, Queue := none, Broker := none,
             InvalidTokenHandler := none, GracefulShutdownTimeout := 0, run := false,
             stopChannel := some (Chan.make 0) } : ListenerFields Q B H) with
       | (some err, _, events) => ((none, some err), events)
       | (none, l, events) => ((some l, none), events)) := rfl

/-- C12: `NewListener` returns either a nil listener with an error, or a listener
with a nil error. When the configuration file cannot be read it returns that
error and constructs nothing. When the consumer cannot be constructed it returns
an error and constructs neither broker nor handler; when the broker cannot be
constructed it returns an error and constructs no handler; when the handler
cannot be constructed it returns an error. Otherwise the error is nil and the
listener holds the consumer in `Queue`, the broker in `Broker` and the handler in
`InvalidTokenHandler`, the broker having been constructed with the consumer's
messages channel and pending counter and the handler with the broker's
`InvalidTokenOutChan`. -/
theorem C12_newListener_result {Q B H : Type} (os : Surroundings) (comp : Components Q B H)
    (configFile : String) :
    ((∃ l, (NewListener os comp configFile).1 = (some l, none)) ∨
      (∃ err, (NewListener os comp configFile).1 = (none, some err))) ∧
    (∀ err, os.readConfigFile configFile = Except.error err →
      NewListener os comp configFile = ((none, some err), [])) ∧
    (∀ values, os.readConfigFile configFile = Except.ok values →
      (∀ err, comp.NewKafkaConsumer (loadedConfig configFile values) = Except.error err →
        NewListener os comp configFile =
          ((none, some ("error creating new queue: " ++ err)),
           configureSentry os (loadedConfig configFile values) ++
             [ConfigureEvent.newKafkaConsumer])) ∧
      (∀ q, comp.NewKafkaConsumer (loadedConfig configFile values) = Except.ok q →
        (∀ err, comp.NewBroker (loadedConfig configFile values) (comp.MessagesChannel q)
            (comp.PendingMessagesWaitGroup q) = Except.error err →
          NewListener os comp configFile =
            ((none, some ("error creating new broke: " ++ err)),
             configureSentry os (loadedConfig configFile values) ++
               [ConfigureEvent.newKafkaConsumer,
                ConfigureEvent.newBroker (comp.MessagesChannel q)
                  (comp.PendingMessagesWaitGroup q)])) ∧
        (∀ b, comp.NewBroker (loadedConfig configFile values) (comp.MessagesChannel q)
            (comp.PendingMessagesWaitGroup q) = Except.ok b →
          (∀ err, comp.NewInvalidTokenHandler (loadedConfig configFile values)
              (comp.InvalidTokenOutChan b) = Except.error err →
            NewListener os comp configFile =
              ((none, some ("error creating new invalid token handler: " ++ err)),
               configureSentry os (loadedConfig configFile values) ++
                 [ConfigureEvent.newKafkaConsumer,
                  ConfigureEvent.newBroker (comp.MessagesChannel q)
                    (comp.PendingMessagesWaitGroup q),
                  ConfigureEvent.newInvalidTokenHandler (comp.InvalidTokenOutChan b)])) ∧
          (∀ h, comp.NewInvalidTokenHandler (loadedConfig configFile values)
              (comp.InvalidTokenOutChan b) = Except.ok h →
            ∃ l, NewListener os comp configFile =
                ((some l, none),
                 configureSentry os (loadedConfig configFile values) ++
                   [ConfigureEvent.newKafkaConsumer,
                    ConfigureEvent.newBroker (comp.MessagesChannel q)
                      (comp.PendingMessagesWaitGroup q),
                    ConfigureEvent.newInvalidTokenHandler (comp.InvalidTokenOutChan b)]) ∧
              l.Queue = some q ∧ l.Broker = some b ∧ l.InvalidTokenHandler = some h ∧
              l.Config = some (loadedConfig configFile values) ∧
              l.ConfigFile = configFile)))) := by
  have hfail : ∀ err, os.readConfigFile configFile = Except.error err →
      NewListener os comp configFile = ((none, some err), []) := by
    intro err hread
    have h := configure_read_error os comp
      ({ Config := none, ConfigFile := configFile, Queue := none, Broker := none,
         InvalidTokenHandler := none, GracefulShutdownTimeout := 0, run := false,
         stopChannel := some (Chan.make 0) } : ListenerFields Q B H) err hread
    rw [NewListener_configFile]
    generalize configure os comp _ = r at h
    obtain ⟨e, l, ev⟩ := r
    simp only at h
    obtain ⟨h1, h2⟩ := h
    subst h1 h2
    rfl
  have hok : ∀ values, os.readConfigFile configFile = Except.ok values →
      NewListener os comp configFile =
        (match configure os comp
          ({ Config := none, ConfigFile := configFile, Queue := none, Broker := none,
             InvalidTokenHandler := none, GracefulShutdownTimeout := 0, run := false,
             stopChannel := some (Chan.make 0) } : ListenerFields Q B H) with
         | (some err, _, events) => ((none, some err), events)
         | (none, l, events) => ((some l, none), events)) := fun _ _ => rfl
  refine ⟨?_, hfail, ?_⟩
  · cases hread : os.readConfigFile configFile with
    | error e => exact Or.inr ⟨e, by rw [hfail e hread]⟩
    | ok values =>
      rw [NewListener_configFile]
      generalize configure os comp _ = r
      obtain ⟨e, l, ev⟩ := r
      cases e with
      | none => exact Or.inl ⟨l, rfl⟩
      | some e => exact Or.inr ⟨e, rfl⟩
  · intro values hread
    have hc := configure_read_ok os comp
      ({ Config := none, ConfigFile := configFile, Queue := none, Broker := none,
         InvalidTokenHandler := none, GracefulShutdownTimeout := 0, run := false,
         stopChannel := some (Chan.make 0) } : ListenerFields Q B H) values hread
    simp only at hc
    refine ⟨?_, ?_⟩
    · intro err hq
      rw [NewListener_configFile, hc, hq]
      simp [Errorf_queue]
    · intro q hq
      refine ⟨?_, ?_⟩
      · intro err hb
        rw [NewListener_configFile, hc, hq]
        simp only
        rw [hb]
        simp [Errorf_broker]
      · intro b hb
        refine ⟨?_, ?_⟩
        · intro err hh
          rw [NewListener_configFile, hc, hq]
          simp only
          rw [hb]
          simp only
          rw [hh]
          simp [Errorf_handler]
        · intro h hh
          refine ⟨ListenerFields.mk (some (loadedConfig configFile values)) configFile
            (some q) (some b) (some h)
            ((loadedConfig configFile values).GetInt os
              "feedbackListeners.gracefulShutdownTimeout")
            false (some (Chan.make 0)), ?_, rfl, rfl, rfl, rfl, rfl⟩
          rw [NewListener_configFile, hc, hq]
          simp only
          rw [hb]
          simp only
          rw [hh]
          simp

/-- Witness of C12: the demonstration surroundings and components, for which
every step succeeds. -/
theorem C12_newListener_result_witness :
    ∃ l, (NewListener demoSurroundings demoComponents "../config/test.yaml").1 =
        (some l, none) ∧
      l.Broker = some { messages := { id := 1 }, pending := some { counter := 0 },
                        InvalidTokenOutChan := { id := 2 } } ∧
      l.InvalidTokenHandler = some { inChan := { id := 2 } } := by
  obtain ⟨l, h1, _, h2, h3, _⟩ :=
    ((((C12_newListener_result demoSurroundings demoComponents "../config/test.yaml").2.2
      _ rfl).2 _ rfl).2 _ rfl).2 _ rfl
  exact ⟨l, by rw [h1], h2, h3⟩

theorem stripStart_append (start : List Char) :
    ∀ rest : List Char, stripStart start (start ++ rest) = some rest := by
  induction start with
  | nil => intro rest; cases rest <;> rfl
  | cons a start ih =>
    intro rest
    simp [stripStart, ih]

theorem stripEnd_append (ending rest : List Char) :
    stripEnd ending (rest ++ ending) = some rest := by
  simp [stripEnd, List.reverse_append, stripStart_append]

theorem parseTopic_gcm (game : String) (hgame : validGame game.data = true) :
    parseTopic ("push-" ++ game ++ "-gcm-feedbacks") = some (game, Platform.gcm) := by
  have hdata : ("push-" ++ game ++ "-gcm-feedbacks").data =
      "push-".data ++ (game.data ++ "-gcm-feedbacks".data) := by
    simp [String.data_append]
  unfold parseTopic
  rw [hdata, stripStart_append]
  simp only [stripEnd_append, hgame, if_true]

theorem route_gcm_unregistered (codec : Decoders) (m : QueueMessage) (game : String)
    (f : GCMFeedback) (hgame : validGame game.data = true)
    (htopic : m.topic = "push-" ++ game ++ "-gcm-feedbacks")
    (hdec : codec.gcm m.payload = some f) (herr : f.Error = "DEVICE_UNREGISTERED") :
    Broker.route codec m =
      some { game := game, platform := Platform.gcm, token := f.From } := by
  unfold Broker.route
  rw [htopic, parseTopic_gcm game hgame]
  simp only [hdec, herr]
  simp [gcmInvalidTokenCodes]

theorem selectByToken_length (db : Database) (table token : String) :
    (db.selectByToken table token).length = 0 ↔ Absent db table token := by
  unfold Database.selectByToken Absent
  rw [List.length_eq_zero, List.filter_eq_nil_iff]
  constructor
  · intro h r hr heq
    exact h r hr (by simp [heq])
  · intro h r hr hb
    exact h r hr (by simpa using hb)

theorem mem_delete (db : Database) (table : String) (tokens : List String) (t : String)
    (r : Row) :
    r ∈ (db.delete table tokens) t ↔ r ∈ db t ∧ (t = table → r.token ∉ tokens) := by
  unfold Database.delete
  by_cases ht : t = table
  · simp [ht]
  · simp [ht]

theorem execDelete_buffer (up : Nat → Bool) (table : String) (tokens : List String) :
    ∀ (retries : Nat) (st : HandlerState),
      (execDelete up retries st table tokens).buffer = st.buffer := by
  intro retries
  induction retries with
  | zero =>
    intro st
    unfold execDelete
    split <;> rfl
  | succ r ih =>
    intro st
    unfold execDelete
    split
    · rfl
    · simp only
      rw [ih]

theorem execDelete_db (up : Nat → Bool) (table : String) (tokens : List String) :
    ∀ (retries : Nat) (st : HandlerState),
      (execDelete up retries st table tokens).db = st.db ∨
      (execDelete up retries st table tokens).db = st.db.delete table tokens := by
  intro retries
  induction retries with
  | zero =>
    intro st
    unfold execDelete
    split
    · exact Or.inr rfl
    · exact Or.inl rfl
  | succ r ih =>
    intro st
    unfold execDelete
    split
    · exact Or.inr rfl
    · simpa using ih { st with attempts := st.attempts + 1 }

theorem execDelete_success (up : Nat → Bool) (table : String) (tokens : List String) :
    ∀ (retries : Nat) (st : HandlerState),
      (∃ j, j ≤ retries ∧ up (st.attempts + j) = true) →
      (execDelete up retries st table tokens).db = st.db.delete table tokens := by
  intro retries
  induction retries with
  | zero =>
    intro st h
    obtain ⟨j, hj, hup⟩ := h
    have hj0 : j = 0 := by omega
    subst hj0
    unfold execDelete
    simp only [Nat.add_zero] at hup
    simp [hup]
  | succ r ih =>
    intro st h
    obtain ⟨j, hj, hup⟩ := h
    unfold execDelete
    by_cases h0 : up st.attempts = true
    · simp [h0]
    · simp only [h0]
      have hjpos : j ≠ 0 := by
        intro hj0
        subst hj0
        simp only [Nat.add_zero] at hup
        exact h0 hup
      have := ih { st with attempts := st.attempts + 1 }
        ⟨j - 1, by omega, by
          have : st.attempts + 1 + (j - 1) = st.attempts + j := by omega
          simpa [this] using hup⟩
      simpa using this

theorem execDelete_subset (up : Nat → Bool) (table : String) (tokens : List String)
    (retries : Nat) (st : HandlerState) (t : String) (r : Row)
    (h : r ∈ (execDelete up retries st table tokens).db t) : r ∈ st.db t := by
  rcases execDelete_db up table tokens retries st with hdb | hdb
  · rwa [hdb] at h
  · rw [hdb] at h
    exact ((mem_delete _ _ _ _ _).1 h).1

theorem execDelete_kept (up : Nat → Bool) (table : String) (tokens : List String)
    (retries : Nat) (st : HandlerState) (t : String) (r : Row) (h : r ∈ st.db t)
    (hnot : t = table → r.token ∉ tokens) :
    r ∈ (execDelete up retries st table tokens).db t := by
  rcases execDelete_db up table tokens retries st with hdb | hdb
  · rwa [hdb]
  · rw [hdb]
    exact (mem_delete _ _ _ _ _).2 ⟨h, hnot⟩

theorem mem_batchTables (batch : List InvalidToken) :
    ∀ ev ∈ batch, ev.table ∈ batchTables batch := by
  induction batch with
  | nil => intro ev h; cases h
  | cons e rest ih =>
    intro ev h
    simp only [batchTables]
    rcases List.mem_cons.1 h with heq | hmem
    · subst heq
      split
      · assumption
      · exact List.mem_cons_self _ _
    · split
      · exact ih ev hmem
      · exact List.mem_cons_of_mem _ (ih ev hmem)

theorem mem_batchTokens (table token : String) (batch : List InvalidToken) :
    token ∈ batchTokens table batch ↔ ∃ ev ∈ batch, ev.table = table ∧ ev.token = token := by
  simp [batchTokens, List.mem_map, List.mem_filter, and_assoc]

theorem Absent_of_subset (db1 db2 : Database) (table token : String)
    (hsub : ∀ r, r ∈ db2 table → r ∈ db1 table) (h : Absent db1 table token) :
    Absent db2 table token :=
  fun r hr => h r (hsub r hr)

theorem flushFold_subset (up : Nat → Bool) (retries : Nat) (toks : String → List String)
    (tables : List String) : ∀ (st : HandlerState) (t : String) (r : Row),
      r ∈ (tables.foldl (fun s table => execDelete up retries s table (toks table)) st).db t →
      r ∈ st.db t := by
  induction tables with
  | nil => intro st t r h; exact h
  | cons a rest ih =>
    intro st t r h
    simp only [List.foldl_cons] at h
    exact execDelete_subset up a (toks a) retries st t r (ih _ t r h)

theorem flushFold_kept (up : Nat → Bool) (retries : Nat) (toks : String → List String)
    (tables : List String) : ∀ (st : HandlerState) (t : String) (r : Row),
      r ∈ st.db t → (∀ table ∈ tables, t = table → r.token ∉ toks table) →
      r ∈ (tables.foldl (fun s table => execDelete up retries s table (toks table)) st).db t := by
  induction tables with
  | nil => intro st t r h _; exact h
  | cons a rest ih =>
    intro st t r h hnot
    simp only [List.foldl_cons]
    refine ih _ t r ?_ (fun table hmem => hnot table (List.mem_cons_of_mem _ hmem))
    exact execDelete_kept up a (toks a) retries st t r h (hnot a (List.mem_cons_self _ _))

theorem flushFold_deleted (up : Nat → Bool) (retries : Nat)
    (hup : ∀ k, ∃ j, j ≤ retries ∧ up (k + j) = true) (toks : String → List String)
    (tables : List String) : ∀ (st : HandlerState) (table token : String),
      table ∈ tables → token ∈ toks table →
      Absent (tables.foldl (fun s table => execDelete up retries s table (toks table)) st).db
        table token := by
  induction tables with
  | nil => intro st table token h; cases h
  | cons a rest ih =>
    intro st table token hmem htok
    simp only [List.foldl_cons]
    by_cases hrest : table ∈ rest
    · exact ih _ table token hrest htok
    · have ha : table = a := by
        rcases List.mem_cons.1 hmem with h | h
        · exact h
        · exact absurd h hrest
      subst ha
      refine Absent_of_subset (execDelete up retries st table (toks table)).db _ table token
        (fun r hr => flushFold_subset up retries toks rest _ table r hr) ?_
      rw [execDelete_success up table (toks table) retries st (hup st.attempts)]
      intro r hr heq
      have := ((mem_delete _ _ _ _ _).1 hr).2 rfl
      exact this (heq ▸ htok)

theorem flush_buffer (cfg : HandlerConfig) (up : Nat → Bool) (st : HandlerState) :
    (flush cfg up st).buffer = [] := rfl

theorem flush_subset (cfg : HandlerConfig) (up : Nat → Bool) (st : HandlerState) (t : String)
    (r : Row) (h : r ∈ (flush cfg up st).db t) : r ∈ st.db t :=
  flushFold_subset up cfg.maxRetries (fun table => batchTokens table st.buffer) _ st t r h

theorem flush_kept (cfg : HandlerConfig) (up : Nat → Bool) (st : HandlerState) (t : String)
    (r : Row) (h : r ∈ st.db t)
    (hnot : ∀ ev ∈ st.buffer, ev.table = t → ev.token ≠ r.token) :
    r ∈ (flush cfg up st).db t := by
  refine flushFold_kept up cfg.maxRetries (fun table => batchTokens table st.buffer) _ st t r h ?_
  intro table _ ht hmem
  obtain ⟨ev, hev, htab, htok⟩ := (mem_batchTokens table r.token st.buffer).1 hmem
  exact hnot ev hev (htab.trans ht.symm) htok

theorem flush_absent (cfg : HandlerConfig) (up : Nat → Bool)
    (hup : ∀ k, ∃ j, j ≤ cfg.maxRetries ∧ up (k + j) = true) (st : HandlerState)
    (ev : InvalidToken) (hev : ev ∈ st.buffer) :
    Absent (flush cfg up st).db ev.table ev.token :=
  flushFold_deleted up cfg.maxRetries hup (fun table => batchTokens table st.buffer) _ st
    ev.table ev.token (mem_batchTables st.buffer ev hev)
    ((mem_batchTokens ev.table ev.token st.buffer).2 ⟨ev, hev, rfl, rfl⟩)

theorem receive_cases (cfg : HandlerConfig) (up : Nat → Bool) (st : HandlerState)
    (ev : InvalidToken) :
    receive cfg up st ev = { st with buffer := st.buffer ++ [ev] } ∨
    receive cfg up st ev = flush cfg up { st with buffer := st.buffer ++ [ev] } := by
  unfold receive
  simp only
  split
  · exact Or.inr rfl
  · exact Or.inl rfl

theorem receive_inv (cfg : HandlerConfig) (up : Nat → Bool)
    (hup : ∀ k, ∃ j, j ≤ cfg.maxRetries ∧ up (k + j) = true) (st : HandlerState)
    (ev e : InvalidToken)
    (h : e ∈ st.buffer ∨ Absent st.db e.table e.token ∨ e = ev) :
    e ∈ (receive cfg up st ev).buffer ∨ Absent (receive cfg up st ev).db e.table e.token := by
  rcases receive_cases cfg up st ev with hr | hr
  · rw [hr]
    rcases h with h | h | h
    · exact Or.inl (List.mem_append_left _ h)
    · exact Or.inr h
    · exact Or.inl (by simp [h])
  · rw [hr]
    right
    rcases h with h | h | h
    · exact flush_absent cfg up hup _ e (List.mem_append_left _ h)
    · exact Absent_of_subset st.db _ e.table e.token
        (fun r hr => flush_subset cfg up { st with buffer := st.buffer ++ [ev] } e.table r hr) h
    · exact flush_absent cfg up hup _ e (by simp [h])

theorem receive_kept (cfg : HandlerConfig) (up : Nat → Bool) (st : HandlerState)
    (ev : InvalidToken) :
    (∀ e ∈ (receive cfg up st ev).buffer, e ∈ st.buffer ∨ e = ev) ∧
    (∀ (t : String) (r : Row), r ∈ st.db t →
      (∀ e, (e ∈ st.buffer ∨ e = ev) → e.table = t → e.token ≠ r.token) →
      r ∈ (receive cfg up st ev).db t) := by
  rcases receive_cases cfg up st ev with hr | hr
  · rw [hr]
    refine ⟨?_, ?_⟩
    · intro e he
      simpa using he
    · intro t r h _
      exact h
  · rw [hr]
    refine ⟨?_, ?_⟩
    · intro e he
      rw [flush_buffer] at he
      cases he
    · intro t r h hnot
      refine flush_kept cfg up _ t r h ?_
      intro e he
      exact hnot e (by simpa using he)

theorem feed_inv (codec : Decoders) (cfg : HandlerConfig) (up : Nat → Bool)
    (hup : ∀ k, ∃ j, j ≤ cfg.maxRetries ∧ up (k + j) = true) (st : HandlerState)
    (m : QueueMessage) (e : InvalidToken)
    (h : e ∈ st.buffer ∨ Absent st.db e.table e.token ∨ Broker.route codec m = some e) :
    e ∈ (feed codec cfg up st m).buffer ∨
      Absent (feed codec cfg up st m).db e.table e.token := by
  unfold feed
  cases hroute : Broker.route codec m with
  | none =>
    rcases h with h | h | h
    · exact Or.inl h
    · exact Or.inr h
    · rw [hroute] at h; cases h
  | some ev =>
    refine receive_inv cfg up hup st ev e ?_
    rcases h with h | h | h
    · exact Or.inl h
    · exact Or.inr (Or.inl h)
    · rw [hroute] at h
      exact Or.inr (Or.inr (Option.some.inj h).symm)

theorem feed_kept (codec : Decoders) (cfg : HandlerConfig) (up : Nat → Bool)
    (st : HandlerState) (m : QueueMessage) :
    (∀ e ∈ (feed codec cfg up st m).buffer, e ∈ st.buffer ∨ Broker.route codec m = some e) ∧
    (∀ (t : String) (r : Row), r ∈ st.db t →
      (∀ e, (e ∈ st.buffer ∨ Broker.route codec m = some e) → e.table = t →
        e.token ≠ r.token) →
      r ∈ (feed codec cfg up st m).db t) := by
  unfold feed
  cases hroute : Broker.route codec m with
  | none =>
    refine ⟨fun e he => Or.inl he, fun t r h _ => h⟩
  | some ev =>
    obtain ⟨h1, h2⟩ := receive_kept cfg up st ev
    refine ⟨?_, ?_⟩
    · intro e he
      rcases h1 e he with h | h
      · exact Or.inl h
      · exact Or.inr (by rw [h])
    · intro t r h hnot
      refine h2 t r h ?_
      intro e he
      rcases he with he | he
      · exact hnot e (Or.inl he)
      · exact hnot e (Or.inr (by rw [he]))

theorem run_inv (codec : Decoders) (cfg : HandlerConfig) (up : Nat → Bool)
    (hup : ∀ k, ∃ j, j ≤ cfg.maxRetries ∧ up (k + j) = true) (msgs : List QueueMessage) :
    ∀ (st : HandlerState) (e : InvalidToken),
      (e ∈ st.buffer ∨ Absent st.db e.table e.token ∨
        ∃ m ∈ msgs, Broker.route codec m = some e) →
      e ∈ (msgs.foldl (feed codec cfg up) st).buffer ∨
        Absent (msgs.foldl (feed codec cfg up) st).db e.table e.token := by
  induction msgs with
  | nil =>
    intro st e h
    rcases h with h | h | ⟨m, hm, _⟩
    · exact Or.inl h
    · exact Or.inr h
    · cases hm
  | cons m rest ih =>
    intro st e h
    simp only [List.foldl_cons]
    apply ih
    rcases h with h | h | ⟨m1, hm1, hr⟩
    · rcases feed_inv codec cfg up hup st m e (Or.inl h) with h2 | h2
      · exact Or.inl h2
      · exact Or.inr (Or.inl h2)
    · rcases feed_inv codec cfg up hup st m e (Or.inr (Or.inl h)) with h2 | h2
      · exact Or.inl h2
      · exact Or.inr (Or.inl h2)
    · rcases List.mem_cons.1 hm1 with heq | hmem
      · subst heq
        rcases feed_inv codec cfg up hup st m1 e (Or.inr (Or.inr hr)) with h2 | h2
        · exact Or.inl h2
        · exact Or.inr (Or.inl h2)
      · exact Or.inr (Or.inr ⟨m1, hmem, hr⟩)

theorem run_kept (codec : Decoders) (cfg : HandlerConfig) (up : Nat → Bool)
    (msgs : List QueueMessage) :
    ∀ st : HandlerState,
      (∀ e ∈ (msgs.foldl (feed codec cfg up) st).buffer,
        e ∈ st.buffer ∨ ∃ m ∈ msgs, Broker.route codec m = some e) ∧
      (∀ (t : String) (r : Row), r ∈ st.db t →
        (∀ e, (e ∈ st.buffer ∨ ∃ m ∈ msgs, Broker.route codec m = some e) → e.table = t →
          e.token ≠ r.token) →
        r ∈ (msgs.foldl (feed codec cfg up) st).db t) := by
  induction msgs with
  | nil =>
    intro st
    exact ⟨fun e he => Or.inl he, fun t r h _ => h⟩
  | cons m rest ih =>
    intro st
    simp only [List.foldl_cons]
    obtain ⟨f1, f2⟩ := feed_kept codec cfg up st m
    obtain ⟨i1, i2⟩ := ih (feed codec cfg up st m)
    have hsrc : ∀ e, (e ∈ (feed codec cfg up st m).buffer ∨
        ∃ m1 ∈ rest, Broker.route codec m1 = some e) →
        e ∈ st.buffer ∨ ∃ m1 ∈ m :: rest, Broker.route codec m1 = some e := by
      intro e he
      rcases he with he | ⟨m1, hm1, hr⟩
      · rcases f1 e he with h | h
        · exact Or.inl h
        · exact Or.inr ⟨m, List.mem_cons_self _ _, h⟩
      · exact Or.inr ⟨m1, List.mem_cons_of_mem _ hm1, hr⟩
    refine ⟨?_, ?_⟩
    · intro e he
      exact hsrc e (i1 e he)
    · intro t r h hnot
      refine i2 t r (f2 t r h ?_) ?_
      · intro e he
        rcases he with he | he
        · exact hnot e (Or.inl he)
        · exact hnot e (Or.inr ⟨m, List.mem_cons_self _ _, he⟩)
      · intro e he
        exact hnot e (hsrc e he)

theorem tableName_gcm (game : String) : tableName game Platform.gcm = game ++ "_gcm" := by
  apply String.ext
  simp [tableName, Platform.name, String.data_append]

/-- C13 (as amended): for every game, and every GCM feedback with error
`DEVICE_UNREGISTERED` among the messages produced on the topic
`push-<game>-gcm-feedbacks` while the listener is started, whatever the other
messages produced and however the consumer delivers them: provided every DELETE
statement succeeds at its first attempt or at one of its `maxRetries` retries,
a select of the feedback's token in the table `<game>_gcm`, made after the
handler's flush, returns no row. Feedbacks are routed to their own tables: a row
is removed only from the table of a game and platform for which an invalid-token
event with its token was emitted, so a row stays when no event for its table
carries its token. -/
theorem C13_unregistered_tokens_deleted (codec : Decoders) (cfg : HandlerConfig)
    (up : Nat → Bool) (hup : ∀ k, ∃ j, j ≤ cfg.maxRetries ∧ up (k + j) = true)
    (produced : List QueueMessage) (c : Consumption produced) (st0 : HandlerState) :
    (∀ (game : Game) (m : QueueMessage) (f : GCMFeedback), m ∈ produced →
      m.topic = "push-" ++ game.name ++ "-gcm-feedbacks" →
      codec.gcm m.payload = some f → f.Error = "DEVICE_UNREGISTERED" →
      ((runFeedbacks codec cfg up c.consumed st0).db.selectByToken
        (game.name ++ "_gcm") f.From).length = 0) ∧
    (∀ (t : String) (r : Row), r ∈ st0.db t →
      (∀ e, (e ∈ st0.buffer ∨ ∃ m1 ∈ produced, Broker.route codec m1 = some e) →
        e.table = t → e.token ≠ r.token) →
      r ∈ (runFeedbacks codec cfg up c.consumed st0).db t) := by
  constructor
  · intro game m f hm htopic hdec herr
    rw [selectByToken_length]
    have hroute := route_gcm_unregistered codec m game.name f game.valid htopic hdec herr
    have htab : ({ game := game.name, platform := Platform.gcm, token := f.From } :
        InvalidToken).table = game.name ++ "_gcm" := tableName_gcm game.name
    have hinv := run_inv codec cfg up hup c.consumed st0
      { game := game.name, platform := Platform.gcm, token := f.From }
      (Or.inr (Or.inr ⟨m, c.atLeastOnce m hm, hroute⟩))
    rw [htab] at hinv
    unfold runFeedbacks
    rcases hinv with hbuf | habs
    · have := flush_absent cfg up hup _ _ hbuf
      rwa [htab] at this
    · exact Absent_of_subset _ _ _ _ (fun r hr => flush_subset cfg up _ _ r hr) habs
  · intro t r hr hnot
    have hnot1 : ∀ e, (e ∈ st0.buffer ∨ ∃ m1 ∈ c.consumed, Broker.route codec m1 = some e) →
        e.table = t → e.token ≠ r.token := by
      intro e he
      rcases he with he | ⟨m1, hm1, hr1⟩
      · exact hnot e (Or.inl he)
      · exact hnot e (Or.inr ⟨m1, c.onlyProduced m1 hm1, hr1⟩)
    obtain ⟨k1, k2⟩ := run_kept codec cfg up c.consumed st0
    unfold runFeedbacks
    refine flush_kept cfg up _ t r (k2 t r hr hnot1) ?_
    intro e he
    exact hnot1 e (k1 e he)

/-- Witness of C13: scenario S1 of the spec, with a database that is up. -/
theorem C13_unregistered_tokens_deleted_witness :
    (demoDatabase "sniper_gcm" "sniper_gcm").length = 1 ∧
    ((runFeedbacks demoDecoders demoHandlerConfig (fun _ => true)
        (Consumption.inOrder [demoFeedback "sniper"]).consumed
        { buffer := [], db := demoDatabase "sniper_gcm", attempts := 0 }).db.selectByToken
      ("sniper" ++ "_gcm") "AAAA-AAAA-AAAA").length = 0 := by
  refine ⟨rfl, ?_⟩
  exact (C13_unregistered_tokens_deleted demoDecoders demoHandlerConfig (fun _ => true)
    (fun _ => ⟨0, Nat.zero_le _, rfl⟩) [demoFeedback "sniper"]
    (Consumption.inOrder [demoFeedback "sniper"])
    { buffer := [], db := demoDatabase "sniper_gcm", attempts := 0 }).1
    { name := "sniper", valid := by decide } (demoFeedback "sniper")
    { From := "AAAA-AAAA-AAAA", Error := "DEVICE_UNREGISTERED" }
    (List.mem_singleton.2 rfl) rfl (by decide) rfl

/-- Counterexample to C13 as stated: scenario S1 with a database on which every
statement fails. The feedback is a GCM feedback with error `DEVICE_UNREGISTERED`
produced on the topic of game `sniper`; the handler tries the DELETE and its
three retries and drops the batch, and the row with the token is still in
`sniper_gcm`. -/
theorem C13_counterexample :
    validGame "sniper".data = true ∧
    (demoFeedback "sniper").topic = "push-sniper-gcm-feedbacks" ∧
    demoDecoders.gcm (demoFeedback "sniper").payload =
      some { From := "AAAA-AAAA-AAAA", Error := "DEVICE_UNREGISTERED" } ∧
    ((runFeedbacks demoDecoders demoHandlerConfig (fun _ => false)
        (Consumption.inOrder [demoFeedback "sniper"]).consumed
        { buffer := [], db := demoDatabase "sniper_gcm", attempts := 0 }).db.selectByToken
      "sniper_gcm" "AAAA-AAAA-AAAA").length = 1 ∧
    (runFeedbacks demoDecoders demoHandlerConfig (fun _ => false)
        (Consumption.inOrder [demoFeedback "sniper"]).consumed
        { buffer := [], db := demoDatabase "sniper_gcm", attempts := 0 }).attempts = 4 := by
  refine ⟨by decide, by decide, by decide, by decide, by decide⟩

end Pusher
